import Mathlib

/-!
# Actor toolkit of CisimEjirtimid/tools

A shallow embedding of `mdsp_common/count_condition.h`, `mdsp_common/awaitable.h`,
`mdsp_common/sync_queue.h`, `mdsp_common/channel.h` and `thread.h`, followed by the
properties proved about it.

Conventions of the embedding

* Every member function runs atomically on the state it locks: the state is passed in and
  the new state is returned.  What a function reads after it has released the lock is read
  from a later state, which is an argument of the value returned.
* A blocking wait on a condition variable receives, as an explicit argument, the list of
  states that the waiting thread finds at its successive wake-ups (other threads may have
  changed the shared state in between).  When the list is exhausted the deadline elapses.
* `size_t` values are natural numbers; `++` on a `size_t` wraps modulo `2 ^ 64`.
* Shared ownership (`std::shared_ptr<CountCondition>`) is modelled by a heap of control
  blocks, each holding the latch and its `use_count`.
-/

set_option autoImplicit false

namespace mdsp

/-! ## timestamp.h (the part the waits use) -/

/-- Value of `std::numeric_limits<int>::max()`. -/
def INT_MAX : Int := 2147483647

/-- What a 64-bit signed variable holds after an arithmetic result `x` (two's complement
wrap-around; the results of the conversions below are meant to fit, in which case the value
is `x` itself). -/
def wrap64 (x : Int) : Int := (x + 2 ^ 63) % 2 ^ 64 - 2 ^ 63

/-- Class `Time`: `_value` counts units of 1/90,000,000 s (`Representation`). -/
structure Time where
  value : Int
deriving DecidableEq, Repr

namespace Time

/-- `Time::FromSeconds(value)`: a second is 90,000,000 representation units; the product
is an `int64_t`. -/
def FromSeconds (v : Int) : Time := ⟨wrap64 (v * 90000000)⟩

/-- `chronoMilliseconds().count()`: `duration_cast` to milliseconds truncates towards zero;
a millisecond is 90,000 representation units. -/
def chronoMilliseconds (t : Time) : Int := t.value.tdiv 90000

end Time

/-! ## Condition variables -/

/-- `std::condition_variable::wait_for(lock, rel_time, pred)`, which the standard defines as
`while (!pred()) if (wait_until(lock, deadline) == cv_status::timeout) return pred(); return true;`.
The first state is the one the caller holds the lock on; `wakeups` are the states found at
the successive wake-ups before the deadline; when none is left the deadline elapses and
`pred()` is returned for the state last seen.  The result is the returned boolean and the
state the caller holds the lock on afterwards.  The model does not measure real time, so
`rel_time` only documents the call. -/
def wait_for {σ : Type} (rel_time : Int) (pred : σ → Bool) : σ → List σ → Bool × σ
  | s, [] => (pred s, s)
  | s, s' :: wakeups => if pred s then (true, s) else wait_for rel_time pred s' wakeups

/-! ## count_condition.h -/

/-- Number of values of a `size_t`. -/
def SIZE_MOD : Nat := 2 ^ 64

/-- `CountCondition::Result`. -/
inductive Result where
  | OK
  | Shutdown
  | Timeout
deriving DecidableEq, Repr

/-- Data members of `CountCondition` (the mutex and the condition variable are replaced by
the conventions above). -/
structure CountCondition where
  enabled : Bool
  count : Nat
  expectedCount : Nat
deriving DecidableEq, Repr

namespace CountCondition

/-- A default-constructed `CountCondition`: `_enabled = false`, `_count = 0`,
`_expectedCount = 0`. -/
def init : CountCondition := { enabled := false, count := 0, expectedCount := 0 }

/-- `bool disable()`: returns the value and the new state. -/
def disable (c : CountCondition) : Bool × CountCondition :=
  if !c.enabled then (false, c)
  else (true, { c with enabled := false })

/-- `void expect(size_t expectedCount)`. -/
def expect (_c : CountCondition) (expectedCount : Nat) : CountCondition :=
  { enabled := true, count := 0, expectedCount := expectedCount }

/-- `void notify()`: `++_count` on a `size_t`. -/
def notify (c : CountCondition) : CountCondition :=
  { c with count := (c.count + 1) % SIZE_MOD }

/-- The lambda `shouldWait` of `wait`. -/
def shouldWait (c : CountCondition) : Bool :=
  c.enabled && c.count != c.expectedCount

/-- `Result wait(std::optional<Time> timeout = {})`.  `wakeups` is what the thread finds
while it is blocked in `_var.wait_for`; the members read after the wait are those of the
state current at that moment. -/
def wait (c : CountCondition) (timeout : Option Time) (wakeups : List CountCondition) : Result :=
  if c.expectedCount == 0 then Result.OK
  else
    let waitTime := timeout.getD (Time.FromSeconds INT_MAX)
    let r := if c.shouldWait
      then wait_for waitTime.chronoMilliseconds (fun s => !s.shouldWait) c wakeups
      else (true, c)
    let timedout := !r.1
    if !r.2.enabled || timedout then
      (if !r.2.enabled then Result.Shutdown else Result.Timeout)
    else Result.OK

end CountCondition

/-! ## sync_queue.h -/

/-- `enum class SyncQStatus`. -/
inductive SyncQStatus where
  | OK
  | Timeout
  | Shutdown
deriving DecidableEq, Repr

/-- `detail::IsVariant<T>`: the element type is a `std::variant`; `index` is
`std::variant::index()`, the position of the active alternative. -/
class IsVariant (T : Type) where
  index : T → Nat

/-- `std::holds_alternative<U>(v)`, the alternative `U` being named by its position. -/
def holds_alternative {T : Type} [IsVariant T] (U : Nat) (v : T) : Bool :=
  IsVariant.index v == U

/-- Data members of `SyncQueue<T>`; `q` is the deque, front first. -/
structure SyncQueue (T : Type) where
  producerTimeout : Time
  consumerTimeout : Time
  capacity : Nat
  shouldReceive : Bool
  q : List T
deriving DecidableEq, Repr

namespace SyncQueue

variable {T : Type}

/-- `SyncQueue(size_t capacity = 10)` with the default member initialisers. -/
def new (capacity : Nat) : SyncQueue T :=
  { producerTimeout := Time.FromSeconds INT_MAX
    consumerTimeout := Time.FromSeconds 5
    capacity := capacity
    shouldReceive := true
    q := [] }

/-- `_size_impl()`. -/
def size_impl (s : SyncQueue T) : Nat := s.q.length

/-- `_isEmpty_impl()`. -/
def isEmpty_impl (s : SyncQueue T) : Bool := s.q.isEmpty

/-- `_isFull_impl()`. -/
def isFull_impl (s : SyncQueue T) : Bool :=
  if s.capacity == 0 then false
  else decide (s.q.length ≥ s.capacity)

/-- `producerShouldWait()`. -/
def producerShouldWait (s : SyncQueue T) : Bool :=
  s.shouldReceive && s.isFull_impl

/-- `consumerShouldWait()`. -/
def consumerShouldWait (s : SyncQueue T) : Bool :=
  s.shouldReceive && s.isEmpty_impl

/-- First statement of `add` and `addFront`:
`if (producerShouldWait()) _notFull.wait_for(lock, _producerTimeout..., !producerShouldWait())`.
The value of `wait_for` is discarded by the source; the result is the state the producer
holds the lock on when the wait is over. -/
def producerWait (s : SyncQueue T) (wakeups : List (SyncQueue T)) : SyncQueue T :=
  if s.producerShouldWait then
    (wait_for s.producerTimeout.chronoMilliseconds (fun s' => !s'.producerShouldWait) s wakeups).2
  else s

/-- First statements of `get`, `getWithStatus` and `whenEnqueued`:
`bool timedout = false; if (consumerShouldWait()) timedout = !_notEmpty.wait_for(...)`.
The result is `timedout` and the state the consumer holds the lock on afterwards. -/
def consumerWait (s : SyncQueue T) (timeout : Time) (wakeups : List (SyncQueue T)) :
    Bool × SyncQueue T :=
  if s.consumerShouldWait then
    let r := wait_for timeout.chronoMilliseconds (fun s' => !s'.consumerShouldWait) s wakeups
    (!r.1, r.2)
  else (false, s)

/-- `void clear()`. -/
def clear (s : SyncQueue T) : SyncQueue T := { s with q := [] }

/-- First loop of `remove<Ts...>()`: the front is moved out and popped; it is pushed on
`copies` unless it holds one of the alternatives `Ts`.  Arguments: the deque, `copies`. -/
def removeDrain [IsVariant T] (Ts : List Nat) : List T → List T → List T
  | [], copies => copies
  | value :: q, copies =>
    if !(Ts.any (fun U => holds_alternative U value)) then removeDrain Ts q (copies ++ [value])
    else removeDrain Ts q copies

/-- Second loop of `remove<Ts...>()`: `copies` is moved back, front first.  Arguments:
`copies`, the deque. -/
def removeRefill : List T → List T → List T
  | [], q => q
  | value :: copies, q => removeRefill copies (q ++ [value])

/-- `void remove<Ts...>()`; when the first loop ends the deque is empty. -/
def remove [IsVariant T] (Ts : List Nat) (s : SyncQueue T) : SyncQueue T :=
  let copies := removeDrain Ts s.q []
  { s with q := removeRefill copies [] }

/-- `void shouldReceive(bool value, ClearCache shouldClear = ClearCache(true))`. -/
def setShouldReceive (s : SyncQueue T) (value : Bool) (shouldClear : Bool) : SyncQueue T :=
  let s1 := { s with shouldReceive := value }
  if shouldClear then { s1 with q := [] } else s1

/-- `bool add(T item)`: the returned value and the state the call leaves when it releases
the lock.  After the push the source does `lock.unlock(); notifyConsumer();
return !_isEmpty_impl();`: the returned value is read without the lock, on the queue as
it is by then, which consumers may have changed.  It is therefore given as a function of
that later state. -/
def add (s : SyncQueue T) (wakeups : List (SyncQueue T)) (item : T) :
    (SyncQueue T → Bool) × SyncQueue T :=
  let s1 := s.producerWait wakeups
  if !s1.shouldReceive then (fun _ => false, s1)
  else (fun later => !later.isEmpty_impl, { s1 with q := s1.q ++ [item] })

/-- `bool addFront(T item)`, with the returned value as for `add`. -/
def addFront (s : SyncQueue T) (wakeups : List (SyncQueue T)) (item : T) :
    (SyncQueue T → Bool) × SyncQueue T :=
  let s1 := s.producerWait wakeups
  if !s1.shouldReceive then (fun _ => false, s1)
  else (fun later => !later.isEmpty_impl, { s1 with q := item :: s1.q })

/-- `bool tryAdd(T& item)`; `locked` tells whether `try_to_lock` obtained the mutex.  The
returned value after a push is `!_isEmpty_impl()` read after `lock.unlock()` and
`notifyConsumer()`, given as for `add` as a function of the state found by that read. -/
def tryAdd (s : SyncQueue T) (locked : Bool) (item : T) :
    (SyncQueue T → Bool) × SyncQueue T :=
  if !locked || !s.shouldReceive || s.isFull_impl then (fun _ => false, s)
  else (fun later => !later.isEmpty_impl, { s with q := s.q ++ [item] })

/-- `T get()`: the returned item (`T{}` when nothing is popped) and the new state.  The
`[]` case of the match is never reached: the test before it excludes an empty deque. -/
def get [Inhabited T] (s : SyncQueue T) (wakeups : List (SyncQueue T)) : T × SyncQueue T :=
  let w := s.consumerWait s.consumerTimeout wakeups
  let timedout := w.1
  let s1 := w.2
  if timedout || s1.isEmpty_impl then (default, s1)
  else
    match s1.q with
    | [] => (default, s1)
    | item :: rest => (item, { s1 with q := rest })

/-- `std::pair<SyncQStatus, T> getWithStatus()`: the returned pair and the new state.  The
`[]` case of the match is never reached: the test before it excludes an empty deque. -/
def getWithStatus [Inhabited T] (s : SyncQueue T) (wakeups : List (SyncQueue T)) :
    (SyncQStatus × T) × SyncQueue T :=
  let w := s.consumerWait s.consumerTimeout wakeups
  let timedout := w.1
  let s1 := w.2
  if timedout || s1.isEmpty_impl then
    ((if !s1.shouldReceive then SyncQStatus.Shutdown else SyncQStatus.Timeout, default), s1)
  else
    match s1.q with
    | [] => ((SyncQStatus.Timeout, default), s1)
    | item :: rest => ((SyncQStatus.OK, item), { s1 with q := rest })

/-- `bool tryGet(T& item)`: the returned value, the new content of `item` and the new
state; `locked` tells whether `try_to_lock` obtained the mutex. -/
def tryGet (s : SyncQueue T) (locked : Bool) (item : T) : Bool × T × SyncQueue T :=
  if !locked || s.isEmpty_impl then (false, item, s)
  else
    match s.q with
    | [] => (false, item, s)
    | front :: rest => (true, front, { s with q := rest })

end SyncQueue

/-! ## Sequences of calls -/

/-- The calls `add(x)` made one after the other, each with the wake-ups of its own wait. -/
def addAll {T : Type} (s : SyncQueue T) : List (List (SyncQueue T) × T) → SyncQueue T
  | [] => s
  | (wakeups, x) :: calls => addAll (s.add wakeups x).2 calls

/-- One call of `getWithStatus()` per entry of the list (the wake-ups of that call): the
returned pairs in call order and the final state. -/
def getWithStatusAll {T : Type} [Inhabited T] (s : SyncQueue T) :
    List (List (SyncQueue T)) → List (SyncQStatus × T) × SyncQueue T
  | [] => ([], s)
  | wakeups :: calls =>
    let r := s.getWithStatus wakeups
    let rs := getWithStatusAll r.2 calls
    (r.1 :: rs.1, rs.2)

/-- One call of `get()` per entry of the list: the returned items and the final state. -/
def getAll {T : Type} [Inhabited T] (s : SyncQueue T) :
    List (List (SyncQueue T)) → List T × SyncQueue T
  | [] => ([], s)
  | wakeups :: calls =>
    let r := s.get wakeups
    let rs := getAll r.2 calls
    (r.1 :: rs.1, rs.2)

/-! ## awaitable.h -/

/-- What a `std::shared_ptr<CountCondition>` points to: the managed latch and the number of
shared owners (`use_count()`). -/
structure Shared where
  latch : CountCondition
  use_count : Nat
deriving DecidableEq, Repr

/-- The latches made by `std::make_shared<CountCondition>()`, addressed by position.  A
block whose `use_count` has dropped to 0 keeps its place, so an address is never reused. -/
abbrev Heap := List Shared

namespace Heap

/-- Change the block at address `a` (nothing happens at an address never allocated). -/
def modify (h : Heap) (a : Nat) (f : Shared → Shared) : Heap :=
  match h[a]? with
  | some b => h.set a (f b)
  | none => h

/-- One more shared owner: copy of a non-null `shared_ptr`. -/
def acquire (h : Heap) (a : Nat) : Heap :=
  h.modify a (fun b => { b with use_count := b.use_count + 1 })

/-- One shared owner less: a non-null `shared_ptr` is destroyed or set to `nullptr`. -/
def release (h : Heap) (a : Nat) : Heap :=
  h.modify a (fun b => { b with use_count := b.use_count - 1 })

end Heap

/-- `struct Awaitable`: the member `done` is `nullptr` (`none`) or the address of a block. -/
structure Awaitable where
  done : Option Nat
deriving DecidableEq, Repr

namespace Awaitable

/-- `Awaitable() = default`. -/
def Empty : Awaitable := { done := none }

/-- `Awaitable(size_t n)`: `done(std::make_shared<CountCondition>())`, then `done->expect(n)`. -/
def mk_n (n : Nat) (h : Heap) : Awaitable × Heap :=
  ({ done := some h.length },
   h ++ [{ latch := CountCondition.init.expect n, use_count := 1 }])

/-- `Awaitable(const Awaitable&) = default`: the new handle and the heap. -/
def copy (x : Awaitable) (h : Heap) : Awaitable × Heap :=
  match x.done with
  | none => ({ done := none }, h)
  | some a => ({ done := some a }, h.acquire a)

/-- `Awaitable(Awaitable&& other)`: the new handle and what is left of `other`; no owner is
added or removed. -/
def move (other : Awaitable) : Awaitable × Awaitable :=
  ({ done := other.done }, { done := none })

/-- `done.use_count()`, which is 0 for a null pointer. -/
def use_count (x : Awaitable) (h : Heap) : Nat :=
  match x.done with
  | none => 0
  | some a =>
    match h[a]? with
    | some b => b.use_count
    | none => 0

/-- `bool awaitable()`. -/
def awaitable (x : Awaitable) : Bool := x.done.isSome

/-- `CountCondition::Result wait(std::optional<Time> timeout = {})`; `wakeups` are the
states of the latch found while blocked.  The result is `none` only for a handle whose
address was never allocated, which no constructor produces. -/
def wait (x : Awaitable) (h : Heap) (timeout : Option Time) (wakeups : List CountCondition) :
    Option Result :=
  match x.done with
  | none => some Result.Shutdown
  | some a =>
    match h[a]? with
    | some b => some (b.latch.wait timeout wakeups)
    | none => none

/-- `void notify()`: `done->notify(); done = nullptr;` when `done` is not null. -/
def notify (x : Awaitable) (h : Heap) : Awaitable × Heap :=
  match x.done with
  | none => (x, h)
  | some a =>
    ({ done := none }, (h.modify a (fun b => { b with latch := b.latch.notify })).release a)

/-- `void unblock()`: `done->disable(); done = nullptr;` when `done` is not null. -/
def unblock (x : Awaitable) (h : Heap) : Awaitable × Heap :=
  match x.done with
  | none => (x, h)
  | some a =>
    ({ done := none }, (h.modify a (fun b => { b with latch := b.latch.disable.2 })).release a)

/-- `~Awaitable()`: `if (done.use_count() <= 2) unblock();`, after which the member `done`
is destroyed, releasing the block if the handle still owns one. -/
def dtor (x : Awaitable) (h : Heap) : Heap :=
  let r := if x.use_count h ≤ 2 then x.unblock h else (x, h)
  match r.1.done with
  | none => r.2
  | some a => r.2.release a

end Awaitable

/-! ## Commands: elements of a `std::variant` whose alternatives may derive from `Awaitable` -/

/-- A value of the command variant: the position of its active alternative, the `Awaitable`
base subobject when that alternative derives from `Awaitable` (`is_awaitable`), and the
remaining members. -/
structure Command (α : Type) where
  index : Nat
  base : Option Awaitable
  data : α
deriving DecidableEq, Repr

instance (α : Type) : IsVariant (Command α) where
  index := fun c => c.index

namespace Command

variable {α : Type}

/-- Destructor of a command that still owns what it holds: the `Awaitable` base, if any,
is destroyed. -/
def dtor (c : Command α) (h : Heap) : Heap :=
  match c.base with
  | none => h
  | some x => x.dtor h

end Command

/-- Destruction of a sequence of commands, front first (`std::deque::clear`). -/
def destroyAll {α : Type} (cs : List (Command α)) (h : Heap) : Heap :=
  cs.foldl (fun h' c => c.dtor h') h

namespace SyncQueue

variable {α : Type}

/-- `clear()` on a queue of commands: `_q.clear()` destroys every element. -/
def clearCmds (s : SyncQueue (Command α)) (h : Heap) : SyncQueue (Command α) × Heap :=
  (s.clear, destroyAll s.q h)

/-- First loop of `remove<Ts...>()` on a queue of commands.  `value` is move-constructed
from the front, which leaves the popped element without a handle; when `value` holds one of
`Ts` it is not moved on and is destroyed at the end of the iteration, still owning its
handle.  Arguments: the deque, `copies`, the heap. -/
def removeDrainCmds (Ts : List Nat) :
    List (Command α) → List (Command α) → Heap → List (Command α) × Heap
  | [], copies, h => (copies, h)
  | value :: q, copies, h =>
    if !(Ts.any (fun U => holds_alternative U value)) then
      removeDrainCmds Ts q (copies ++ [value]) h
    else removeDrainCmds Ts q copies (value.dtor h)

/-- `remove<Ts...>()` on a queue of commands. -/
def removeCmds (Ts : List Nat) (s : SyncQueue (Command α)) (h : Heap) :
    SyncQueue (Command α) × Heap :=
  let r := removeDrainCmds Ts s.q [] h
  ({ s with q := removeRefill r.1 [] }, r.2)

end SyncQueue

/-! ## The scoped lock `SyncQueue::Interlocked` -/

namespace Interlocked

variable {T : Type}

/-- `Interlocked::deny()`. -/
def deny (s : SyncQueue T) : SyncQueue T := { s with shouldReceive := false }

/-- `Interlocked::receive()`. -/
def receive (s : SyncQueue T) : SyncQueue T := { s with shouldReceive := true }

/-- `Interlocked::clear(bool shouldClear)`. -/
def clear (s : SyncQueue T) (shouldClear : Bool) : SyncQueue T :=
  if shouldClear then { s with q := [] } else s

/-- `Interlocked::clear(bool shouldClear)` on a queue of commands: the cleared elements are
destroyed. -/
def clearCmds {α : Type} (s : SyncQueue (Command α)) (shouldClear : Bool) (h : Heap) :
    SyncQueue (Command α) × Heap :=
  if shouldClear then ({ s with q := [] }, destroyAll s.q h) else (s, h)

end Interlocked

/-! ## channel.h -/

/-- `struct ChannelConfig`. -/
structure ChannelConfig where
  producerTimeout : Time
  consumerTimeout : Time
  capacity : Nat
deriving DecidableEq, Repr

/-- The policies of `namespace dispatch`. -/
inductive Dispatch where
  | Serial
  | Priority
deriving DecidableEq, Repr

/-- `Dispatch{}(q, req)`: `Serial` calls `q.add`, `Priority` calls `q.addFront`; the
boolean they return is dropped. -/
def Dispatch.call {T : Type} (d : Dispatch) (q : SyncQueue T) (wakeups : List (SyncQueue T))
    (req : T) : SyncQueue T :=
  match d with
  | Dispatch.Serial => (q.add wakeups req).2
  | Dispatch.Priority => (q.addFront wakeups req).2

/-- `struct Channel<Messages>`. -/
structure Channel (Messages : Type) where
  q : SyncQueue Messages
deriving DecidableEq, Repr

namespace Channel

variable {Messages : Type}

/-- `auto recv()`. -/
def recv [Inhabited Messages] (ch : Channel Messages) (wakeups : List (SyncQueue Messages)) :
    (SyncQStatus × Messages) × Channel Messages :=
  let r := ch.q.getWithStatus wakeups
  (r.1, { q := r.2 })

/-- `void send<Dispatch>(T&& msg)`. -/
def send (d : Dispatch) (ch : Channel Messages) (wakeups : List (SyncQueue Messages))
    (msg : Messages) : Channel Messages :=
  { q := d.call ch.q wakeups msg }

/-- `void open(const ChannelConfig& config)`. -/
def «open» (ch : Channel Messages) (config : ChannelConfig) : Channel Messages :=
  let q1 := { ch.q with producerTimeout := config.producerTimeout }
  let q2 := { q1 with consumerTimeout := config.consumerTimeout }
  let q3 := { q2 with capacity := config.capacity }
  { q := q3.setShouldReceive true true }

/-- `void close()`: `q.lock().deny().clear(true).notifyAll()`. -/
def close (ch : Channel Messages) : Channel Messages :=
  { q := Interlocked.clear (Interlocked.deny ch.q) true }

/-- `void clear()`. -/
def clear (ch : Channel Messages) : Channel Messages := { q := ch.q.clear }

/-- `void remove<Ts...>()`. -/
def remove [IsVariant Messages] (Ts : List Nat) (ch : Channel Messages) : Channel Messages :=
  { q := ch.q.remove Ts }

variable {α : Type}

/-- `send<Dispatch>(cmd)` for a command.  `add` and `addFront` take `item` by value: on the
push path it is moved into the deque; on the early return (the queue is closed when the
producer wait is over) it is destroyed at the end of the call, still owning its handle. -/
def sendCmd (d : Dispatch) (ch : Channel (Command α)) (wakeups : List (SyncQueue (Command α)))
    (cmd : Command α) (h : Heap) : Channel (Command α) × Heap :=
  (ch.send d wakeups cmd,
   if (ch.q.producerWait wakeups).shouldReceive then h else cmd.dtor h)

/-- `close()` on a channel of commands. -/
def closeCmds (ch : Channel (Command α)) (h : Heap) : Channel (Command α) × Heap :=
  let r := Interlocked.clearCmds (Interlocked.deny ch.q) true h
  ({ q := r.1 }, r.2)

end Channel

end mdsp

/-! ## thread.h -/

namespace cisim

open mdsp

/-- Data members of `Thread<State, Commands>` seen by the submitting threads: the channel
and the flag `running` (the state is owned by the worker). -/
structure Thread (α : Type) where
  channel : Channel (Command α)
  running : Bool
deriving DecidableEq, Repr

namespace Thread

variable {α : Type}

/-- `Awaitable async<T, Dispatch>(Ts&&... args)`, with `T` the alternative at position
`alt`: `Awaitable awaitable(1)`; the temporary `T{ awaitable, args... }` holds a copy of
the handle and is moved into `send`; the local handle is moved out as the result.  Returns
the handle, the thread and the heap. -/
def async (d : Dispatch) (alt : Nat) (args : α) (t : Thread α)
    (wakeups : List (SyncQueue (Command α))) (h : Heap) : Awaitable × Thread α × Heap :=
  let a := Awaitable.mk_n 1 h
  let c := a.1.copy a.2
  let cmd : Command α := { index := alt, base := some c.1, data := args }
  let r := t.channel.sendCmd d wakeups cmd c.2
  (a.1, { t with channel := r.1 }, r.2)

end Thread

end cisim

/-! ## Further members of the latch, the queue and the channel -/

namespace mdsp

/-- The waiting part of `CountCondition::wait`, reached when `_expectedCount != 0`:
`bool timedout = false; if (shouldWait()) timedout = !_var.wait_for(...)`.  The result is
`timedout` and the state the thread holds the lock on when it stops waiting, which is the
one the final `if (!_enabled || timedout)` reads. -/
def CountCondition.waitStop (c : CountCondition) (timeout : Option Time)
    (wakeups : List CountCondition) : Bool × CountCondition :=
  let waitTime := timeout.getD (Time.FromSeconds INT_MAX)
  if c.shouldWait then
    let r := wait_for waitTime.chronoMilliseconds (fun s => !s.shouldWait) c wakeups
    (!r.1, r.2)
  else (false, c)

/-- Calls of `tryGet(item)` with the lock uncontested, `n` of them one after the other on
the same variable `item`: the returned booleans with the content of `item` after each call,
and the final state. -/
def tryGetAll {T : Type} (s : SyncQueue T) (item : T) : Nat → List (Bool × T) × SyncQueue T
  | 0 => ([], s)
  | n + 1 =>
    let r := s.tryGet true item
    let rs := tryGetAll r.2.2 r.2.1 n
    ((r.1, r.2.1) :: rs.1, rs.2)

/-- The loop of `forEach<U>(handler)` over the deque: elements that do not hold `U` are
skipped, the others are passed to `handler` by reference.  `σ` is what the handler's lambda
captured by reference; the handler returns the element and the captured state as it leaves
them. -/
def forEachLoop {T σ : Type} [IsVariant T] (U : Nat) (handler : T → σ → T × σ) :
    List T → σ → List T × σ
  | [], st => ([], st)
  | var :: rest, st =>
    if !holds_alternative U var then
      let r := forEachLoop U handler rest st
      (var :: r.1, r.2)
    else
      let hv := handler var st
      let r := forEachLoop U handler rest hv.2
      (hv.1 :: r.1, r.2)

/-- `void forEach<U>(F&& handler)` (the overload for one alternative). -/
def SyncQueue.forEach {T σ : Type} [IsVariant T] (U : Nat) (handler : T → σ → T × σ)
    (s : SyncQueue T) (st : σ) : SyncQueue T × σ :=
  let r := forEachLoop U handler s.q st
  ({ s with q := r.1 }, r.2)

namespace Channel

variable {Messages : Type}

/-- `void select<T>(F&& handler)`. -/
def select {σ : Type} [IsVariant Messages] (U : Nat) (handler : Messages → σ → Messages × σ)
    (ch : Channel Messages) (st : σ) : Channel Messages × σ :=
  let r := ch.q.forEach U handler st
  ({ q := r.1 }, r.2)

/-- `void update<Dispatch>(T&& value)`, on the contents of the queue.  The lambda captures
`value` and `updated` by reference; on an element holding the alternative of `value` it
does `existing = std::forward<T>(value); updated = true;`.  `afterAssign` is the state of
`value` after that assignment: the identity when the argument is an lvalue (copy
assignment), the moved-from state when it is an rvalue. -/
def update [IsVariant Messages] (d : Dispatch) (afterAssign : Messages → Messages)
    (ch : Channel Messages) (wakeups : List (SyncQueue Messages)) (value : Messages) :
    Channel Messages :=
  let r := ch.select (IsVariant.index value)
    (fun (_existing : Messages) (st : Messages × Bool) => (st.1, (afterAssign st.1, true)))
    (value, false)
  if !r.2.2 then r.1.send d wakeups r.2.1 else r.1

end Channel

namespace Awaitable

/-- `Awaitable& operator=(const Awaitable& other)`, `other` being another object than
`*this`: `unblock(); done = other.done;`.  After `unblock()` the member is null, so the
assignment of the pointer only adds an owner to the block of `other`.  Returns `*this` and
the heap. -/
def copyAssign (self other : Awaitable) (h : Heap) : Awaitable × Heap :=
  let r := self.unblock h
  match other.done with
  | none => ({ done := none }, r.2)
  | some a => ({ done := some a }, r.2.acquire a)

/-- `Awaitable& operator=(Awaitable&& other)`, `other` being another object than `*this`:
`unblock(); done = std::move(other.done); other.done = nullptr;`.  Returns `*this`, what is
left of `other` and the heap. -/
def moveAssign (self other : Awaitable) (h : Heap) : Awaitable × Awaitable × Heap :=
  let r := self.unblock h
  ({ done := other.done }, { done := none }, r.2)

end Awaitable

namespace Command

variable {α : Type}

/-- Copy construction of a command: the `Awaitable` base, if any, is copied. -/
def copy (c : Command α) (h : Heap) : Command α × Heap :=
  match c.base with
  | none => (c, h)
  | some x => ({ c with base := some (x.copy h).1 }, (x.copy h).2)

/-- Implicit copy assignment `self = other` between two objects of one alternative: the
`Awaitable` base, if the alternative has one, is assigned by its `operator=`, then the
members are copied. -/
def copyAssign (self other : Command α) (h : Heap) : Command α × Heap :=
  match self.base, other.base with
  | some x, some y => ({ self with base := some (x.copyAssign y h).1, data := other.data },
                       (x.copyAssign y h).2)
  | _, _ => ({ self with data := other.data }, h)

/-- Implicit move assignment `self = std::move(other)` between two objects of one
alternative; `afterMove` gives the moved-from state of the members.  Returns `self`, what
is left of `other` and the heap. -/
def moveAssign (afterMove : α → α) (self other : Command α) (h : Heap) :
    Command α × Command α × Heap :=
  match self.base, other.base with
  | some x, some y =>
    ({ self with base := some (x.moveAssign y h).1, data := other.data },
     { other with base := some (x.moveAssign y h).2.1, data := afterMove other.data },
     (x.moveAssign y h).2.2)
  | _, _ => ({ self with data := other.data }, { other with data := afterMove other.data }, h)

end Command

namespace Channel

variable {α : Type}

/-- First statement of the lambda of `update` on a channel of commands:
`if constexpr (is_awaitable<T>) existing.unblock();`, `T` being the alternative of `value`
and of `existing`.  Returns `existing` and the heap. -/
def updateUnblock (value existing : Command α) (h : Heap) : Command α × Heap :=
  match value.base, existing.base with
  | some _, some x => ({ existing with base := some (x.unblock h).1 }, (x.unblock h).2)
  | _, _ => (existing, h)

/-- The lambda of `update` on a channel of commands, applied to an element `existing` that
holds the alternative of `value`.  The captured state is `value`, `updated` and the heap.
After `updateUnblock` comes `existing = std::forward<T>(value); updated = true;`, the
assignment being by move when `byMove` (rvalue argument) and by copy otherwise. -/
def updateHandler (byMove : Bool) (afterMove : α → α) (existing : Command α)
    (st : Command α × Bool × Heap) : Command α × (Command α × Bool × Heap) :=
  let u := updateUnblock st.1 existing st.2.2
  if byMove then
    let r := u.1.moveAssign afterMove st.1 u.2
    (r.1, (r.2.1, true, r.2.2))
  else
    let r := u.1.copyAssign st.1 u.2
    (r.1, (st.1, true, r.2))

/-- `update<Dispatch>(value)` on a channel of commands: the channel, what is left of the
caller's `value`, and the heap.  When nothing was updated the value is sent: an rvalue is
moved into the parameter of `add` / `addFront`, an lvalue is copied into it. -/
def updateCmds (d : Dispatch) (byMove : Bool) (afterMove : α → α) (ch : Channel (Command α))
    (wakeups : List (SyncQueue (Command α))) (value : Command α) (h : Heap) :
    Channel (Command α) × Command α × Heap :=
  let r := ch.select value.index (updateHandler byMove afterMove) (value, false, h)
  if !r.2.2.1 then
    if byMove then
      let s := r.1.sendCmd d wakeups r.2.1 r.2.2.2
      (s.1, { r.2.1 with base := r.2.1.base.map (fun _ => Awaitable.Empty),
                         data := afterMove r.2.1.data }, s.2)
    else
      let c := r.2.1.copy r.2.2.2
      let s := r.1.sendCmd d wakeups c.1 c.2
      (s.1, r.2.1, s.2)
  else (r.1, r.2.1, r.2.2.2)

end Channel

end mdsp

/-! ## Relations between heaps used in the statements about latches -/

namespace mdsp

/-- From `h` to `h'` the latch at `a`, if allocated, is still allocated, expects the same
number of notifications and, if it was disabled, is still disabled. -/
def Heap.Settled (a : Nat) (h h' : Heap) : Prop :=
  ∀ b, h[a]? = some b → ∃ b', h'[a]? = some b' ∧
    b'.latch.expectedCount = b.latch.expectedCount ∧
    (b.latch.enabled = false → b'.latch.enabled = false)

/-- From `h` to `h'` the latch at `a`, if allocated, is still allocated and has the same
flag, count and expected count (only its number of owners may differ). -/
def Heap.SameLatch (a : Nat) (h h' : Heap) : Prop :=
  ∀ b, h[a]? = some b → ∃ b', h'[a]? = some b' ∧ b'.latch = b.latch

end mdsp

/-! ## Sequences of calls on a latch -/

namespace mdsp

/-- The two calls that change an armed latch. -/
inductive LatchOp where
  | notify
  | disable
deriving DecidableEq, Repr

/-- One call on the latch. -/
def CountCondition.call (c : CountCondition) : LatchOp → CountCondition
  | LatchOp.notify => c.notify
  | LatchOp.disable => c.disable.2

/-- The calls of the list made one after the other. -/
def CountCondition.calls (c : CountCondition) (ops : List LatchOp) : CountCondition :=
  ops.foldl CountCondition.call c

/-! ## timestamp.h: conversions and `+=` -/

namespace Time

/-- `Time::FromDShowUnits(value)`: a unit is 100 ns, that is 9 representation units, so the
duration converts without loss and `_value` is 9 times the count. -/
def FromDShowUnits (v : Int) : Time := ⟨wrap64 (v * 9)⟩

/-- `Time(std::chrono::milliseconds(m))`, also `Time::FromMilliseconds(m)`: a millisecond
is 90,000 representation units. -/
def FromMilliseconds (m : Int) : Time := ⟨wrap64 (m * 90000)⟩

/-- `operator+=(const Time& rhs)`: `_value += rhs._value`. -/
def add (t rhs : Time) : Time := ⟨wrap64 (t.value + rhs.value)⟩

/-- `milliseconds<int64_t>()`: `chronoMilliseconds<int64_t>().count()`. -/
def milliseconds (t : Time) : Int := t.chronoMilliseconds

end Time

/-- `open(config)` on a channel of commands: `shouldReceive(true)` clears the deque with
the default `ClearCache(true)`, which destroys the queued commands. -/
def Channel.openCmds {α : Type} (ch : Channel (Command α)) (config : ChannelConfig)
    (h : Heap) : Channel (Command α) × Heap :=
  (ch.«open» config, destroyAll ch.q.q h)

/-- `T{}` for a command variant whose first alternative has no `Awaitable` base: the first
alternative, value-initialised. -/
instance (α : Type) [Inhabited α] : Inhabited (Command α) where
  default := { index := 0, base := none, data := default }

end mdsp

/-! ## thread.h: the worker -/

namespace cisim

open mdsp

/-- What a class derived from `Thread<State, Commands>` provides: `execute` and the hooks of
`DefaultHandlers` that receive the state by reference. -/
structure Handlers (State α : Type) where
  execute : State → Command α → State
  tick : State → State
  onStart : State → State
  onEnter : State → State
  onExit : State → State

/-- The calls an actor makes, recorded in the order they are made. -/
inductive Call where
  | onStart
  | onEnter
  | execute
  | notify
  | tick
  | onExit
  | onStop
deriving DecidableEq, Repr

/-- Where the worker thread stands: no thread was launched; the thread was launched and has
not yet run `onEnter`; it is at the test of `while (self.running)`; it has found `running`
set and is in the body of the loop, at `recv()`; its lambda ended after the loop (with
`onExit`); its lambda ended by the `return` of the Shutdown branch.  The state is the
lambda's own `state`. -/
inductive Worker (State : Type) where
  | none
  | launched (state : State)
  | looping (state : State)
  | receiving (state : State)
  | exited (state : State)
  | returned (state : State)
deriving DecidableEq, Repr

/-- An actor: the `Thread` object, its worker thread, `thread.joinable()`, the heap of the
latches, and the calls made so far. -/
structure Actor (State α : Type) where
  self : Thread α
  worker : Worker State
  joinable : Bool
  heap : Heap
  calls : List Call

namespace Thread

variable {State α : Type}

/-- `void async<Dispatch>(T cmd)`: `channel.send<Dispatch>(std::move(cmd))`. -/
def asyncCmd (d : Dispatch) (cmd : Command α) (t : Thread α)
    (wakeups : List (SyncQueue (Command α))) (h : Heap) : Thread α × Heap :=
  let r := t.channel.sendCmd d wakeups cmd h
  ({ t with channel := r.1 }, r.2)

/-- The `std::visit` of the command loop: `self.execute(state, command)`, then
`command.notify()` when the alternative derives from `Awaitable`.  Returns the state, the
command, the heap and the calls made. -/
def visit (H : Handlers State α) (state : State) (cmd : Command α) (h : Heap) :
    State × Command α × Heap × List Call :=
  match cmd.base with
  | some x => (H.execute state cmd, { cmd with base := some (x.notify h).1 }, (x.notify h).2,
               [Call.execute, Call.notify])
  | none => (H.execute state cmd, cmd, h, [Call.execute])

/-- One pass through the body of `while (self.running)`: `recv()`; on status Shutdown the
lambda returns; otherwise the visit, then `self.tick(state)`.  `cmd` is destroyed at the end
of the pass.  Returns where the worker stands, the thread object, the heap and the calls
made. -/
def iteration [Inhabited (Command α)] (H : Handlers State α) (t : Thread α) (state : State)
    (wakeups : List (SyncQueue (Command α))) (h : Heap) :
    Worker State × Thread α × Heap × List Call :=
  let r := t.channel.recv wakeups
  if r.1.1 = SyncQStatus.Shutdown then
    (Worker.returned state, { t with channel := r.2 }, r.1.2.dtor h, [])
  else
    let v := visit H state r.1.2 h
    (Worker.looping (H.tick v.1), { t with channel := r.2 }, v.2.1.dtor v.2.2.1,
     v.2.2.2 ++ [Call.tick])

end Thread

namespace Actor

variable {State α : Type}

/-- An actor just constructed: the queue as `SyncQueue()` makes it (capacity 10, open),
`running = false`, no thread. -/
def new : Actor State α :=
  { self := { channel := { q := SyncQueue.new 10 }, running := false }
    worker := Worker.none
    joinable := false
    heap := []
    calls := [] }

/-- `start(state, config)`: nothing if `running`; otherwise the channel is opened,
`running = true`, `onStart(state)` runs on the caller's thread and the worker thread is
launched with the state moved into its lambda. -/
def start (H : Handlers State α) (state : State) (config : ChannelConfig)
    (a : Actor State α) : Actor State α :=
  if a.self.running then a
  else
    let o := a.self.channel.openCmds config a.heap
    { self := { channel := o.1, running := true }
      worker := Worker.launched (H.onStart state)
      joinable := true
      heap := o.2
      calls := a.calls ++ [Call.onStart] }

/-- The test of `while (self.running)` by a worker that stands there: with `running` false
the loop ends and `onExit` runs; with `running` true the worker enters the body, where its
next statement is `recv()`.  What other threads do before the worker goes on (a `stop()`
that clears `running`, a submission, a `close()`) finds the worker in the body. -/
def testStep (H : Handlers State α) (a : Actor State α) : Actor State α :=
  match a.worker with
  | Worker.looping st =>
    if !a.self.running then
      { a with worker := Worker.exited (H.onExit st), calls := a.calls ++ [Call.onExit] }
    else { a with worker := Worker.receiving st }
  | _ => a

/-- The next step of the worker thread.  A launched thread runs `onEnter`.  At the test of
the loop: with `running` false the loop ends and `onExit` runs; with `running` true the
body runs once, with nothing done by another thread between the test and the end of the
pass (`testStep` is the test alone).  A worker in the body makes its pass, whatever
`running` has become.  The `recv()` of a pass ends without any other thread having changed
the queue meanwhile (a change made while it waits is the same change made before the
step). -/
def workerStep [Inhabited (Command α)] (H : Handlers State α) (a : Actor State α) :
    Actor State α :=
  match a.worker with
  | Worker.launched st =>
    { a with worker := Worker.looping (H.onEnter st), calls := a.calls ++ [Call.onEnter] }
  | Worker.looping st =>
    if !a.self.running then
      { a with worker := Worker.exited (H.onExit st), calls := a.calls ++ [Call.onExit] }
    else
      let r := a.self.iteration H st [] a.heap
      { a with worker := r.1, self := r.2.1, heap := r.2.2.1, calls := a.calls ++ r.2.2.2 }
  | Worker.receiving st =>
    let r := a.self.iteration H st [] a.heap
    { a with worker := r.1, self := r.2.1, heap := r.2.2.1, calls := a.calls ++ r.2.2.2 }
  | _ => a

/-- `stop()`: `running = false`; `if (thread.joinable()) thread.join()`; `onStop()`.  The
join lasts until the worker's lambda has ended, which with `running` false takes at most
two steps of the worker: first `onEnter` if it is still due, or the pass that a worker
already in the body completes (it receives and executes one more command), then the test of
the loop. -/
def stop [Inhabited (Command α)] (H : Handlers State α) (a : Actor State α) : Actor State α :=
  let a1 := { a with self := { a.self with running := false } }
  let a2 := if a1.joinable then { (a1.workerStep H).workerStep H with joinable := false } else a1
  { a2 with calls := a2.calls ++ [Call.onStop] }

end Actor

/-- What happens next in an actor: a producer submits a command with `async<Dispatch>(cmd)`,
the worker thread makes its next step, the worker thread at the test of the loop makes the
test alone, or someone closes the channel. -/
inductive Event (α : Type) where
  | submit (d : Dispatch) (cmd : Command α)
  | work
  | test
  | close

namespace Actor

variable {State α : Type}

/-- One event.  A producer's `add` that finds the queue full pushes when its time-out
elapses; being woken earlier by the consumer is the same as coming after that step. -/
def step [Inhabited (Command α)] (H : Handlers State α) (a : Actor State α) :
    Event α → Actor State α
  | Event.submit d cmd =>
    let r := a.self.asyncCmd d cmd [] a.heap
    { a with self := r.1, heap := r.2 }
  | Event.work => a.workerStep H
  | Event.test => a.testStep H
  | Event.close =>
    let r := a.self.channel.closeCmds a.heap
    { a with self := { a.self with channel := r.1 }, heap := r.2 }

/-- The events of the list, one after the other. -/
def run [Inhabited (Command α)] (H : Handlers State α) (a : Actor State α)
    (events : List (Event α)) : Actor State α :=
  events.foldl (step H) a

end Actor

end cisim

/-! ## awaitable.h: a handle assigned to itself -/

namespace mdsp

/-- `Awaitable& operator=(const Awaitable& other)` called as `a = a`, `other` being `*this`:
`unblock()` disables the latch and sets `done` to null, then `done = other.done` reads the
member that was just set to null (assigning a `shared_ptr` to itself changes no owner).
Returns `*this` and the heap. -/
def Awaitable.selfAssign (self : Awaitable) (h : Heap) : Awaitable × Heap :=
  let r := self.unblock h
  ({ done := r.1.done }, r.2)

/-! ## enum_bitmask.h

A value of a bitmask-enabled enum is represented by the bit pattern of its underlying value,
a natural number; `static_cast` between the enum and its underlying type is the identity. -/

/-- `operator| (E lhs, E rhs)`. -/
def operator_or (lhs rhs : Nat) : Nat := lhs ||| rhs

/-- `operator& (E lhs, E rhs)`. -/
def operator_and (lhs rhs : Nat) : Nat := lhs &&& rhs

/-- `operator^ (E lhs, E rhs)`: the source returns
`static_cast<E>(static_cast<T>(lhs) & static_cast<T>(rhs))`. -/
def operator_xor (lhs rhs : Nat) : Nat := lhs &&& rhs

namespace bits

/-- `bits::set(E value, E flag)`: `value | flag`. -/
def set (value flag : Nat) : Nat := operator_or value flag

/-- `bits::toggle(E value, E flag)`: `value ^ flag`. -/
def toggle (value flag : Nat) : Nat := operator_xor value flag

/-- `bits::isSet(E value, E flag)`: `(value & flag) == flag`. -/
def isSet (value flag : Nat) : Bool := operator_and value flag == flag

end bits

/-! ## mdsp_types.h: rectangles and polygons over `int` -/

/-- Value of `INT_MIN`. -/
def INT_MIN : Int := -2147483648

/-- What an `int` holds after an arithmetic result `x` (two's complement wrap-around). -/
def wrap32 (x : Int) : Int := (x + 2 ^ 31) % 2 ^ 32 - 2 ^ 31

/-- `int2`, that is `vec2<int>`. -/
structure int2 where
  x : Int
  y : Int
deriving DecidableEq, Repr

/-- `Rect`, that is `RectT<int, Bounds::INCLUSIVE>`. -/
structure Rect where
  top : Int
  left : Int
  bottom : Int
  right : Int
deriving DecidableEq, Repr

namespace Rect

/-- `RectT()`: the default-constructed rectangle, `top = left = 1`, `bottom = right = 0`. -/
def new : Rect := { top := 1, left := 1, bottom := 0, right := 0 }

/-- `bool isNull() const`, the branch for `Bounds::INCLUSIVE`. -/
def isNull (r : Rect) : Bool :=
  let boundsNull := r.top == 0 && r.bottom == 0 && r.left == 0 && r.right == 0
  boundsNull || decide (r.top > r.bottom) || decide (r.left > r.right)

/-- `RectT operator*(const RectT& r) const`. -/
def mul (self r : Rect) : Rect :=
  { top := if self.top > r.top then self.top else r.top
    left := if self.left > r.left then self.left else r.left
    bottom := if self.bottom < r.bottom then self.bottom else r.bottom
    right := if self.right < r.right then self.right else r.right }

/-- `RectT intersect(const RectT& r) const`. -/
def intersect (self r : Rect) : Rect :=
  let areaBetween := self.mul r
  if areaBetween.isNull then Rect.new else areaBetween

/-- `bool ptInRect(const vec2<R>& p) const`, the branch for `Bounds::INCLUSIVE`. -/
def ptInRect (r : Rect) (p : int2) : Bool :=
  decide (p.x ≥ r.left) && decide (p.x ≤ r.right) && decide (p.y ≥ r.top) &&
    decide (p.y ≤ r.bottom)

end Rect

/-- How an `int` division can end abnormally. -/
inductive DivFault where
  | divisionByZero
  | overflow
deriving DecidableEq, Repr

/-- `struct Polygon`. -/
structure Polygon where
  points : List int2
deriving DecidableEq, Repr

namespace Polygon

/-- `bool isEmpty() const`. -/
def isEmpty (poly : Polygon) : Bool := poly.points.isEmpty

/-- Body of the loop of `getBounds()` for the point `p`; the tuple is
`(xMin, xMax, yMin, yMax)`. -/
def getBoundsStep (b : Int × Int × Int × Int) (p : int2) : Int × Int × Int × Int :=
  let xMin := if p.x < b.1 then p.x else b.1
  let xMax := if p.x > b.2.1 then p.x else b.2.1
  let yMin := if p.y < b.2.2.1 then p.y else b.2.2.1
  let yMax := if p.y > b.2.2.2 then p.y else b.2.2.2
  (xMin, xMax, yMin, yMax)

/-- `Rect getBounds()`: the variables start as `xMin = INT_MIN`, `xMax = INT_MAX`,
`yMin = INT_MIN`, `yMax = INT_MAX`; the result is `Rect(yMin, xMin, yMax, xMax)`. -/
def getBounds (poly : Polygon) : Rect :=
  let b := poly.points.foldl getBoundsStep (INT_MIN, INT_MAX, INT_MIN, INT_MAX)
  { top := b.2.2.1, left := b.1, bottom := b.2.2.2, right := b.2.1 }

/-- The quotient `a / b` of two `int` values in `containsPoint`: the division raises the
hardware fault when the divisor is zero, and also for `INT_MIN / -1`, whose result does not
fit an `int`; otherwise the quotient is truncated towards zero. -/
def quotient (a b : Int) : Except DivFault Int :=
  if b = 0 then Except.error DivFault.divisionByZero
  else if a = INT_MIN ∧ b = -1 then Except.error DivFault.overflow
  else Except.ok (a.tdiv b)

/-- The condition of the `if` in the loop of `containsPoint` for `points[i] = p_i` and
`points[j] = p_j`, evaluated left to right with the short circuit of `&&`: the quotient is
evaluated only when the first operand holds.  Differences, product and sum wrap around as
`int` values. -/
def edgeTest (p_i p_j pt : int2) : Except DivFault Bool :=
  if (decide (p_i.y ≤ pt.y) && decide (pt.y < p_j.y)) ||
      (decide (p_j.y ≤ pt.y) && decide (pt.y < p_i.y)) then
    match quotient (wrap32 (wrap32 (p_j.x - p_i.x) * wrap32 (pt.y - p_i.y)))
        (wrap32 (p_j.y - p_i.y)) with
    | Except.error e => Except.error e
    | Except.ok v => Except.ok (decide (pt.x < wrap32 (v + p_i.x)))
  else Except.ok false

/-- One pass of `for (size_t i = 0, j = points.size() - 1; i < points.size(); j = i++)`:
the state is `(j, isIn)`. -/
def containsStep (points : List int2) (pt : int2) (st : Nat × Bool) (i : Nat) :
    Except DivFault (Nat × Bool) :=
  match edgeTest (points.getD i ⟨0, 0⟩) (points.getD st.1 ⟨0, 0⟩) pt with
  | Except.error e => Except.error e
  | Except.ok c => Except.ok (i, if c then !st.2 else st.2)

/-- `bool containsPoint(const int2& pt)`: the value returned, or the fault raised by a
division. -/
def containsPoint (poly : Polygon) (pt : int2) : Except DivFault Bool :=
  if poly.points.isEmpty then Except.ok false
  else
    let bounds := poly.getBounds
    if bounds.ptInRect pt then
      match (List.range poly.points.length).foldlM (containsStep poly.points pt)
          (poly.points.length - 1, false) with
      | Except.error e => Except.error e
      | Except.ok st => Except.ok st.2
    else Except.ok false

end Polygon

end mdsp

/-! ## Fixtures -/

namespace mdsp

/-- A variant with three alternatives `A`, `B`, `C` without members. -/
inductive ABC where
  | A
  | B
  | C
deriving DecidableEq, Repr

instance : IsVariant ABC where
  index := fun v =>
    match v with
    | ABC.A => 0
    | ABC.B => 1
    | ABC.C => 2

/-- A queue as constructed by `SyncQueue(capacity)` (open, default time-outs) into which
`items` have been put. -/
def SyncQueue.holding {T : Type} (capacity : Nat) (items : List T) : SyncQueue T :=
  { producerTimeout := Time.FromSeconds INT_MAX
    consumerTimeout := Time.FromSeconds 5
    capacity := capacity
    shouldReceive := true
    q := items }

end mdsp

namespace cisim

open mdsp

/-- The command `Add(n)`: the only alternative of its variant, without `Awaitable` base. -/
def Add (n : Int) : Command Int := { index := 0, base := none, data := n }

/-- The handlers of an actor with an integer state whose `execute` adds the `n` of `Add(n)`;
the hooks are those of `DefaultHandlers`, which do nothing. -/
def adder : Handlers Int Int :=
  { execute := fun s c => s + c.data
    tick := fun s => s
    onStart := fun s => s
    onEnter := fun s => s
    onExit := fun s => s }

/-- The events of a schedule: `some n` is `async(Add(n))` with `Serial` dispatch, `none` is
a step of the worker. -/
def adderEvents (schedule : List (Option Int)) : List (Event Int) :=
  schedule.map (fun e =>
    match e with
    | some n => Event.submit Dispatch.Serial (Add n)
    | none => Event.work)

/-- Handlers whose hooks leave a mark in an integer state: `execute` adds the command's
number, `onEnter` adds 1000 and `onExit` adds 100. -/
def marking : Handlers Int Int :=
  { execute := fun s c => s + c.data
    tick := fun s => s
    onStart := fun s => s
    onEnter := fun s => s + 1000
    onExit := fun s => s + 100 }

/-- A step of a schedule of the adding actor: `async(Add(n))` with `Serial` dispatch, the
test of the loop alone by the worker, or the next step of the worker. -/
inductive AdderStep where
  | send (n : Int)
  | test
  | work
deriving DecidableEq, Repr

/-- The event of a step. -/
def AdderStep.event : AdderStep → Event Int
  | AdderStep.send n => Event.submit Dispatch.Serial (Add n)
  | AdderStep.test => Event.test
  | AdderStep.work => Event.work

/-- The number sent by a step, if it is a submission. -/
def AdderStep.sent : AdderStep → Option Int
  | AdderStep.send n => some n
  | _ => none

/-- The numbers submitted by a schedule, in order. -/
def adderSent (schedule : List AdderStep) : List Int := schedule.filterMap AdderStep.sent

/-- The number of steps of the worker in a schedule. -/
def adderWorkerSteps (schedule : List AdderStep) : Nat :=
  schedule.countP (fun e => e.sent.isNone)

/-- Relation used in the statements about the adding actor started with `s0`: after the
numbers `sent` were submitted and the worker made `works` steps, the worker having taken
`j` of the submitted commands from the queue, the actor is running, its queue is open and
holds the commands not yet taken, and the worker's state is `s0` plus the first `j`
numbers; a worker in the body of the loop has made a step, the test, for a pass that has
not taken its command yet. -/
def AdderInv (s0 : Int) (sent : List Int) (j works : Nat) (a : Actor Int Int) : Prop :=
  a.self.running = true ∧ a.self.channel.q.shouldReceive = true ∧ a.joinable = true ∧
    a.self.channel.q.q = (sent.drop j).map Add ∧ j ≤ sent.length ∧ j ≤ works ∧
    ((a.worker = Worker.launched s0 ∧ j = 0) ∨
      a.worker = Worker.looping (s0 + (sent.take j).sum) ∨
      (a.worker = Worker.receiving (s0 + (sent.take j).sum) ∧ j < works))

/-- The default configuration `ChannelConfig{}`: both time-outs 5 s, capacity 10. -/
def defaultConfig : ChannelConfig :=
  { producerTimeout := Time.FromSeconds 5, consumerTimeout := Time.FromSeconds 5, capacity := 10 }

end cisim

namespace mdsp

/-- The triangle with corners (0, 0), (4, 0) and (0, 4). -/
def triangle : Polygon := { points := [⟨0, 0⟩, ⟨4, 0⟩, ⟨0, 4⟩] }

/-- The command `Set(n)`: alternative 1 of its variant, without `Awaitable` base. -/
def SetCmd (n : Nat) : Command Nat := { index := 1, base := none, data := n }

/-- The command `Ping`: alternative 0 of the same variant. -/
def PingCmd : Command Nat := { index := 0, base := none, data := 0 }

end mdsp

/-! # Properties -/

namespace mdsp

/-! ## Lemmas on the queue -/

section QueueLemmas

variable {T : Type}

theorem SyncQueue.producerWait_of_not_full (s : SyncQueue T) (wakeups : List (SyncQueue T))
    (hfull : s.isFull_impl = false) : s.producerWait wakeups = s := by
  simp [SyncQueue.producerWait, SyncQueue.producerShouldWait, hfull]

theorem SyncQueue.add_of_open_not_full (s : SyncQueue T) (wakeups : List (SyncQueue T)) (x : T)
    (hopen : s.shouldReceive = true) (hfull : s.isFull_impl = false) :
    (s.add wakeups x).2 = { s with q := s.q ++ [x] } := by
  simp [SyncQueue.add, SyncQueue.producerWait_of_not_full s wakeups hfull, hopen]

theorem SyncQueue.addFront_of_open_not_full (s : SyncQueue T) (wakeups : List (SyncQueue T))
    (x : T) (hopen : s.shouldReceive = true) (hfull : s.isFull_impl = false) :
    (s.addFront wakeups x).2 = { s with q := x :: s.q } := by
  simp [SyncQueue.addFront, SyncQueue.producerWait_of_not_full s wakeups hfull, hopen]

theorem SyncQueue.isFull_impl_eq_false_of_room (s : SyncQueue T)
    (h : s.capacity = 0 ∨ s.q.length < s.capacity) : s.isFull_impl = false := by
  unfold SyncQueue.isFull_impl
  rcases h with h | h
  · simp [h]
  · have : ¬ s.capacity ≤ s.q.length := by omega
    simp [this]

theorem SyncQueue.consumerWait_of_nonempty (s : SyncQueue T) (t : Time)
    (wakeups : List (SyncQueue T)) (x : T) (rest : List T) (hq : s.q = x :: rest) :
    s.consumerWait t wakeups = (false, s) := by
  simp [SyncQueue.consumerWait, SyncQueue.consumerShouldWait, SyncQueue.isEmpty_impl, hq]

theorem SyncQueue.getWithStatus_of_nonempty [Inhabited T] (s : SyncQueue T)
    (wakeups : List (SyncQueue T)) (x : T) (rest : List T) (hq : s.q = x :: rest) :
    s.getWithStatus wakeups = ((SyncQStatus.OK, x), { s with q := rest }) := by
  simp [SyncQueue.getWithStatus, SyncQueue.consumerWait_of_nonempty s _ wakeups x rest hq,
    SyncQueue.isEmpty_impl, hq]

theorem SyncQueue.get_of_nonempty [Inhabited T] (s : SyncQueue T)
    (wakeups : List (SyncQueue T)) (x : T) (rest : List T) (hq : s.q = x :: rest) :
    s.get wakeups = (x, { s with q := rest }) := by
  simp [SyncQueue.get, SyncQueue.consumerWait_of_nonempty s _ wakeups x rest hq,
    SyncQueue.isEmpty_impl, hq]

theorem addAll_of_room (calls : List (List (SyncQueue T) × T)) :
    ∀ s : SyncQueue T, s.shouldReceive = true →
      (s.capacity = 0 ∨ s.q.length + calls.length ≤ s.capacity) →
      addAll s calls = { s with q := s.q ++ calls.map Prod.snd } := by
  induction calls with
  | nil => intro s _ _; simp [addAll]
  | cons c calls ih =>
    intro s hopen hcap
    obtain ⟨w, x⟩ := c
    have hfull : s.isFull_impl = false := by
      apply SyncQueue.isFull_impl_eq_false_of_room
      rcases hcap with h | h
      · exact Or.inl h
      · right; simp at h; omega
    rw [addAll, SyncQueue.add_of_open_not_full s w x hopen hfull]
    have hroom : s.capacity = 0 ∨ (s.q ++ [x]).length + calls.length ≤ s.capacity := by
      rcases hcap with h | h
      · exact Or.inl h
      · right; simp at h ⊢; omega
    have := ih { s with q := s.q ++ [x] } hopen hroom
    simpa using this

theorem getWithStatusAll_of_items [Inhabited T] (xs : List T) :
    ∀ (s : SyncQueue T) (ys : List T) (gets : List (List (SyncQueue T))),
      s.q = xs ++ ys → gets.length = xs.length →
      getWithStatusAll s gets = (xs.map (fun x => (SyncQStatus.OK, x)), { s with q := ys }) := by
  induction xs with
  | nil =>
    intro s ys gets hq hlen
    have : gets = [] := List.length_eq_zero.mp (by simpa using hlen)
    subst this
    simp at hq
    simp [getWithStatusAll, ← hq]
  | cons x xs ih =>
    intro s ys gets hq hlen
    cases gets with
    | nil => simp at hlen
    | cons w gets =>
      simp at hlen
      rw [getWithStatusAll, SyncQueue.getWithStatus_of_nonempty s w x (xs ++ ys) (by simpa using hq)]
      simp [ih { s with q := xs ++ ys } ys gets rfl hlen]

theorem getAll_of_items [Inhabited T] (xs : List T) :
    ∀ (s : SyncQueue T) (ys : List T) (gets : List (List (SyncQueue T))),
      s.q = xs ++ ys → gets.length = xs.length →
      getAll s gets = (xs, { s with q := ys }) := by
  induction xs with
  | nil =>
    intro s ys gets hq hlen
    have : gets = [] := List.length_eq_zero.mp (by simpa using hlen)
    subst this
    simp at hq
    simp [getAll, ← hq]
  | cons x xs ih =>
    intro s ys gets hq hlen
    cases gets with
    | nil => simp at hlen
    | cons w gets =>
      simp at hlen
      rw [getAll, SyncQueue.get_of_nonempty s w x (xs ++ ys) (by simpa using hq)]
      simp [ih { s with q := xs ++ ys } ys gets rfl hlen]

end QueueLemmas

/-- C1. FIFO: the items `add`ed in order to an empty, open queue whose capacity is 0 or at
least their number are returned by as many calls of `getWithStatus()` (and of `get()`) in
the same order, each with status OK, and the queue is empty again afterwards. -/
theorem C1_fifo {T : Type} [Inhabited T] (s : SyncQueue T)
    (calls : List (List (SyncQueue T) × T)) (gets : List (List (SyncQueue T)))
    (hopen : s.shouldReceive = true) (hempty : s.q = [])
    (hcap : s.capacity = 0 ∨ calls.length ≤ s.capacity)
    (hlen : gets.length = calls.length) :
    getWithStatusAll (addAll s calls) gets
        = (calls.map (fun c => (SyncQStatus.OK, c.2)), s) ∧
      getAll (addAll s calls) gets = (calls.map Prod.snd, s) ∧
      (addAll s calls).q = calls.map Prod.snd := by
  have hadd : addAll s calls = { s with q := calls.map Prod.snd } := by
    rw [addAll_of_room calls s hopen (by simpa [hempty] using hcap), hempty]
    simp
  have hs : ({ s with q := [] } : SyncQueue T) = s := by
    cases s; simp_all
  refine ⟨?_, ?_, ?_⟩
  · rw [hadd, getWithStatusAll_of_items (calls.map Prod.snd) _ [] gets (by simp) (by simpa using hlen)]
    simp [hs, List.map_map, Function.comp_def]
  · rw [hadd, getAll_of_items (calls.map Prod.snd) _ [] gets (by simp) (by simpa using hlen)]
    simp [hs]
  · rw [hadd]

/-- Instance of C1: capacity 2, the items 7 and 9. -/
theorem C1_fifo_witness :
    getWithStatusAll (addAll (SyncQueue.new 2 : SyncQueue Nat) [([], 7), ([], 9)]) [[], []]
        = ([(SyncQStatus.OK, 7), (SyncQStatus.OK, 9)], SyncQueue.new 2) ∧
      getAll (addAll (SyncQueue.new 2 : SyncQueue Nat) [([], 7), ([], 9)]) [[], []]
        = ([7, 9], SyncQueue.new 2) ∧
      (addAll (SyncQueue.new 2 : SyncQueue Nat) [([], 7), ([], 9)]).q = [7, 9] :=
  C1_fifo (SyncQueue.new 2) [([], 7), ([], 9)] [[], []] rfl rfl (Or.inr (by decide)) rfl


/-- C2. Priority: on an open queue that is not full, `addFront(p)` puts `p` at the front,
and the very next `getWithStatus()` returns `(OK, p)` and leaves the queue exactly as it
was before the `addFront`. -/
theorem C2_priority {T : Type} [Inhabited T] (s : SyncQueue T) (p : T)
    (wakeups wakeups' : List (SyncQueue T))
    (hopen : s.shouldReceive = true) (hfull : s.isFull_impl = false) :
    (s.addFront wakeups p).2.q = p :: s.q ∧
      (s.addFront wakeups p).2.getWithStatus wakeups' = ((SyncQStatus.OK, p), s) := by
  rw [SyncQueue.addFront_of_open_not_full s wakeups p hopen hfull]
  refine ⟨rfl, ?_⟩
  rw [SyncQueue.getWithStatus_of_nonempty _ wakeups' p s.q rfl]

/-- Instance of C2: the queue holds 1 and 2 (capacity 10) and 0 is added in front. -/
theorem C2_priority_witness :
    ((SyncQueue.holding 10 [1, 2] : SyncQueue Nat).addFront [] 0).2.q = [0, 1, 2] ∧
      ((SyncQueue.holding 10 [1, 2] : SyncQueue Nat).addFront [] 0).2.getWithStatus []
        = ((SyncQStatus.OK, 0), SyncQueue.holding 10 [1, 2]) :=
  C2_priority (SyncQueue.holding 10 [1, 2]) 0 [] [] rfl (by decide)

section RemoveLemmas

variable {T : Type}

theorem SyncQueue.removeDrain_eq [IsVariant T] (Ts : List Nat) (q : List T) :
    ∀ copies : List T, SyncQueue.removeDrain Ts q copies
      = copies ++ q.filter (fun v => !(Ts.any (fun U => holds_alternative U v))) := by
  induction q with
  | nil => intro copies; simp [SyncQueue.removeDrain]
  | cons v q ih =>
    intro copies
    by_cases hv : Ts.any (fun U => holds_alternative U v) = true
    · simp only [SyncQueue.removeDrain, hv, ih]
      simp [List.filter_cons, hv]
    · simp only [Bool.not_eq_true] at hv
      simp only [SyncQueue.removeDrain, hv, ih]
      simp [List.filter_cons, hv]

theorem SyncQueue.removeRefill_eq (copies : List T) :
    ∀ q : List T, SyncQueue.removeRefill copies q = q ++ copies := by
  induction copies with
  | nil => intro q; simp [SyncQueue.removeRefill]
  | cons v copies ih => intro q; simp [SyncQueue.removeRefill, ih]

end RemoveLemmas

/-- C3. `remove<Ts...>()` leaves exactly the elements whose active alternative is none of
`Ts`, in their original order, and changes nothing else of the queue; the queue
`[A, B, A, C]` becomes `[B, C]` under `remove<A>()`. -/
theorem C3_remove_filters {T : Type} [IsVariant T] (s : SyncQueue T) (Ts : List Nat) :
    s.remove Ts
        = { s with q := s.q.filter (fun v => !(Ts.any (fun U => holds_alternative U v))) } ∧
      (∀ v, v ∈ (s.remove Ts).q ↔ v ∈ s.q ∧ ∀ U ∈ Ts, IsVariant.index v ≠ U) ∧
      ((SyncQueue.holding 10 [ABC.A, ABC.B, ABC.A, ABC.C]).remove [0]).q
        = [ABC.B, ABC.C] := by
  have h : s.remove Ts
      = { s with q := s.q.filter (fun v => !(Ts.any (fun U => holds_alternative U v))) } := by
    simp [SyncQueue.remove, SyncQueue.removeDrain_eq, SyncQueue.removeRefill_eq]
  refine ⟨h, ?_, by decide⟩
  intro v
  rw [h]
  simp [holds_alternative]


/-! ## Lemmas on waiting -/

theorem wait_for_of_pred {σ : Type} (rel_time : Int) (pred : σ → Bool) (s : σ)
    (wakeups : List σ) (h : pred s = true) : wait_for rel_time pred s wakeups = (true, s) := by
  cases wakeups <;> simp [wait_for, h]

theorem wait_for_of_never {σ : Type} (rel_time : Int) (pred : σ → Bool) (wakeups : List σ) :
    ∀ s : σ, pred s = false → (∀ s' ∈ wakeups, pred s' = false) →
      wait_for rel_time pred s wakeups
        = (false, (s :: wakeups).getLast (List.cons_ne_nil s wakeups)) := by
  induction wakeups with
  | nil => intro s hs _; simp [wait_for, hs]
  | cons s1 wakeups ih =>
    intro s hs hall
    have h1 : pred s1 = false := hall s1 (List.mem_cons_self _ _)
    have hrest : ∀ s' ∈ wakeups, pred s' = false :=
      fun s' hs' => hall s' (List.mem_cons_of_mem _ hs')
    simp [wait_for, hs, ih s1 h1 hrest]

/-! ## Lemmas on the latch -/

theorem CountCondition.iterate_notify_expect (c : CountCondition) (n k : Nat) :
    (CountCondition.notify^[k] (c.expect n))
      = { enabled := true, count := k % SIZE_MOD, expectedCount := n } := by
  induction k with
  | zero => simp [CountCondition.expect, SIZE_MOD]
  | succ k ih =>
    rw [Function.iterate_succ_apply', ih]
    simp [CountCondition.notify, SIZE_MOD]

theorem CountCondition.wait_of_disabled (c : CountCondition) (timeout : Option Time)
    (wakeups : List CountCondition) (hen : c.enabled = false) (hexp : c.expectedCount ≠ 0) :
    c.wait timeout wakeups = Result.Shutdown := by
  simp [CountCondition.wait, CountCondition.shouldWait, hen, hexp]

theorem CountCondition.disable_snd (c : CountCondition) :
    c.disable.2 = { c with enabled := false } := by
  unfold CountCondition.disable
  cases h : c.enabled <;> simp
  cases c; simp_all

/-- C4. After `expect(n)` and exactly `n` calls of `notify()`, without `disable()`,
`wait(timeout)` returns OK whatever the time-out argument and whatever happens meanwhile. -/
theorem C4_expect_notify_wait_ok (c : CountCondition) (n : Nat) (hn : n < SIZE_MOD)
    (timeout : Option Time) (wakeups : List CountCondition) :
    (CountCondition.notify^[n] (c.expect n)).wait timeout wakeups = Result.OK := by
  rw [CountCondition.iterate_notify_expect, Nat.mod_eq_of_lt hn]
  simp [CountCondition.wait, CountCondition.shouldWait]

/-- Instance of C4: three notifications expected and delivered, a time-out of one second. -/
theorem C4_expect_notify_wait_ok_witness :
    (CountCondition.notify^[3] (CountCondition.init.expect 3)).wait
      (some (Time.FromSeconds 1)) [] = Result.OK :=
  C4_expect_notify_wait_ok CountCondition.init 3 (by decide) (some (Time.FromSeconds 1)) []

/-- C5. For `n > 0` and `k < n`: after `expect(n)`, `k` calls of `notify()` and `disable()`,
`wait(timeout)` returns Shutdown for every time-out and whatever the wake-ups; and a
`wait` that was already blocked when `disable()` ran, and is woken by it, returns Shutdown
too. -/
theorem C5_disable_gives_shutdown (c : CountCondition) (n k : Nat) (hn : 0 < n) (hk : k < n)
    (timeout : Option Time) (wakeups : List CountCondition) :
    (CountCondition.notify^[k] (c.expect n)).disable.2.wait timeout wakeups
        = Result.Shutdown ∧
      (CountCondition.notify^[k] (c.expect n)).wait timeout
          ((CountCondition.notify^[k] (c.expect n)).disable.2 :: wakeups)
        = Result.Shutdown := by
  rw [CountCondition.iterate_notify_expect, CountCondition.disable_snd]
  have hne : n ≠ 0 := by omega
  have hkn : k % SIZE_MOD ≠ n := by
    have := Nat.mod_le k SIZE_MOD
    omega
  constructor
  · exact CountCondition.wait_of_disabled _ timeout wakeups rfl hne
  · have hw : ∀ rt : Int, wait_for rt (fun s : CountCondition => !s.shouldWait)
        { enabled := true, count := k % SIZE_MOD, expectedCount := n }
        ({ enabled := false, count := k % SIZE_MOD, expectedCount := n } :: wakeups)
        = (true, { enabled := false, count := k % SIZE_MOD, expectedCount := n }) := by
      intro rt
      have hpred : (fun s : CountCondition => !s.shouldWait)
          { enabled := false, count := k % SIZE_MOD, expectedCount := n } = true := by
        simp [CountCondition.shouldWait]
      rw [wait_for, wait_for_of_pred rt _ _ wakeups hpred]
      simp [CountCondition.shouldWait, hkn]
    have hsw : ({ enabled := true, count := k % SIZE_MOD, expectedCount := n } :
        CountCondition).shouldWait = true := by
      simp [CountCondition.shouldWait, hkn]
    simp only [CountCondition.wait, hw, hsw]
    simp [hne]

/-- Instance of C5: two of three notifications delivered before `disable()`. -/
theorem C5_disable_gives_shutdown_witness :
    (CountCondition.notify^[2] (CountCondition.init.expect 3)).disable.2.wait none []
        = Result.Shutdown ∧
      (CountCondition.notify^[2] (CountCondition.init.expect 3)).wait none
          ((CountCondition.notify^[2] (CountCondition.init.expect 3)).disable.2 :: [])
        = Result.Shutdown :=
  C5_disable_gives_shutdown CountCondition.init 3 2 (by decide) (by decide) none []


section ProducerLemmas

variable {T : Type}

theorem SyncQueue.producerWait_of_not_waiting (s : SyncQueue T) (wakeups : List (SyncQueue T))
    (h : s.producerShouldWait = false) : s.producerWait wakeups = s := by
  simp [SyncQueue.producerWait, h]

theorem SyncQueue.add_eq (s : SyncQueue T) (wakeups : List (SyncQueue T)) (x : T) :
    (s.add wakeups x).2
      = if (s.producerWait wakeups).shouldReceive then
          { s.producerWait wakeups with q := (s.producerWait wakeups).q ++ [x] }
        else s.producerWait wakeups := by
  cases h : (s.producerWait wakeups).shouldReceive <;> simp [SyncQueue.add, h]

theorem SyncQueue.addFront_eq (s : SyncQueue T) (wakeups : List (SyncQueue T)) (x : T) :
    (s.addFront wakeups x).2
      = if (s.producerWait wakeups).shouldReceive then
          { s.producerWait wakeups with q := x :: (s.producerWait wakeups).q }
        else s.producerWait wakeups := by
  cases h : (s.producerWait wakeups).shouldReceive <;> simp [SyncQueue.addFront, h]

/-- The value returned by `add`, for the state `later` found by the read that follows the
release of the lock. -/
theorem SyncQueue.add_returned (s : SyncQueue T) (wakeups : List (SyncQueue T)) (x : T)
    (later : SyncQueue T) :
    (s.add wakeups x).1 later
      = ((s.producerWait wakeups).shouldReceive && !later.isEmpty_impl) := by
  cases h : (s.producerWait wakeups).shouldReceive <;> simp [SyncQueue.add, h]

theorem SyncQueue.addFront_returned (s : SyncQueue T) (wakeups : List (SyncQueue T)) (x : T)
    (later : SyncQueue T) :
    (s.addFront wakeups x).1 later
      = ((s.producerWait wakeups).shouldReceive && !later.isEmpty_impl) := by
  cases h : (s.producerWait wakeups).shouldReceive <;> simp [SyncQueue.addFront, h]

theorem SyncQueue.producerWait_of_timeout (s : SyncQueue T) (wakeups : List (SyncQueue T))
    (hs : s.producerShouldWait = true)
    (hw : ∀ s' ∈ wakeups, s'.producerShouldWait = true) :
    s.producerWait wakeups = (s :: wakeups).getLast (List.cons_ne_nil s wakeups) := by
  unfold SyncQueue.producerWait
  rw [if_pos hs, wait_for_of_never _ _ wakeups s (by simp [hs])
    (fun s' hs' => by simp [hw s' hs'])]

theorem SyncQueue.producerShouldWait_getLast (s : SyncQueue T) (wakeups : List (SyncQueue T))
    (hs : s.producerShouldWait = true)
    (hw : ∀ s' ∈ wakeups, s'.producerShouldWait = true) :
    ((s :: wakeups).getLast (List.cons_ne_nil s wakeups)).producerShouldWait = true := by
  have hmem := List.getLast_mem (List.cons_ne_nil s wakeups)
  rcases List.mem_cons.mp hmem with h | h
  · rw [h]; exact hs
  · exact hw _ h

end ProducerLemmas

/-- C9, the claim fails: `add(5)` on the open, empty queue of capacity 10 pushes 5 and
releases the lock; a consumer's `getWithStatus()` then takes the 5; the producer's
`!_isEmpty_impl()`, read after that, finds the queue empty, so `add` returns false although
the queue was open and the item was inserted (and delivered).  The same holds for
`addFront`. -/
theorem C9_open_add_returns_false_counterexample :
    ((SyncQueue.new 10 : SyncQueue Nat).producerWait []).shouldReceive = true ∧
      ((SyncQueue.new 10 : SyncQueue Nat).add [] 5).2.q = [5] ∧
      (((SyncQueue.new 10 : SyncQueue Nat).add [] 5).2.getWithStatus []).1
        = (SyncQStatus.OK, 5) ∧
      (((SyncQueue.new 10 : SyncQueue Nat).add [] 5).2.getWithStatus []).2.shouldReceive
        = true ∧
      ((SyncQueue.new 10 : SyncQueue Nat).add [] 5).1
        (((SyncQueue.new 10 : SyncQueue Nat).add [] 5).2.getWithStatus []).2 = false ∧
      ((SyncQueue.new 10 : SyncQueue Nat).addFront [] 5).1
        (((SyncQueue.new 10 : SyncQueue Nat).addFront [] 5).2.getWithStatus []).2 = false := by
  decide

/-- C9 as amended.  With `s1` the state in which the producer wait of `add(x)` /
`addFront(x)` ends and `later` the state found by the final `!_isEmpty_impl()`, which is
read after the lock is released: if `s1` is closed the call returns false and the queue is
left as `s1`; otherwise the contents are those of `s1` with `x` appended (`add`) or
prepended (`addFront`) and the call returns true exactly when `later` is not empty, which
is the case when no other thread came in between.  So `x` is inserted exactly when `s1` is
open, a call that returns true has inserted, and a call that returns false with `later`
not empty found the queue closed.  A call that does not have to wait (closed, or open and
not full) sees `s1 = s`. -/
theorem C9_add_inserts_iff_open {T : Type} (s : SyncQueue T) (wakeups : List (SyncQueue T))
    (x : T) (later : SyncQueue T) :
    ((s.producerWait wakeups).shouldReceive = false →
        (s.add wakeups x).2 = s.producerWait wakeups ∧
        (s.add wakeups x).1 later = false ∧
        (s.addFront wakeups x).2 = s.producerWait wakeups ∧
        (s.addFront wakeups x).1 later = false) ∧
      ((s.producerWait wakeups).shouldReceive = true →
        (s.add wakeups x).2
          = { s.producerWait wakeups with q := (s.producerWait wakeups).q ++ [x] } ∧
        (s.add wakeups x).1 later = !later.isEmpty_impl ∧
        (s.addFront wakeups x).2
          = { s.producerWait wakeups with q := x :: (s.producerWait wakeups).q } ∧
        (s.addFront wakeups x).1 later = !later.isEmpty_impl) ∧
      ((s.producerWait wakeups).shouldReceive = true →
        (s.add wakeups x).1 (s.add wakeups x).2 = true ∧
        (s.addFront wakeups x).1 (s.addFront wakeups x).2 = true) ∧
      ((s.add wakeups x).1 later = true → (s.producerWait wakeups).shouldReceive = true) ∧
      ((s.addFront wakeups x).1 later = true →
        (s.producerWait wakeups).shouldReceive = true) ∧
      (later.q ≠ [] →
        ((s.add wakeups x).1 later = false ↔ (s.producerWait wakeups).shouldReceive = false) ∧
        ((s.addFront wakeups x).1 later = false ↔
          (s.producerWait wakeups).shouldReceive = false)) ∧
      (s.producerShouldWait = false → s.producerWait wakeups = s) ∧
      (s.shouldReceive = false →
        (s.add wakeups x).2 = s ∧ (s.add wakeups x).1 later = false ∧
        (s.addFront wakeups x).2 = s ∧ (s.addFront wakeups x).1 later = false) := by
  refine ⟨?_, ?_, ?_, ?_, ?_, ?_, ?_, ?_⟩
  · intro h
    simp [SyncQueue.add_eq, SyncQueue.addFront_eq, SyncQueue.add_returned,
      SyncQueue.addFront_returned, h]
  · intro h
    simp [SyncQueue.add_eq, SyncQueue.addFront_eq, SyncQueue.add_returned,
      SyncQueue.addFront_returned, h]
  · intro h
    simp [SyncQueue.add_eq, SyncQueue.addFront_eq, SyncQueue.add_returned,
      SyncQueue.addFront_returned, h, SyncQueue.isEmpty_impl]
  · intro h
    rw [SyncQueue.add_returned] at h
    simp only [Bool.and_eq_true] at h
    exact h.1
  · intro h
    rw [SyncQueue.addFront_returned] at h
    simp only [Bool.and_eq_true] at h
    exact h.1
  · intro hq
    have hne : later.isEmpty_impl = false := by
      simp [SyncQueue.isEmpty_impl, hq]
    rw [SyncQueue.add_returned, SyncQueue.addFront_returned, hne]
    cases (s.producerWait wakeups).shouldReceive <;> simp
  · exact SyncQueue.producerWait_of_not_waiting s wakeups
  · intro h
    have hw : s.producerWait wakeups = s :=
      SyncQueue.producerWait_of_not_waiting s wakeups (by simp [SyncQueue.producerShouldWait, h])
    simp [SyncQueue.add_eq, SyncQueue.addFront_eq, SyncQueue.add_returned,
      SyncQueue.addFront_returned, hw, h]

/-- C10, the claim fails: on the open queue of capacity 1 holding `0`, the producer wait of
`add(5)` and of `addFront(5)` times out with the queue still open and full, and the item is
inserted all the same: the contents become `[0, 5]` and `[5, 0]`, of length 2. -/
theorem C10_timed_out_add_counterexample :
    (SyncQueue.holding 1 [0] : SyncQueue Nat).producerShouldWait = true ∧
      (wait_for (SyncQueue.holding 1 [0] : SyncQueue Nat).producerTimeout.chronoMilliseconds
        (fun s' => !s'.producerShouldWait) (SyncQueue.holding 1 [0] : SyncQueue Nat) [])
        = (false, SyncQueue.holding 1 [0]) ∧
      ((SyncQueue.holding 1 [0] : SyncQueue Nat).add [] 5).2.q = [0, 5] ∧
      ((SyncQueue.holding 1 [0] : SyncQueue Nat).addFront [] 5).2.q = [5, 0] ∧
      ((SyncQueue.holding 1 [0] : SyncQueue Nat).add [] 5).2.q
        ≠ (SyncQueue.holding 1 [0] : SyncQueue Nat).q ∧
      ((SyncQueue.holding 1 [0] : SyncQueue Nat).addFront [] 5).2.q
        ≠ (SyncQueue.holding 1 [0] : SyncQueue Nat).q := by
  decide

/-- C10 as amended.  On an open queue of capacity `C > 0` holding `C` items, a producer
wait during which every wake-up finds the queue open and full ends by time-out in the last
state seen, `s1`, and `add(x)` / `addFront(x)` then appends / prepends `x` to the contents
of `s1`; when nothing touched the queue meanwhile the contents become `q ++ [x]` /
`x :: q`, of length `C + 1`. -/
theorem C10_timed_out_add_inserts {T : Type} (s : SyncQueue T) (wakeups : List (SyncQueue T))
    (x : T) (hopen : s.shouldReceive = true) (hcap : 0 < s.capacity)
    (hlen : s.q.length = s.capacity)
    (hw : ∀ s' ∈ wakeups, s'.producerShouldWait = true) :
    (wait_for s.producerTimeout.chronoMilliseconds (fun s' => !s'.producerShouldWait) s
        wakeups).1 = false ∧
      (s.add wakeups x).2
        = { (s :: wakeups).getLast (List.cons_ne_nil s wakeups) with
            q := ((s :: wakeups).getLast (List.cons_ne_nil s wakeups)).q ++ [x] } ∧
      (s.addFront wakeups x).2
        = { (s :: wakeups).getLast (List.cons_ne_nil s wakeups) with
            q := x :: ((s :: wakeups).getLast (List.cons_ne_nil s wakeups)).q } ∧
      (s.add [] x).2 = { s with q := s.q ++ [x] } ∧
      (s.addFront [] x).2 = { s with q := x :: s.q } ∧
      (s.add [] x).2.q.length = s.capacity + 1 ∧
      (s.addFront [] x).2.q.length = s.capacity + 1 := by
  have hs : s.producerShouldWait = true := by
    have : s.capacity ≠ 0 := by omega
    simp [SyncQueue.producerShouldWait, SyncQueue.isFull_impl, hopen, this, hlen]
  have hlast := SyncQueue.producerShouldWait_getLast s wakeups hs hw
  have hlastopen : ((s :: wakeups).getLast (List.cons_ne_nil s wakeups)).shouldReceive = true := by
    simp [SyncQueue.producerShouldWait] at hlast
    exact hlast.1
  have h0 : s.producerWait [] = s := by
    rw [SyncQueue.producerWait_of_timeout s [] hs (by simp)]
    simp
  refine ⟨?_, ?_, ?_, ?_, ?_, ?_, ?_⟩
  · rw [wait_for_of_never _ _ wakeups s (by simp [hs]) (fun s' hs' => by simp [hw s' hs'])]
  · rw [SyncQueue.add_eq, SyncQueue.producerWait_of_timeout s wakeups hs hw, if_pos hlastopen]
  · rw [SyncQueue.addFront_eq, SyncQueue.producerWait_of_timeout s wakeups hs hw,
      if_pos hlastopen]
  · rw [SyncQueue.add_eq, h0, if_pos hopen]
  · rw [SyncQueue.addFront_eq, h0, if_pos hopen]
  · rw [SyncQueue.add_eq, h0, if_pos hopen]
    simp [hlen]
  · rw [SyncQueue.addFront_eq, h0, if_pos hopen]
    simp [hlen]

/-- Instance of the amended C10: capacity 2, contents `[1, 2]`, one wake-up that finds the
queue unchanged. -/
theorem C10_timed_out_add_inserts_witness :
    (wait_for (SyncQueue.holding 2 [1, 2] : SyncQueue Nat).producerTimeout.chronoMilliseconds
        (fun s' => !s'.producerShouldWait) (SyncQueue.holding 2 [1, 2])
        [SyncQueue.holding 2 [1, 2]]).1 = false ∧
      ((SyncQueue.holding 2 [1, 2] : SyncQueue Nat).add [SyncQueue.holding 2 [1, 2]] 3).2
        = SyncQueue.holding 2 [1, 2, 3] ∧
      ((SyncQueue.holding 2 [1, 2] : SyncQueue Nat).addFront [SyncQueue.holding 2 [1, 2]] 3).2
        = SyncQueue.holding 2 [3, 1, 2] ∧
      ((SyncQueue.holding 2 [1, 2] : SyncQueue Nat).add [] 3).2
        = SyncQueue.holding 2 [1, 2, 3] ∧
      ((SyncQueue.holding 2 [1, 2] : SyncQueue Nat).addFront [] 3).2
        = SyncQueue.holding 2 [3, 1, 2] ∧
      ((SyncQueue.holding 2 [1, 2] : SyncQueue Nat).add [] 3).2.q.length = 2 + 1 ∧
      ((SyncQueue.holding 2 [1, 2] : SyncQueue Nat).addFront [] 3).2.q.length = 2 + 1 :=
  C10_timed_out_add_inserts (SyncQueue.holding 2 [1, 2]) [SyncQueue.holding 2 [1, 2]] 3
    rfl (by decide) rfl (by decide)


/-! ## Lemmas on the heap and on the destruction of handles -/

theorem Heap.getElem?_modify (h : Heap) (a a' : Nat) (f : Shared → Shared) :
    (h.modify a f)[a']? = if a' = a then (h[a]?).map f else h[a']? := by
  unfold Heap.modify
  cases hb : h[a]? with
  | none =>
    by_cases e : a' = a
    · subst e; simp [hb]
    · simp [e]
  | some b =>
    have hlt : a < h.length := by
      rcases List.getElem?_eq_some.mp hb with ⟨hlt, _⟩
      exact hlt
    by_cases e : a' = a
    · subst e; simp [List.getElem?_set, hlt]
    · have e' : a ≠ a' := fun x => e x.symm
      simp [List.getElem?_set, e, e']

theorem Awaitable.dtor_null (x : Awaitable) (h : Heap) (hx : x.done = none) : x.dtor h = h := by
  simp [Awaitable.dtor, Awaitable.use_count, Awaitable.unblock, hx]

theorem Awaitable.dtor_getElem?_ne (x : Awaitable) (h : Heap) (a a' : Nat)
    (hx : x.done = some a) (hne : a' ≠ a) : (x.dtor h)[a']? = h[a']? := by
  unfold Awaitable.dtor
  by_cases hu : x.use_count h ≤ 2
  · simp [hu, Awaitable.unblock, hx, Heap.release, Heap.getElem?_modify, hne]
  · simp [hu, hx, Heap.release, Heap.getElem?_modify, hne]

theorem Awaitable.dtor_getElem?_self (x : Awaitable) (h : Heap) (a : Nat) (b : Shared)
    (hx : x.done = some a) (hb : h[a]? = some b) :
    (x.dtor h)[a]? = some
      { latch := if b.use_count ≤ 2 then b.latch.disable.2 else b.latch
        use_count := b.use_count - 1 } := by
  have huc : x.use_count h = b.use_count := by simp [Awaitable.use_count, hx, hb]
  unfold Awaitable.dtor
  rw [huc]
  by_cases hu : b.use_count ≤ 2
  · simp [hu, Awaitable.unblock, hx, Heap.release, Heap.getElem?_modify, hb]
  · simp [hu, hx, Heap.release, Heap.getElem?_modify, hb]


/-- C8. Destroying a handle that owns the latch at `a`, whose `use_count` (the handle being
destroyed included) is `u`: for `u ≤ 2` the latch is disabled, for `u ≥ 3` its flag, count
and expected count are unchanged; in both cases one owner is released and no other latch
is touched.  For a latch that was enabled, it is disabled by the destruction exactly when
`u ≤ 2`.  Destroying a handle that owns no latch leaves the heap as it is. -/
theorem C8_destructor_threshold (x : Awaitable) (h : Heap) (a : Nat) (b : Shared)
    (hx : x.done = some a) (hb : h[a]? = some b) :
    (b.use_count ≤ 2 → (x.dtor h)[a]? = some
        { latch := { b.latch with enabled := false }, use_count := b.use_count - 1 }) ∧
      (3 ≤ b.use_count → (x.dtor h)[a]? = some
        { latch := b.latch, use_count := b.use_count - 1 }) ∧
      (b.latch.enabled = true →
        (((x.dtor h)[a]?).map (fun b' => b'.latch.enabled) = some false ↔ b.use_count ≤ 2)) ∧
      (∀ a', a' ≠ a → (x.dtor h)[a']? = h[a']?) ∧
      (∀ h' : Heap, Awaitable.Empty.dtor h' = h') := by
  have key := Awaitable.dtor_getElem?_self x h a b hx hb
  refine ⟨?_, ?_, ?_, ?_, ?_⟩
  · intro hu
    rw [key, if_pos hu, CountCondition.disable_snd]
  · intro hu
    have : ¬ b.use_count ≤ 2 := by omega
    rw [key, if_neg this]
  · intro hen
    rw [key]
    by_cases hu : b.use_count ≤ 2
    · simp [hu, CountCondition.disable_snd]
    · simp [hu, hen]
  · intro a' hne
    exact Awaitable.dtor_getElem?_ne x h a a' hx hne
  · intro h'
    exact Awaitable.dtor_null _ h' rfl

/-- Instance of C8: two owners, the latch armed for one notification; the destruction
disables it and leaves one owner. -/
theorem C8_destructor_threshold_witness :
    (({ done := some 0 } : Awaitable).dtor
        [{ latch := CountCondition.init.expect 1, use_count := 2 }])[0]?
      = some { latch := { enabled := false, count := 0, expectedCount := 1 }, use_count := 1 } :=
  (C8_destructor_threshold { done := some 0 }
    [{ latch := CountCondition.init.expect 1, use_count := 2 }] 0
    { latch := CountCondition.init.expect 1, use_count := 2 } rfl rfl).1 (by decide)


/-! ## Lemmas on the destruction of commands -/

section DestroyLemmas

variable {α : Type}

/-- Whatever command is destroyed, the latch at `a` keeps its count and expected count, its
owners do not increase, and it stays disabled if it was. -/
theorem Command.dtor_keeps (c : Command α) (h : Heap) (a : Nat) (b : Shared)
    (hb : h[a]? = some b) :
    ∃ b', (c.dtor h)[a]? = some b' ∧ b'.use_count ≤ b.use_count ∧
      b'.latch.expectedCount = b.latch.expectedCount ∧ b'.latch.count = b.latch.count ∧
      (b.latch.enabled = false → b'.latch.enabled = false) := by
  unfold Command.dtor
  cases hbase : c.base with
  | none => exact ⟨b, hb, le_refl _, rfl, rfl, id⟩
  | some x =>
    cases hx : x.done with
    | none =>
      simp only [Awaitable.dtor_null x h hx]
      exact ⟨b, hb, le_refl _, rfl, rfl, id⟩
    | some a0 =>
      by_cases e : a = a0
      · subst e
        refine ⟨_, Awaitable.dtor_getElem?_self x h a b hx hb, Nat.sub_le _ _, ?_, ?_, ?_⟩
        · by_cases hu : b.use_count ≤ 2 <;> simp [hu, CountCondition.disable_snd]
        · by_cases hu : b.use_count ≤ 2 <;> simp [hu, CountCondition.disable_snd]
        · intro hen
          by_cases hu : b.use_count ≤ 2 <;> simp [hu, CountCondition.disable_snd, hen]
      · simp only [Awaitable.dtor_getElem?_ne x h a0 a hx e]
        exact ⟨b, hb, le_refl _, rfl, rfl, id⟩

/-- Destroying a command that owns the latch at `a` while that latch has at most two owners
disables it. -/
theorem Command.dtor_disables (c : Command α) (h : Heap) (a : Nat) (b : Shared)
    (hb : h[a]? = some b) (hc : c.base = some { done := some a }) (hu : b.use_count ≤ 2) :
    ∃ b', (c.dtor h)[a]? = some b' ∧ b'.use_count ≤ b.use_count ∧
      b'.latch.expectedCount = b.latch.expectedCount ∧ b'.latch.enabled = false := by
  unfold Command.dtor
  rw [hc]
  refine ⟨_, Awaitable.dtor_getElem?_self _ h a b rfl hb, Nat.sub_le _ _, ?_, ?_⟩
  · simp [hu, CountCondition.disable_snd]
  · simp [hu, CountCondition.disable_snd]

theorem destroyAll_keeps (cs : List (Command α)) (a : Nat) :
    ∀ (h : Heap) (b : Shared), h[a]? = some b →
      ∃ b', (destroyAll cs h)[a]? = some b' ∧ b'.use_count ≤ b.use_count ∧
        b'.latch.expectedCount = b.latch.expectedCount ∧
        (b.latch.enabled = false → b'.latch.enabled = false) := by
  induction cs with
  | nil => intro h b hb; exact ⟨b, hb, le_refl _, rfl, id⟩
  | cons c cs ih =>
    intro h b hb
    obtain ⟨b1, hb1, hu1, he1, _, hd1⟩ := Command.dtor_keeps c h a b hb
    obtain ⟨b2, hb2, hu2, he2, hd2⟩ := ih (c.dtor h) b1 hb1
    exact ⟨b2, hb2, le_trans hu2 hu1, he2.trans he1, fun hen => hd2 (hd1 hen)⟩

theorem destroyAll_disables (cs : List (Command α)) (a : Nat) (c : Command α)
    (hc : c.base = some { done := some a }) :
    ∀ (h : Heap) (b : Shared), c ∈ cs → h[a]? = some b → b.use_count ≤ 2 →
      ∃ b', (destroyAll cs h)[a]? = some b' ∧
        b'.latch.expectedCount = b.latch.expectedCount ∧ b'.latch.enabled = false := by
  induction cs with
  | nil => intro h b hmem; simp at hmem
  | cons c0 cs ih =>
    intro h b hmem hb hu
    rcases List.mem_cons.mp hmem with e | hrest
    · subst e
      obtain ⟨b1, hb1, _, he1, hd1⟩ := Command.dtor_disables c h a b hb hc hu
      obtain ⟨b2, hb2, _, he2, hd2⟩ := destroyAll_keeps cs a (c.dtor h) b1 hb1
      exact ⟨b2, hb2, he2.trans he1, hd2 hd1⟩
    · obtain ⟨b1, hb1, hu1, he1, _, _⟩ := Command.dtor_keeps c0 h a b hb
      obtain ⟨b2, hb2, he2, hd2⟩ := ih (c0.dtor h) b1 hrest hb1 (le_trans hu1 hu)
      exact ⟨b2, hb2, he2.trans he1, hd2⟩

theorem SyncQueue.removeDrainCmds_eq (Ts : List Nat) (q : List (Command α)) :
    ∀ (copies : List (Command α)) (h : Heap),
      SyncQueue.removeDrainCmds Ts q copies h
        = (copies ++ q.filter (fun v => !(Ts.any (fun U => holds_alternative U v))),
           destroyAll (q.filter (fun v => Ts.any (fun U => holds_alternative U v))) h) := by
  induction q with
  | nil => intro copies h; simp [SyncQueue.removeDrainCmds, destroyAll]
  | cons v q ih =>
    intro copies h
    by_cases hv : Ts.any (fun U => holds_alternative U v) = true
    · simp only [SyncQueue.removeDrainCmds, hv, ih]
      simp [List.filter_cons, hv, destroyAll]
    · simp only [Bool.not_eq_true] at hv
      simp only [SyncQueue.removeDrainCmds, hv, ih]
      simp [List.filter_cons, hv]

/-- A wait on a handle to a disabled latch that expects something returns Shutdown. -/
theorem Awaitable.wait_shutdown_of_disabled (h : Heap) (a : Nat) (b : Shared) (hb : h[a]? = some b)
    (hen : b.latch.enabled = false) (hexp : b.latch.expectedCount ≠ 0)
    (timeout : Option Time) (wakeups : List CountCondition) :
    ({ done := some a } : Awaitable).wait h timeout wakeups = some Result.Shutdown := by
  simp [Awaitable.wait, hb, CountCondition.wait_of_disabled b.latch timeout wakeups hen hexp]

end DestroyLemmas

/-- C6, the claim fails for three owners: a queued command, and two handles besides, share
a latch armed for one notification.  After `clear()`, and after `remove<Alt>()` of the
command's alternative, the latch is still enabled, and a wait that nothing interrupts ends
with Timeout, not Shutdown. -/
theorem C6_three_owners_counterexample :
    ((SyncQueue.holding 10
          [({ index := 0, base := some { done := some 0 }, data := () } : Command Unit)]).clearCmds
        [{ latch := CountCondition.init.expect 1, use_count := 3 }]).2
      = [{ latch := { enabled := true, count := 0, expectedCount := 1 }, use_count := 2 }] ∧
    ({ done := some 0 } : Awaitable).wait
      ((SyncQueue.holding 10
          [({ index := 0, base := some { done := some 0 }, data := () } : Command Unit)]).clearCmds
        [{ latch := CountCondition.init.expect 1, use_count := 3 }]).2
      (some (Time.FromSeconds 1)) [] = some Result.Timeout ∧
    ({ done := some 0 } : Awaitable).wait
      ((SyncQueue.holding 10
          [({ index := 0, base := some { done := some 0 }, data := () } : Command Unit)]).removeCmds
        [0] [{ latch := CountCondition.init.expect 1, use_count := 3 }]).2
      (some (Time.FromSeconds 1)) [] = some Result.Timeout ∧
    ({ done := some 0 } : Awaitable).wait
      ((SyncQueue.holding 10
          [({ index := 0, base := some { done := some 0 }, data := () } : Command Unit)]).clearCmds
        [{ latch := CountCondition.init.expect 1, use_count := 3 }]).2
      (some (Time.FromSeconds 1)) [] ≠ some Result.Shutdown ∧
    ({ done := some 0 } : Awaitable).wait
      ((SyncQueue.holding 10
          [({ index := 0, base := some { done := some 0 }, data := () } : Command Unit)]).removeCmds
        [0] [{ latch := CountCondition.init.expect 1, use_count := 3 }]).2
      (some (Time.FromSeconds 1)) [] ≠ some Result.Shutdown := by
  decide

/-- C6 as amended.  A queued command owns the latch at `a`, which expects `n > 0`
notifications and has at most two owners (the command and at most one other handle).
Discarding the command by `clear()`, or by `remove<Ts...>()` when its alternative is among
`Ts`, disables the latch, and every later `wait()` on a handle to it returns Shutdown,
whatever the time-out. -/
theorem C6_discard_unblocks {α : Type} (s : SyncQueue (Command α)) (h : Heap)
    (c : Command α) (a : Nat) (b : Shared) (Ts : List Nat)
    (hc : c ∈ s.q) (hbase : c.base = some { done := some a }) (hb : h[a]? = some b)
    (hexp : 0 < b.latch.expectedCount) (huse : b.use_count ≤ 2)
    (timeout : Option Time) (wakeups : List CountCondition) :
    (∃ b', (s.clearCmds h).2[a]? = some b' ∧ b'.latch.enabled = false) ∧
      ({ done := some a } : Awaitable).wait (s.clearCmds h).2 timeout wakeups
        = some Result.Shutdown ∧
      (c.index ∈ Ts →
        (∃ b', (s.removeCmds Ts h).2[a]? = some b' ∧ b'.latch.enabled = false) ∧
        ({ done := some a } : Awaitable).wait (s.removeCmds Ts h).2 timeout wakeups
          = some Result.Shutdown ∧
        c ∉ (s.removeCmds Ts h).1.q) ∧
      (s.clearCmds h).1.q = [] := by
  obtain ⟨b1, hb1, he1, hd1⟩ := destroyAll_disables s.q a c hbase h b hc hb huse
  have hne1 : b1.latch.expectedCount ≠ 0 := by omega
  refine ⟨⟨b1, hb1, hd1⟩, Awaitable.wait_shutdown_of_disabled _ a b1 hb1 hd1 hne1 timeout wakeups, ?_, rfl⟩
  intro hidx
  have hmatch : Ts.any (fun U => holds_alternative U c) = true := by
    simp only [List.any_eq_true]
    exact ⟨c.index, hidx, by simp [holds_alternative, IsVariant.index]⟩
  have hmem : c ∈ s.q.filter (fun v => Ts.any (fun U => holds_alternative U v)) :=
    List.mem_filter.mpr ⟨hc, hmatch⟩
  obtain ⟨b2, hb2, he2, hd2⟩ := destroyAll_disables _ a c hbase h b hmem hb huse
  have hne2 : b2.latch.expectedCount ≠ 0 := by omega
  have hheap : (s.removeCmds Ts h).2
      = destroyAll (s.q.filter (fun v => Ts.any (fun U => holds_alternative U v))) h := by
    simp [SyncQueue.removeCmds, SyncQueue.removeDrainCmds_eq]
  have hq : (s.removeCmds Ts h).1.q
      = s.q.filter (fun v => !(Ts.any (fun U => holds_alternative U v))) := by
    simp [SyncQueue.removeCmds, SyncQueue.removeDrainCmds_eq, SyncQueue.removeRefill_eq]
  rw [hheap, hq]
  refine ⟨⟨b2, hb2, hd2⟩, Awaitable.wait_shutdown_of_disabled _ a b2 hb2 hd2 hne2 timeout wakeups, ?_⟩
  intro hin
  have := (List.mem_filter.mp hin).2
  simp [hmatch] at this

/-- Instance of the amended C6: the command and one handle share a latch armed for one
notification; after `clear()` a wait on the handle returns Shutdown. -/
theorem C6_discard_unblocks_witness :
    ({ done := some 0 } : Awaitable).wait
      ((SyncQueue.holding 10
          [({ index := 0, base := some { done := some 0 }, data := () } : Command Unit)]).clearCmds
        [{ latch := CountCondition.init.expect 1, use_count := 2 }]).2
      none [] = some Result.Shutdown :=
  (C6_discard_unblocks
    (SyncQueue.holding 10
      [({ index := 0, base := some { done := some 0 }, data := () } : Command Unit)])
    [{ latch := CountCondition.init.expect 1, use_count := 2 }]
    { index := 0, base := some { done := some 0 }, data := () } 0
    { latch := CountCondition.init.expect 1, use_count := 2 } [0]
    (by decide) rfl rfl (by decide) (by decide) none []).2.1

end mdsp

namespace cisim

open mdsp

section AsyncLemmas

variable {α : Type}

/-- The heap in which `async` builds its command: the fresh latch, armed for one
notification, with the local handle and the handle inside the command as owners. -/
theorem Thread.async_heap_before_send (h : Heap) :
    ((Awaitable.mk_n 1 h).1.copy (Awaitable.mk_n 1 h).2)
      = ({ done := some h.length },
         h ++ [{ latch := { enabled := true, count := 0, expectedCount := 1 }, use_count := 2 }]) := by
  simp [Awaitable.mk_n, Awaitable.copy, Heap.acquire, Heap.modify, CountCondition.expect]

theorem Thread.async_eq (d : Dispatch) (alt : Nat) (args : α) (t : Thread α)
    (wakeups : List (SyncQueue (Command α))) (h : Heap) :
    Thread.async d alt args t wakeups h
      = ({ done := some h.length },
         Thread.mk (t.channel.send d wakeups
            { index := alt, base := some { done := some h.length }, data := args }) t.running,
         if (t.channel.q.producerWait wakeups).shouldReceive then
           h ++ [{ latch := { enabled := true, count := 0, expectedCount := 1 }, use_count := 2 }]
         else
           Command.dtor
             ({ index := alt, base := some { done := some h.length }, data := args } : Command α)
             (h ++ [{ latch := { enabled := true, count := 0, expectedCount := 1 },
                      use_count := 2 }])) := by
  unfold Thread.async
  simp only [Thread.async_heap_before_send, Channel.sendCmd]
  simp [Awaitable.mk_n]

theorem Channel.send_mem_of_open {T : Type} (d : Dispatch) (ch : Channel T)
    (wakeups : List (SyncQueue T)) (msg : T)
    (hopen : (ch.q.producerWait wakeups).shouldReceive = true) :
    msg ∈ (ch.send d wakeups msg).q.q := by
  cases d <;>
    simp [Channel.send, Dispatch.call, SyncQueue.add_eq, SyncQueue.addFront_eq, hopen]

end AsyncLemmas

/-- C7. `h = async<Alt>(args...)` returns a handle to a fresh latch.  When the command was
enqueued the latch expects 1, is enabled and has exactly two owners, `h` and the queued
command.  If `Channel::close()` runs before the command is received, the queue is left
closed and empty (the command is destroyed), the latch is disabled, and `h.wait(timeout)`
returns Shutdown for every time-out. -/
theorem C7_close_before_receive {α : Type} (d : Dispatch) (alt : Nat) (args : α)
    (t : Thread α) (wakeups : List (SyncQueue (Command α))) (h : Heap)
    (timeout : Option Time) (latchWakeups : List CountCondition) :
    (Thread.async d alt args t wakeups h).1 = { done := some h.length } ∧
      ((t.channel.q.producerWait wakeups).shouldReceive = true →
        (Thread.async d alt args t wakeups h).2.2[h.length]? = some
          { latch := { enabled := true, count := 0, expectedCount := 1 }, use_count := 2 } ∧
        ({ index := alt, base := some { done := some h.length }, data := args } : Command α)
          ∈ (Thread.async d alt args t wakeups h).2.1.channel.q.q) ∧
      ((Thread.async d alt args t wakeups h).2.1.channel.closeCmds
          (Thread.async d alt args t wakeups h).2.2).1.q.q = [] ∧
      ((Thread.async d alt args t wakeups h).2.1.channel.closeCmds
          (Thread.async d alt args t wakeups h).2.2).1.q.shouldReceive = false ∧
      (∃ b, ((Thread.async d alt args t wakeups h).2.1.channel.closeCmds
          (Thread.async d alt args t wakeups h).2.2).2[h.length]? = some b ∧
        b.latch.enabled = false ∧ b.latch.expectedCount = 1) ∧
      (Thread.async d alt args t wakeups h).1.wait
          ((Thread.async d alt args t wakeups h).2.1.channel.closeCmds
            (Thread.async d alt args t wakeups h).2.2).2 timeout latchWakeups
        = some Result.Shutdown := by
  have hfresh : (h ++ [(⟨⟨true, 0, 1⟩, 2⟩ : Shared)])[h.length]? = some ⟨⟨true, 0, 1⟩, 2⟩ := by
    simp
  have hdis : ∃ b, ((Thread.async d alt args t wakeups h).2.1.channel.closeCmds
      (Thread.async d alt args t wakeups h).2.2).2[h.length]? = some b ∧
        b.latch.enabled = false ∧ b.latch.expectedCount = 1 := by
    rw [Thread.async_eq]
    simp only [Channel.closeCmds, Interlocked.clearCmds, Interlocked.deny, if_true]
    cases hopen : (t.channel.q.producerWait wakeups).shouldReceive with
    | true =>
      rw [if_pos rfl]
      obtain ⟨b', hb', he', hd'⟩ := destroyAll_disables _ h.length
        ({ index := alt, base := some { done := some h.length }, data := args } : Command α)
        rfl _ _ (Channel.send_mem_of_open d t.channel wakeups _ hopen) hfresh (le_refl 2)
      exact ⟨b', hb', hd', he'⟩
    | false =>
      rw [if_neg Bool.false_ne_true]
      obtain ⟨b1, hb1, _, he1, hd1⟩ := Command.dtor_disables
        ({ index := alt, base := some { done := some h.length }, data := args } : Command α)
        _ h.length _ hfresh rfl (le_refl 2)
      obtain ⟨b2, hb2, _, he2, hd2⟩ := destroyAll_keeps
        (t.channel.send d wakeups
          ({ index := alt, base := some { done := some h.length }, data := args } :
            Command α)).q.q
        h.length _ b1 hb1
      exact ⟨b2, hb2, hd2 hd1, he2.trans he1⟩
  refine ⟨by rw [Thread.async_eq], ?_, ?_, ?_, hdis, ?_⟩
  · intro hopen
    rw [Thread.async_eq]
    simp only [hopen, if_true]
    exact ⟨hfresh, Channel.send_mem_of_open d t.channel wakeups _ hopen⟩
  · simp [Channel.closeCmds, Interlocked.clearCmds]
  · simp [Channel.closeCmds, Interlocked.clearCmds, Interlocked.deny]
  · obtain ⟨b, hb, hen, hexp⟩ := hdis
    have h1 : (Thread.async d alt args t wakeups h).1 = { done := some h.length } := by
      rw [Thread.async_eq]
    rw [h1]
    exact Awaitable.wait_shutdown_of_disabled _ h.length b hb hen (by omega) timeout latchWakeups

end cisim

namespace cisim

open mdsp

/-- Instance of C7: a thread whose channel is open and empty (capacity 10), `async` with
`Serial` dispatch on an empty heap, then `close()`. -/
theorem C7_close_before_receive_witness :
    (Thread.async Dispatch.Serial 0 ()
        ({ channel := { q := SyncQueue.holding 10 [] }, running := true } : Thread Unit) [] []).1.wait
      ((Thread.async Dispatch.Serial 0 ()
        ({ channel := { q := SyncQueue.holding 10 [] }, running := true } : Thread Unit)
          [] []).2.1.channel.closeCmds
        (Thread.async Dispatch.Serial 0 ()
          ({ channel := { q := SyncQueue.holding 10 [] }, running := true } : Thread Unit)
            [] []).2.2).2 none []
      = some Result.Shutdown :=
  (C7_close_before_receive Dispatch.Serial 0 ()
    { channel := { q := SyncQueue.holding 10 [] }, running := true } [] [] none []).2.2.2.2.2

end cisim

namespace mdsp

/-! ## Lemmas on the consumer side -/

theorem wait_for_fst_eq_pred {σ : Type} (rel_time : Int) (pred : σ → Bool) (wakeups : List σ) :
    ∀ s : σ, (wait_for rel_time pred s wakeups).1 = pred (wait_for rel_time pred s wakeups).2 := by
  induction wakeups with
  | nil => intro s; simp [wait_for]
  | cons s1 wakeups ih =>
    intro s
    by_cases hp : pred s = true
    · simp [wait_for, hp]
    · simp only [Bool.not_eq_true] at hp
      simp [wait_for, hp, ih s1]

section ConsumerLemmas

variable {T : Type}

/-- A consumer wait that reports a time-out ends on an open, empty queue. -/
theorem SyncQueue.consumerWait_timedout (s : SyncQueue T) (t : Time)
    (wakeups : List (SyncQueue T)) (h : (s.consumerWait t wakeups).1 = true) :
    (s.consumerWait t wakeups).2.q = [] ∧ (s.consumerWait t wakeups).2.shouldReceive = true := by
  unfold SyncQueue.consumerWait at h ⊢
  by_cases hw : s.consumerShouldWait = true
  · simp only [hw, if_true] at h ⊢
    have hr := wait_for_fst_eq_pred t.chronoMilliseconds
      (fun s' : SyncQueue T => !s'.consumerShouldWait) wakeups s
    generalize wait_for t.chronoMilliseconds
      (fun s' : SyncQueue T => !s'.consumerShouldWait) s wakeups = r at h hr
    rw [hr] at h
    have hcw : r.2.consumerShouldWait = true := by simpa using h
    simp only [SyncQueue.consumerShouldWait, SyncQueue.isEmpty_impl, Bool.and_eq_true,
      List.isEmpty_iff] at hcw
    exact ⟨hcw.2, hcw.1⟩
  · simp [hw] at h

theorem SyncQueue.consumerWait_of_not_waiting (s : SyncQueue T) (t : Time)
    (wakeups : List (SyncQueue T)) (h : s.consumerShouldWait = false) :
    s.consumerWait t wakeups = (false, s) := by
  simp [SyncQueue.consumerWait, h]

theorem SyncQueue.getWithStatus_of_ended_empty [Inhabited T] (s : SyncQueue T)
    (wakeups : List (SyncQueue T))
    (hq : (s.consumerWait s.consumerTimeout wakeups).2.q = []) :
    s.getWithStatus wakeups
      = ((if !(s.consumerWait s.consumerTimeout wakeups).2.shouldReceive
            then SyncQStatus.Shutdown else SyncQStatus.Timeout, default),
         (s.consumerWait s.consumerTimeout wakeups).2) := by
  simp [SyncQueue.getWithStatus, SyncQueue.isEmpty_impl, hq]

theorem SyncQueue.getWithStatus_of_ended_nonempty [Inhabited T] (s : SyncQueue T)
    (wakeups : List (SyncQueue T)) (x : T) (rest : List T)
    (hq : (s.consumerWait s.consumerTimeout wakeups).2.q = x :: rest) :
    s.getWithStatus wakeups
      = ((SyncQStatus.OK, x),
         { (s.consumerWait s.consumerTimeout wakeups).2 with q := rest }) := by
  have hnt : (s.consumerWait s.consumerTimeout wakeups).1 = false := by
    cases ht : (s.consumerWait s.consumerTimeout wakeups).1 with
    | false => rfl
    | true =>
      have := (SyncQueue.consumerWait_timedout s _ wakeups ht).1
      rw [hq] at this
      cases this
  simp [SyncQueue.getWithStatus, SyncQueue.isEmpty_impl, hq, hnt]

end ConsumerLemmas

/-- C11. With `s1` the state in which the consumer wait of `getWithStatus()` ends: if `s1`
is empty the call returns a default-constructed value with status Shutdown when `s1` is
closed and Timeout when it is open, and the queue is left as `s1`; if `s1` is not empty the
call returns `(OK, front)` and the contents become the tail.  A call that does not have to
wait (queue closed, or not empty) sees `s1 = s`. -/
theorem C11_getWithStatus_outcomes {T : Type} [Inhabited T] (s : SyncQueue T)
    (wakeups : List (SyncQueue T)) :
    ((s.consumerWait s.consumerTimeout wakeups).2.q = [] →
        (s.consumerWait s.consumerTimeout wakeups).2.shouldReceive = false →
        s.getWithStatus wakeups
          = ((SyncQStatus.Shutdown, default), (s.consumerWait s.consumerTimeout wakeups).2)) ∧
      ((s.consumerWait s.consumerTimeout wakeups).2.q = [] →
        (s.consumerWait s.consumerTimeout wakeups).2.shouldReceive = true →
        s.getWithStatus wakeups
          = ((SyncQStatus.Timeout, default), (s.consumerWait s.consumerTimeout wakeups).2)) ∧
      (∀ (x : T) (rest : List T),
        (s.consumerWait s.consumerTimeout wakeups).2.q = x :: rest →
        s.getWithStatus wakeups
          = ((SyncQStatus.OK, x),
             { (s.consumerWait s.consumerTimeout wakeups).2 with q := rest })) ∧
      (s.consumerShouldWait = false → (s.consumerWait s.consumerTimeout wakeups).2 = s) := by
  refine ⟨?_, ?_, ?_, ?_⟩
  · intro hq hc
    rw [SyncQueue.getWithStatus_of_ended_empty s wakeups hq]
    simp [hc]
  · intro hq ho
    rw [SyncQueue.getWithStatus_of_ended_empty s wakeups hq]
    simp [ho]
  · intro x rest hq
    exact SyncQueue.getWithStatus_of_ended_nonempty s wakeups x rest hq
  · intro h
    rw [SyncQueue.consumerWait_of_not_waiting s _ wakeups h]

/-- C12, the claim fails: the queue holding 1 and 2 is closed with
`shouldReceive(false, ClearCache(false))`; it is closed and still holds both items, and
`getWithStatus()` returns `(OK, 1)`, not Shutdown, and removes the front. -/
theorem C12_closed_get_counterexample :
    ((SyncQueue.holding 10 [1, 2] : SyncQueue Nat).setShouldReceive false false).shouldReceive
        = false ∧
      ((SyncQueue.holding 10 [1, 2] : SyncQueue Nat).setShouldReceive false false).q = [1, 2] ∧
      (((SyncQueue.holding 10 [1, 2] : SyncQueue Nat).setShouldReceive false false).getWithStatus
        []).1 = (SyncQStatus.OK, 1) ∧
      (((SyncQueue.holding 10 [1, 2] : SyncQueue Nat).setShouldReceive false false).getWithStatus
        []).1.1 ≠ SyncQStatus.Shutdown ∧
      (((SyncQueue.holding 10 [1, 2] : SyncQueue Nat).setShouldReceive false false).getWithStatus
        []).2.q = [2] := by
  decide

/-- C12 as amended.  On a closed queue `getWithStatus()` does not wait.  If the queue is
empty it returns Shutdown with a default-constructed value and changes nothing, which is
always so after `shouldReceive(false)` with the default `ClearCache(true)`; if the queue
still holds items (closed with `ClearCache(false)`) it returns `(OK, front)` and the
contents become the tail. -/
theorem C12_closed_get {T : Type} [Inhabited T] (s : SyncQueue T)
    (wakeups : List (SyncQueue T)) (hclosed : s.shouldReceive = false) :
    (s.q = [] → s.getWithStatus wakeups = ((SyncQStatus.Shutdown, default), s)) ∧
      (∀ (x : T) (rest : List T), s.q = x :: rest →
        s.getWithStatus wakeups = ((SyncQStatus.OK, x), { s with q := rest })) ∧
      (∀ s0 : SyncQueue T, (s0.setShouldReceive false true).getWithStatus wakeups
        = ((SyncQStatus.Shutdown, default), s0.setShouldReceive false true)) ∧
      (∀ (s0 : SyncQueue T) (x : T) (rest : List T), s0.q = x :: rest →
        (s0.setShouldReceive false false).getWithStatus wakeups
          = ((SyncQStatus.OK, x), { s0.setShouldReceive false false with q := rest })) := by
  have hclosed_empty : ∀ s' : SyncQueue T, s'.shouldReceive = false → s'.q = [] →
      s'.getWithStatus wakeups = ((SyncQStatus.Shutdown, default), s') := by
    intro s' hc hq
    have hw : s'.consumerWait s'.consumerTimeout wakeups = (false, s') :=
      SyncQueue.consumerWait_of_not_waiting s' _ wakeups
        (by simp [SyncQueue.consumerShouldWait, hc])
    have hq' : (s'.consumerWait s'.consumerTimeout wakeups).2.q = [] := by rw [hw]; exact hq
    rw [SyncQueue.getWithStatus_of_ended_empty s' wakeups hq', hw]
    simp [hc]
  refine ⟨hclosed_empty s hclosed, ?_, ?_, ?_⟩
  · intro x rest hq
    exact SyncQueue.getWithStatus_of_nonempty s wakeups x rest hq
  · intro s0
    exact hclosed_empty _ (by simp [SyncQueue.setShouldReceive])
      (by simp [SyncQueue.setShouldReceive])
  · intro s0 x rest hq
    exact SyncQueue.getWithStatus_of_nonempty _ wakeups x rest
      (by simp [SyncQueue.setShouldReceive, hq])

/-- Instance of the amended C12: a closed queue still holding 1 and 2 hands out 1. -/
theorem C12_closed_get_witness :
    ((SyncQueue.holding 10 [1, 2] : SyncQueue Nat).setShouldReceive false false).getWithStatus []
      = ((SyncQStatus.OK, 1),
         { (SyncQueue.holding 10 [1, 2] : SyncQueue Nat).setShouldReceive false false with
           q := [2] }) :=
  (C12_closed_get ((SyncQueue.holding 10 [1, 2] : SyncQueue Nat).setShouldReceive false false)
    [] rfl).2.1 1 [2] rfl


section TryLemmas

variable {T : Type}

theorem SyncQueue.tryGet_of_empty (s : SyncQueue T) (item : T) (hq : s.q = []) :
    s.tryGet true item = (false, item, s) := by
  simp [SyncQueue.tryGet, SyncQueue.isEmpty_impl, hq]

theorem SyncQueue.tryGet_of_nonempty (s : SyncQueue T) (item x : T) (rest : List T)
    (hq : s.q = x :: rest) : s.tryGet true item = (true, x, { s with q := rest }) := by
  simp [SyncQueue.tryGet, SyncQueue.isEmpty_impl, hq]

theorem tryGetAll_of_items (xs : List T) :
    ∀ (s : SyncQueue T) (item : T) (ys : List T), s.q = xs ++ ys →
      tryGetAll s item xs.length = (xs.map (fun x => (true, x)), { s with q := ys }) := by
  induction xs with
  | nil =>
    intro s item ys hq
    simp at hq
    simp [tryGetAll, ← hq]
  | cons x xs ih =>
    intro s item ys hq
    simp only [List.length_cons, tryGetAll]
    rw [SyncQueue.tryGet_of_nonempty s item x (xs ++ ys) (by simpa using hq)]
    simp [ih { s with q := xs ++ ys } x ys rfl]

theorem SyncQueue.isFull_impl_eq_true_iff (s : SyncQueue T) :
    s.isFull_impl = true ↔ s.capacity ≠ 0 ∧ s.capacity ≤ s.q.length := by
  unfold SyncQueue.isFull_impl
  by_cases hc : s.capacity = 0 <;> simp [hc]

theorem SyncQueue.tryAdd_eq (s : SyncQueue T) (x : T) :
    (s.tryAdd true x).2
      = if s.shouldReceive = true ∧ (s.capacity = 0 ∨ s.q.length < s.capacity) then
          { s with q := s.q ++ [x] }
        else s := by
  by_cases hfull : s.isFull_impl = true
  · have h := (SyncQueue.isFull_impl_eq_true_iff s).mp hfull
    have hno : ¬ (s.shouldReceive = true ∧ (s.capacity = 0 ∨ s.q.length < s.capacity)) := by
      rintro ⟨_, h0 | hlt⟩
      · exact h.1 h0
      · omega
    simp [SyncQueue.tryAdd, hfull, hno]
  · have h : ¬ (s.capacity ≠ 0 ∧ s.capacity ≤ s.q.length) :=
      fun hh => hfull ((SyncQueue.isFull_impl_eq_true_iff s).mpr hh)
    have hroom : s.capacity = 0 ∨ s.q.length < s.capacity := by
      by_cases hc : s.capacity = 0
      · exact Or.inl hc
      · right
        by_contra hlt
        exact h ⟨hc, by omega⟩
    simp only [Bool.not_eq_true] at hfull
    cases hopen : s.shouldReceive <;>
      simp [SyncQueue.tryAdd, hfull, hopen, hroom]

/-- The value returned by `tryAdd` with the lock obtained, for the state `later` found by
the read that follows the release of the lock. -/
theorem SyncQueue.tryAdd_returned (s : SyncQueue T) (x : T) (later : SyncQueue T) :
    (s.tryAdd true x).1 later
      = (decide (s.shouldReceive = true ∧ (s.capacity = 0 ∨ s.q.length < s.capacity)) &&
          !later.isEmpty_impl) := by
  by_cases hfull : s.isFull_impl = true
  · have h := (SyncQueue.isFull_impl_eq_true_iff s).mp hfull
    have hno : ¬ (s.shouldReceive = true ∧ (s.capacity = 0 ∨ s.q.length < s.capacity)) := by
      rintro ⟨_, h0 | hlt⟩
      · exact h.1 h0
      · omega
    simp [SyncQueue.tryAdd, hfull, hno]
  · have h : ¬ (s.capacity ≠ 0 ∧ s.capacity ≤ s.q.length) :=
      fun hh => hfull ((SyncQueue.isFull_impl_eq_true_iff s).mpr hh)
    have hroom : s.capacity = 0 ∨ s.q.length < s.capacity := by
      by_cases hc : s.capacity = 0
      · exact Or.inl hc
      · right
        by_contra hlt
        exact h ⟨hc, by omega⟩
    simp only [Bool.not_eq_true] at hfull
    cases hopen : s.shouldReceive <;>
      simp [SyncQueue.tryAdd, hfull, hopen, hroom]

end TryLemmas

/-- C13. With the lock uncontested, `tryGet(item)` returns false exactly when the queue is
empty, and then changes neither the queue nor `item`; on a non-empty queue, open or closed,
it returns true, stores the front in `item` and leaves the tail.  So `len` calls drain a
queue, closed ones included, in FIFO order, and the next call returns false. -/
theorem C13_tryGet {T : Type} (s : SyncQueue T) (item : T) :
    ((s.tryGet true item).1 = false ↔ s.q = []) ∧
      (s.q = [] → s.tryGet true item = (false, item, s)) ∧
      (∀ (x : T) (rest : List T), s.q = x :: rest →
        s.tryGet true item = (true, x, { s with q := rest })) ∧
      tryGetAll s item s.q.length = (s.q.map (fun x => (true, x)), { s with q := [] }) ∧
      (s.shouldReceive = false →
        tryGetAll s item s.q.length = (s.q.map (fun x => (true, x)), { s with q := [] })) ∧
      (∀ item' : T, ((tryGetAll s item s.q.length).2.tryGet true item').1 = false) := by
  have hall := tryGetAll_of_items s.q s item [] (by simp)
  refine ⟨?_, SyncQueue.tryGet_of_empty s item, SyncQueue.tryGet_of_nonempty s item, hall,
    fun _ => hall, ?_⟩
  · cases hq : s.q with
    | nil => simp [SyncQueue.tryGet_of_empty s item hq]
    | cons x rest => simp [SyncQueue.tryGet_of_nonempty s item x rest hq]
  · intro item'
    rw [hall, SyncQueue.tryGet_of_empty _ item' rfl]

/-- C14, the claim fails: `tryAdd(5)` on the open, empty queue of capacity 2 appends 5 and
releases the lock; a consumer's `tryGet` then takes the 5; the producer's
`!_isEmpty_impl()`, read after that, finds the queue empty, so `tryAdd` returns false
although the queue was open with room and the item was appended. -/
theorem C14_tryAdd_returns_false_counterexample :
    (SyncQueue.new 2 : SyncQueue Nat).shouldReceive = true ∧
      (SyncQueue.new 2 : SyncQueue Nat).q.length < (SyncQueue.new 2 : SyncQueue Nat).capacity ∧
      ((SyncQueue.new 2 : SyncQueue Nat).tryAdd true 5).2.q = [5] ∧
      (((SyncQueue.new 2 : SyncQueue Nat).tryAdd true 5).2.tryGet true 0).1 = true ∧
      (((SyncQueue.new 2 : SyncQueue Nat).tryAdd true 5).2.tryGet true 0).2.1 = 5 ∧
      ((SyncQueue.new 2 : SyncQueue Nat).tryAdd true 5).1
        (((SyncQueue.new 2 : SyncQueue Nat).tryAdd true 5).2.tryGet true 0).2.2 = false := by
  decide

/-- C14 as amended.  With the lock uncontested, `tryAdd(x)` appends `x` exactly when the
queue is open and (`capacity == 0` or `len < capacity`); otherwise it changes nothing and
returns false.  When it appends, the value returned is `!_isEmpty_impl()` read after the
lock is released, from the state `later`: true exactly when `later` is not empty, which is
the case when no other thread came in between.  So a call that returns true has appended.
With capacity 0 the queue is never full and `tryAdd` appends on an open queue at every
length; with capacity `C > 0` it never makes the length exceed `C`. -/
theorem C14_tryAdd {T : Type} (s : SyncQueue T) (x : T) (later : SyncQueue T) :
    ((s.tryAdd true x).2 = { s with q := s.q ++ [x] } ∧ (s.tryAdd true x).2 ≠ s ↔
        s.shouldReceive = true ∧ (s.capacity = 0 ∨ s.q.length < s.capacity)) ∧
      (s.shouldReceive = true ∧ (s.capacity = 0 ∨ s.q.length < s.capacity) →
        (s.tryAdd true x).2 = { s with q := s.q ++ [x] } ∧
        (s.tryAdd true x).1 later = !later.isEmpty_impl ∧
        (s.tryAdd true x).1 (s.tryAdd true x).2 = true) ∧
      (¬ (s.shouldReceive = true ∧ (s.capacity = 0 ∨ s.q.length < s.capacity)) →
        (s.tryAdd true x).2 = s ∧ (s.tryAdd true x).1 later = false) ∧
      ((s.tryAdd true x).1 later = true →
        s.shouldReceive = true ∧ (s.capacity = 0 ∨ s.q.length < s.capacity)) ∧
      (s.capacity = 0 → s.isFull_impl = false) ∧
      (s.capacity = 0 → s.shouldReceive = true →
        (s.tryAdd true x).2 = { s with q := s.q ++ [x] }) ∧
      (0 < s.capacity → s.q.length ≤ s.capacity →
        (s.tryAdd true x).2.q.length ≤ s.capacity) ∧
      (0 < s.capacity → s.capacity < (s.tryAdd true x).2.q.length →
        (s.tryAdd true x).2 = s) := by
  have key := SyncQueue.tryAdd_eq s x
  have kret := SyncQueue.tryAdd_returned s x later
  refine ⟨?_, ?_, ?_, ?_, ?_, ?_, ?_, ?_⟩
  · rw [key]
    by_cases h : s.shouldReceive = true ∧ (s.capacity = 0 ∨ s.q.length < s.capacity)
    · rw [if_pos h]
      refine ⟨fun _ => h, fun _ => ⟨rfl, ?_⟩⟩
      intro he
      have := congrArg (fun t => t.q.length) he
      simp at this
    · rw [if_neg h]
      refine ⟨fun hh => absurd rfl hh.2, fun hh => absurd hh h⟩
  · intro h
    refine ⟨by rw [key, if_pos h], ?_, ?_⟩
    · rw [kret]
      simp [h]
    · rw [SyncQueue.tryAdd_returned, key, if_pos h]
      simp [h, SyncQueue.isEmpty_impl]
  · intro h
    refine ⟨by rw [key, if_neg h], ?_⟩
    rw [kret]
    simp [h]
  · intro hret
    rw [kret] at hret
    simp only [Bool.and_eq_true, decide_eq_true_eq] at hret
    exact hret.1
  · intro h
    simp [SyncQueue.isFull_impl, h]
  · intro hc ho
    rw [key, if_pos ⟨ho, Or.inl hc⟩]
  · intro hc hlen
    rw [key]
    by_cases h : s.shouldReceive = true ∧ (s.capacity = 0 ∨ s.q.length < s.capacity)
    · rw [if_pos h]
      rcases h with ⟨_, h0 | hlt⟩
      · omega
      · simp; omega
    · rw [if_neg h]
      exact hlen
  · intro hc hlen
    rw [key] at hlen ⊢
    by_cases h : s.shouldReceive = true ∧ (s.capacity = 0 ∨ s.q.length < s.capacity)
    · rw [if_pos h] at hlen
      rcases h with ⟨_, h0 | hlt⟩
      · omega
      · simp at hlen; omega
    · rw [if_neg h]


/-- Instance of C13: a closed queue still holding 1, 2 and 3 is drained in order. -/
theorem C13_tryGet_witness :
    tryGetAll ((SyncQueue.holding 10 [1, 2, 3] : SyncQueue Nat).setShouldReceive false false) 0 3
      = ([(true, 1), (true, 2), (true, 3)],
         { (SyncQueue.holding 10 [1, 2, 3] : SyncQueue Nat).setShouldReceive false false with
           q := [] }) :=
  (C13_tryGet ((SyncQueue.holding 10 [1, 2, 3] : SyncQueue Nat).setShouldReceive false false)
    0).2.2.2.1

/-- Instance of C14: capacity 2 holding one item accepts a second one. -/
theorem C14_tryAdd_witness :
    ((SyncQueue.holding 2 [1] : SyncQueue Nat).tryAdd true 2).2 = SyncQueue.holding 2 [1, 2] :=
  ((C14_tryAdd (SyncQueue.holding 2 [1]) 2 (SyncQueue.holding 2 [1, 2])).2.1
    ⟨rfl, Or.inr (by decide)⟩).1


/-- C17, the claim fails: on an open, empty channel of capacity 10, `send<Priority>(1)`
then `send<Priority>(2)` leave `[2, 1]`, and the following `recv()` calls return 2 first
and 1 second. -/
theorem C17_priority_order_counterexample :
    ((({ q := SyncQueue.holding 10 [] } : Channel Nat).send Dispatch.Priority [] 1).send
        Dispatch.Priority [] 2).q.q = [2, 1] ∧
      (((({ q := SyncQueue.holding 10 [] } : Channel Nat).send Dispatch.Priority [] 1).send
        Dispatch.Priority [] 2).recv []).1 = (SyncQStatus.OK, 2) ∧
      ((((({ q := SyncQueue.holding 10 [] } : Channel Nat).send Dispatch.Priority [] 1).send
        Dispatch.Priority [] 2).recv []).2.recv []).1 = (SyncQStatus.OK, 1) ∧
      (((({ q := SyncQueue.holding 10 [] } : Channel Nat).send Dispatch.Priority [] 1).send
        Dispatch.Priority [] 2).recv []).1 ≠ (SyncQStatus.OK, 1) := by
  decide

/-- C17 as amended.  Two messages `p1`, `p2` sent in that order with `send<Priority>` on an
open channel with room for both, without `recv()` in between, are queued as
`p2, p1, ...`: the following `recv()` calls return `p2` first and `p1` second, and leave
the channel as it was before the two sends. -/
theorem C17_priority_sends_lifo {T : Type} [Inhabited T] (ch : Channel T) (p1 p2 : T)
    (w1 w2 w3 w4 : List (SyncQueue T)) (hopen : ch.q.shouldReceive = true)
    (hroom : ch.q.capacity = 0 ∨ ch.q.q.length + 2 ≤ ch.q.capacity) :
    ((ch.send Dispatch.Priority w1 p1).send Dispatch.Priority w2 p2).q.q
        = p2 :: p1 :: ch.q.q ∧
      (((ch.send Dispatch.Priority w1 p1).send Dispatch.Priority w2 p2).recv w3).1
        = (SyncQStatus.OK, p2) ∧
      ((((ch.send Dispatch.Priority w1 p1).send Dispatch.Priority w2 p2).recv w3).2.recv w4).1
        = (SyncQStatus.OK, p1) ∧
      ((((ch.send Dispatch.Priority w1 p1).send Dispatch.Priority w2 p2).recv w3).2.recv w4).2
        = ch := by
  have hf1 : ch.q.isFull_impl = false :=
    SyncQueue.isFull_impl_eq_false_of_room ch.q (by
      rcases hroom with h | h
      · exact Or.inl h
      · right; omega)
  have h1 : ch.send Dispatch.Priority w1 p1 = { q := { ch.q with q := p1 :: ch.q.q } } := by
    simp [Channel.send, Dispatch.call, SyncQueue.addFront_of_open_not_full ch.q w1 p1 hopen hf1]
  have hf2 : ({ ch.q with q := p1 :: ch.q.q } : SyncQueue T).isFull_impl = false :=
    SyncQueue.isFull_impl_eq_false_of_room _ (by
      rcases hroom with h | h
      · exact Or.inl h
      · right; simp; omega)
  have h2 : (ch.send Dispatch.Priority w1 p1).send Dispatch.Priority w2 p2
      = { q := { ch.q with q := p2 :: p1 :: ch.q.q } } := by
    rw [h1]
    simp [Channel.send, Dispatch.call,
      SyncQueue.addFront_of_open_not_full _ w2 p2 (show ({ ch.q with q := p1 :: ch.q.q } :
        SyncQueue T).shouldReceive = true from hopen) hf2]
  have hg1 := SyncQueue.getWithStatus_of_nonempty
    ({ ch.q with q := p2 :: p1 :: ch.q.q } : SyncQueue T) w3 p2 (p1 :: ch.q.q) rfl
  have hg2 := SyncQueue.getWithStatus_of_nonempty
    ({ ch.q with q := p1 :: ch.q.q } : SyncQueue T) w4 p1 ch.q.q rfl
  have hr1 : (({ q := { ch.q with q := p2 :: p1 :: ch.q.q } } : Channel T).recv w3)
      = ((SyncQStatus.OK, p2), { q := { ch.q with q := p1 :: ch.q.q } }) := by
    simp only [Channel.recv, hg1]
  have hr2 : (({ q := { ch.q with q := p1 :: ch.q.q } } : Channel T).recv w4)
      = ((SyncQStatus.OK, p1), ch) := by
    simp only [Channel.recv, hg2]
  rw [h2, hr1, hr2]
  exact ⟨rfl, rfl, rfl, rfl⟩

/-- Instance of the amended C17: the channel holds 7 (capacity 10); 1 and 2 are sent with
`Priority`. -/
theorem C17_priority_sends_lifo_witness :
    ((({ q := SyncQueue.holding 10 [7] } : Channel Nat).send Dispatch.Priority [] 1).send
        Dispatch.Priority [] 2).q.q = [2, 1, 7] :=
  (C17_priority_sends_lifo { q := SyncQueue.holding 10 [7] } 1 2 [] [] [] [] rfl
    (Or.inr (by decide))).1

/-! ## More on the latch -/

theorem CountCondition.waitStop_fst (c : CountCondition) (timeout : Option Time)
    (wakeups : List CountCondition) :
    (c.waitStop timeout wakeups).1 = (c.waitStop timeout wakeups).2.shouldWait := by
  unfold CountCondition.waitStop
  by_cases hw : c.shouldWait = true
  · simp only [hw, if_true]
    have hr := wait_for_fst_eq_pred (timeout.getD (Time.FromSeconds INT_MAX)).chronoMilliseconds
      (fun s : CountCondition => !s.shouldWait) wakeups c
    generalize wait_for (timeout.getD (Time.FromSeconds INT_MAX)).chronoMilliseconds
      (fun s : CountCondition => !s.shouldWait) c wakeups = r at hr
    rw [hr]
    simp
  · simp only [Bool.not_eq_true] at hw
    simp [hw]

theorem CountCondition.wait_eq_of_waitStop (c : CountCondition) (timeout : Option Time)
    (wakeups : List CountCondition) (hexp : c.expectedCount ≠ 0) :
    c.wait timeout wakeups
      = if !(c.waitStop timeout wakeups).2.enabled || (c.waitStop timeout wakeups).1 then
          (if !(c.waitStop timeout wakeups).2.enabled then Result.Shutdown else Result.Timeout)
        else Result.OK := by
  unfold CountCondition.wait CountCondition.waitStop
  by_cases hw : c.shouldWait = true
  · simp [hexp, hw]
  · simp only [Bool.not_eq_true] at hw
    simp [hexp, hw]

/-- C18. With `expected == 0` the call `wait(timeout)` returns OK whatever `enabled`,
`count`, the time-out and the wake-ups are. -/
theorem C18_wait_expected_zero (c : CountCondition) (hexp : c.expectedCount = 0)
    (timeout : Option Time) (wakeups : List CountCondition) :
    c.wait timeout wakeups = Result.OK := by
  simp [CountCondition.wait, hexp]

/-- Instance of C18: a latch that expects nothing, is disabled and has count 5. -/
theorem C18_wait_expected_zero_witness :
    ({ enabled := false, count := 5, expectedCount := 0 } : CountCondition).wait
      (some (Time.FromSeconds 0)) [] = Result.OK :=
  C18_wait_expected_zero { enabled := false, count := 5, expectedCount := 0 } rfl
    (some (Time.FromSeconds 0)) []


/-- A wait on a latch that has to wait, during which every wake-up finds a latch that still
has to wait, ends with Timeout. -/
theorem CountCondition.wait_timeout_of_never (c : CountCondition) (timeout : Option Time)
    (wakeups : List CountCondition) (hexp : c.expectedCount ≠ 0) (hc : c.shouldWait = true)
    (hw : ∀ w ∈ wakeups, w.shouldWait = true) :
    c.wait timeout wakeups = Result.Timeout := by
  have hlast : ((c :: wakeups).getLast (List.cons_ne_nil c wakeups)).shouldWait = true := by
    rcases List.mem_cons.mp (List.getLast_mem (List.cons_ne_nil c wakeups)) with h | h
    · rw [h]; exact hc
    · exact hw _ h
  have hen : ((c :: wakeups).getLast (List.cons_ne_nil c wakeups)).enabled = true := by
    simp only [CountCondition.shouldWait, Bool.and_eq_true] at hlast
    exact hlast.1
  have hwf := wait_for_of_never (timeout.getD (Time.FromSeconds INT_MAX)).chronoMilliseconds
    (fun s : CountCondition => !s.shouldWait) wakeups c (by simp [hc])
    (fun w hmem => by simp [hw w hmem])
  have hstop : c.waitStop timeout wakeups
      = (true, (c :: wakeups).getLast (List.cons_ne_nil c wakeups)) := by
    unfold CountCondition.waitStop
    simp only [hc, if_true, hwf]
    rfl
  rw [CountCondition.wait_eq_of_waitStop c timeout wakeups hexp, hstop]
  simp [hen]

/-- C19, the claim fails: after `expect(1)` and two calls of `notify()` the count is 2, the
latch still has to wait, and a wait that nothing interrupts returns Timeout, not OK. -/
theorem C19_over_notification_counterexample :
    (CountCondition.notify^[2] (CountCondition.init.expect 1))
        = { enabled := true, count := 2, expectedCount := 1 } ∧
      (CountCondition.notify^[2] (CountCondition.init.expect 1)).shouldWait = true ∧
      (CountCondition.notify^[2] (CountCondition.init.expect 1)).wait
        (some (Time.FromSeconds 1)) [] = Result.Timeout ∧
      (CountCondition.notify^[2] (CountCondition.init.expect 1)).wait
        (some (Time.FromSeconds 1)) [] ≠ Result.OK := by
  decide

/-- C19 as amended.  For `n > 0` and `m ≥ n` (`m` below `2 ^ 64`), after `expect(n)` and `m`
calls of `notify()`, without `disable()`: if `m = n` then `wait(timeout)` returns OK; if
`m > n` the latch still has to wait (`count != expected`), and a wait during which every
wake-up finds a latch that still has to wait (in particular a wait that nothing
interrupts) returns Timeout. -/
theorem C19_over_notification_times_out (c : CountCondition) (n m : Nat) (hn : 0 < n)
    (hnm : n ≤ m) (hm : m < SIZE_MOD) (timeout : Option Time) (wakeups : List CountCondition) :
    (m = n → (CountCondition.notify^[m] (c.expect n)).wait timeout wakeups = Result.OK) ∧
      (n < m → (CountCondition.notify^[m] (c.expect n)).shouldWait = true) ∧
      (n < m → (∀ w ∈ wakeups, w.shouldWait = true) →
        (CountCondition.notify^[m] (c.expect n)).wait timeout wakeups = Result.Timeout) ∧
      (n < m → (CountCondition.notify^[m] (c.expect n)).wait timeout [] = Result.Timeout) ∧
      ((CountCondition.notify^[m] (c.expect n)).wait timeout [] = Result.OK ↔ m = n) := by
  have hstate := CountCondition.iterate_notify_expect c n m
  rw [Nat.mod_eq_of_lt hm] at hstate
  have hne : n ≠ 0 := by omega
  have hok : m = n → (CountCondition.notify^[m] (c.expect n)).wait timeout wakeups
      = Result.OK := by
    intro h
    rw [hstate, h]
    simp [CountCondition.wait, CountCondition.shouldWait]
  have hsw : n < m → (CountCondition.notify^[m] (c.expect n)).shouldWait = true := by
    intro h
    have : m ≠ n := by omega
    rw [hstate]
    simp [CountCondition.shouldWait, this]
  have hto : ∀ ws : List CountCondition, n < m → (∀ w ∈ ws, w.shouldWait = true) →
      (CountCondition.notify^[m] (c.expect n)).wait timeout ws = Result.Timeout := by
    intro ws h hw
    exact CountCondition.wait_timeout_of_never _ timeout ws (by rw [hstate]; exact hne)
      (hsw h) hw
  refine ⟨hok, hsw, hto wakeups, fun h => hto [] h (by simp), ?_⟩
  constructor
  · intro h
    by_contra hmn
    have hlt : n < m := by omega
    rw [hto [] hlt (by simp)] at h
    cases h
  · intro h
    rw [hstate, h]
    simp [CountCondition.wait, CountCondition.shouldWait]

/-- Instance of the amended C19: three notifications for two expected. -/
theorem C19_over_notification_times_out_witness :
    (CountCondition.notify^[3] (CountCondition.init.expect 2)).wait none [] = Result.Timeout :=
  (C19_over_notification_times_out CountCondition.init 2 3 (by decide) (by decide) (by decide)
    none []).2.2.2.1 (by decide)

/-- C20. For a `wait()` entered with `expected != 0`, let `e` be the latch as the thread
finds it when it stops waiting and `timedout` the flag set from `wait_for`.  The result is
Shutdown exactly when `e` is disabled (also when the deadline elapsed at that moment);
Timeout exactly when `e` is enabled and the deadline elapsed with `count != expected`; OK
exactly when `e` is enabled and `count == expected`.  The flag `timedout` is set exactly
when `e` is enabled with `count != expected`. -/
theorem C20_wait_result (c : CountCondition) (timeout : Option Time)
    (wakeups : List CountCondition) (hexp : c.expectedCount ≠ 0) :
    ((c.waitStop timeout wakeups).2.enabled = false →
        c.wait timeout wakeups = Result.Shutdown) ∧
      (c.wait timeout wakeups = Result.Shutdown ↔
        (c.waitStop timeout wakeups).2.enabled = false) ∧
      (c.wait timeout wakeups = Result.Timeout ↔
        (c.waitStop timeout wakeups).2.enabled = true ∧
        (c.waitStop timeout wakeups).1 = true ∧
        (c.waitStop timeout wakeups).2.count ≠ (c.waitStop timeout wakeups).2.expectedCount) ∧
      (c.wait timeout wakeups = Result.OK ↔
        (c.waitStop timeout wakeups).2.enabled = true ∧
        (c.waitStop timeout wakeups).2.count = (c.waitStop timeout wakeups).2.expectedCount) ∧
      ((c.waitStop timeout wakeups).1 = true ↔
        (c.waitStop timeout wakeups).2.enabled = true ∧
        (c.waitStop timeout wakeups).2.count ≠ (c.waitStop timeout wakeups).2.expectedCount) := by
  have hres := CountCondition.wait_eq_of_waitStop c timeout wakeups hexp
  have hfst := CountCondition.waitStop_fst c timeout wakeups
  generalize c.waitStop timeout wakeups = e at hres hfst
  obtain ⟨t, e⟩ := e
  simp only at hres hfst
  subst hfst
  rw [hres]
  cases hen : e.enabled <;> by_cases hc : e.count = e.expectedCount <;>
    simp [CountCondition.shouldWait, hen, hc]

/-- Instance of C20: one of two notifications arrived and nothing else happens before the
deadline, so the result is Timeout. -/
theorem C20_wait_result_witness :
    ({ enabled := true, count := 1, expectedCount := 2 } : CountCondition).wait none []
      = Result.Timeout :=
  ((C20_wait_result { enabled := true, count := 1, expectedCount := 2 } none []
    (by decide)).2.2.1).mpr (by decide)


/-! ## Lemmas on `forEach<U>` and `update` -/

section ForEachLemmas

variable {T σ : Type} [IsVariant T]

theorem forEachLoop_length (U : Nat) (handler : T → σ → T × σ) (q : List T) :
    ∀ st : σ, (forEachLoop U handler q st).1.length = q.length := by
  induction q with
  | nil => intro st; simp [forEachLoop]
  | cons x rest ih =>
    intro st
    by_cases hx : holds_alternative U x = true
    · simp [forEachLoop, hx, ih]
    · simp only [Bool.not_eq_true] at hx
      simp [forEachLoop, hx, ih]

theorem forEachLoop_of_no_match (U : Nat) (handler : T → σ → T × σ) (q : List T) :
    ∀ st : σ, (∀ e ∈ q, holds_alternative U e = false) →
      forEachLoop U handler q st = (q, st) := by
  induction q with
  | nil => intro st _; simp [forEachLoop]
  | cons x rest ih =>
    intro st hno
    have hx : holds_alternative U x = false := hno x (List.mem_cons_self _ _)
    have hrest := ih st (fun e he => hno e (List.mem_cons_of_mem _ he))
    simp [forEachLoop, hx, hrest]

theorem forEachLoop_keeps_others (U : Nat) (handler : T → σ → T × σ) (q : List T) :
    ∀ (st : σ) (i : Nat) (e : T), q[i]? = some e → holds_alternative U e = false →
      (forEachLoop U handler q st).1[i]? = some e := by
  induction q with
  | nil => intro st i e hi; simp at hi
  | cons x rest ih =>
    intro st i e hi he
    cases i with
    | zero =>
      simp at hi
      subst hi
      simp [forEachLoop, he]
    | succ i =>
      simp at hi
      by_cases hx : holds_alternative U x = true
      · simp [forEachLoop, hx, ih _ i e hi he]
      · simp only [Bool.not_eq_true] at hx
        simp [forEachLoop, hx, ih _ i e hi he]

theorem forEachLoop_at_first_match (U : Nat) (handler : T → σ → T × σ) (pre : List T) :
    ∀ (st : σ) (e : T) (post : List T), (∀ x ∈ pre, holds_alternative U x = false) →
      holds_alternative U e = true →
      forEachLoop U handler (pre ++ e :: post) st
        = (pre ++ (handler e st).1 :: (forEachLoop U handler post (handler e st).2).1,
           (forEachLoop U handler post (handler e st).2).2) := by
  induction pre with
  | nil => intro st e post _ he; simp [forEachLoop, he]
  | cons x pre ih =>
    intro st e post hpre he
    have hx : holds_alternative U x = false := hpre x (List.mem_cons_self _ _)
    have := ih st e post (fun y hy => hpre y (List.mem_cons_of_mem _ hy)) he
    simp [forEachLoop, hx, this]

end ForEachLemmas

section UpdateLemmas

variable {T : Type} [IsVariant T]

theorem updateLoop_flag (U : Nat) (afterAssign : T → T) (q : List T) :
    ∀ (v : T) (b : Bool),
      (forEachLoop U (fun (_existing : T) (st : T × Bool) => (st.1, (afterAssign st.1, true)))
        q (v, b)).2.2 = (b || q.any (fun e => holds_alternative U e)) := by
  induction q with
  | nil => intro v b; simp [forEachLoop]
  | cons x rest ih =>
    intro v b
    by_cases hx : holds_alternative U x = true
    · simp [forEachLoop, hx, ih]
    · simp only [Bool.not_eq_true] at hx
      simp [forEachLoop, hx, ih]

theorem updateLoop_of_copy (U : Nat) (afterAssign : T → T) (v : T) (hv : afterAssign v = v)
    (q : List T) :
    ∀ b : Bool,
      (forEachLoop U (fun (_existing : T) (st : T × Bool) => (st.1, (afterAssign st.1, true)))
        q (v, b)).1 = q.map (fun e => if holds_alternative U e then v else e) := by
  induction q with
  | nil => intro b; simp [forEachLoop]
  | cons x rest ih =>
    intro b
    by_cases hx : holds_alternative U x = true
    · simp [forEachLoop, hx, hv, ih]
    · simp only [Bool.not_eq_true] at hx
      simp [forEachLoop, hx, ih]

theorem Channel.update_q (d : Dispatch) (afterAssign : T → T) (ch : Channel T)
    (wakeups : List (SyncQueue T)) (v : T)
    (hsome : ∃ e ∈ ch.q.q, IsVariant.index e = IsVariant.index v) :
    ch.update d afterAssign wakeups v
      = { q := { ch.q with q :=
          (forEachLoop (IsVariant.index v)
            (fun (_existing : T) (st : T × Bool) => (st.1, (afterAssign st.1, true)))
            ch.q.q (v, false)).1 } } := by
  have hflag := updateLoop_flag (IsVariant.index v) afterAssign ch.q.q v false
  have hany : ch.q.q.any (fun e => holds_alternative (IsVariant.index v) e) = true := by
    obtain ⟨e, he, hidx⟩ := hsome
    simp only [List.any_eq_true]
    exact ⟨e, he, by simp [holds_alternative, hidx]⟩
  rw [hany] at hflag
  simp only [Bool.false_or] at hflag
  simp [Channel.update, Channel.select, SyncQueue.forEach, hflag]

end UpdateLemmas

/-- C15. `update<Dispatch>(v)` for a value `v` of alternative `A`.  If no queued element
holds `A`, the result is that of `send<Dispatch>(v)`.  If some element holds `A`: the
length and the other members of the queue are unchanged, every element of another
alternative stays where it is, and the first element holding `A` is replaced by `v` at its
position; when it is the only one, the contents are the old ones with that element replaced
by `v`; and when the assignment leaves `v` intact (an lvalue argument, copy assignment),
every element holding `A` is replaced by `v`. -/
theorem C15_update {T : Type} [IsVariant T] (d : Dispatch) (afterAssign : T → T)
    (ch : Channel T) (wakeups : List (SyncQueue T)) (v : T) :
    ((∀ e ∈ ch.q.q, IsVariant.index e ≠ IsVariant.index v) →
        ch.update d afterAssign wakeups v = ch.send d wakeups v) ∧
      ((∃ e ∈ ch.q.q, IsVariant.index e = IsVariant.index v) →
        (ch.update d afterAssign wakeups v).q.q.length = ch.q.q.length ∧
        (ch.update d afterAssign wakeups v).q
          = { ch.q with q := (ch.update d afterAssign wakeups v).q.q } ∧
        (∀ (i : Nat) (e : T), ch.q.q[i]? = some e → IsVariant.index e ≠ IsVariant.index v →
          (ch.update d afterAssign wakeups v).q.q[i]? = some e) ∧
        (∀ (pre post : List T) (e : T), ch.q.q = pre ++ e :: post →
          (∀ x ∈ pre, IsVariant.index x ≠ IsVariant.index v) →
          IsVariant.index e = IsVariant.index v →
          ∃ post', (ch.update d afterAssign wakeups v).q.q = pre ++ v :: post' ∧
            post'.length = post.length) ∧
        (∀ (pre post : List T) (e : T), ch.q.q = pre ++ e :: post →
          (∀ x ∈ pre, IsVariant.index x ≠ IsVariant.index v) →
          (∀ x ∈ post, IsVariant.index x ≠ IsVariant.index v) →
          IsVariant.index e = IsVariant.index v →
          (ch.update d afterAssign wakeups v).q.q = pre ++ v :: post) ∧
        (afterAssign v = v →
          (ch.update d afterAssign wakeups v).q.q
            = ch.q.q.map (fun e => if IsVariant.index e = IsVariant.index v then v else e))) := by
  constructor
  · intro hno
    have hno' : ∀ e ∈ ch.q.q, holds_alternative (IsVariant.index v) e = false := by
      intro e he
      simp [holds_alternative, hno e he]
    simp [Channel.update, Channel.select, SyncQueue.forEach,
      forEachLoop_of_no_match _ _ _ _ hno']
  · intro hsome
    rw [Channel.update_q d afterAssign ch wakeups v hsome]
    refine ⟨?_, rfl, ?_, ?_, ?_, ?_⟩
    · simp [forEachLoop_length]
    · intro i e hi hne
      exact forEachLoop_keeps_others _ _ _ _ i e hi (by simp [holds_alternative, hne])
    · intro pre post e hq hpre he
      refine ⟨(forEachLoop (IsVariant.index v)
        (fun (_existing : T) (st : T × Bool) => (st.1, (afterAssign st.1, true)))
        post (afterAssign v, true)).1, ?_, forEachLoop_length _ _ post _⟩
      simp only [hq]
      rw [forEachLoop_at_first_match _ _ pre _ e post
        (fun x hx => by simp [holds_alternative, hpre x hx]) (by simp [holds_alternative, he])]
    · intro pre post e hq hpre hpost he
      simp only [hq]
      rw [forEachLoop_at_first_match _ _ pre _ e post
        (fun x hx => by simp [holds_alternative, hpre x hx]) (by simp [holds_alternative, he])]
      rw [forEachLoop_of_no_match _ _ post _
        (fun x hx => by simp [holds_alternative, hpost x hx])]
    · intro hv
      simp only [updateLoop_of_copy _ afterAssign v hv]
      simp [holds_alternative]

/-- Instance of C15: `update(B)` on `[A, B, C]` keeps the three elements in place; on
`[A, C]` it appends `B` like `send`. -/
theorem C15_update_witness :
    (({ q := SyncQueue.holding 10 [ABC.A, ABC.B, ABC.C] } : Channel ABC).update Dispatch.Serial
        id [] ABC.B).q.q = [ABC.A, ABC.B, ABC.C] ∧
      (({ q := SyncQueue.holding 10 [ABC.A, ABC.C] } : Channel ABC).update Dispatch.Serial
        id [] ABC.B)
        = ({ q := SyncQueue.holding 10 [ABC.A, ABC.C] } : Channel ABC).send Dispatch.Serial
            [] ABC.B :=
  ⟨((C15_update Dispatch.Serial id { q := SyncQueue.holding 10 [ABC.A, ABC.B, ABC.C] } []
      ABC.B).2 ⟨ABC.B, by decide, rfl⟩).2.2.2.2.2 rfl,
   (C15_update Dispatch.Serial id { q := SyncQueue.holding 10 [ABC.A, ABC.C] } []
      ABC.B).1 (by decide)⟩


/-! ## Lemmas on the heap under assignment of handles -/

theorem Heap.sameLatch_refl (a : Nat) (h : Heap) : Heap.SameLatch a h h :=
  fun b hb => ⟨b, hb, rfl⟩

theorem Heap.sameLatch_trans {a : Nat} {h1 h2 h3 : Heap} (h12 : Heap.SameLatch a h1 h2)
    (h23 : Heap.SameLatch a h2 h3) : Heap.SameLatch a h1 h3 := by
  intro b hb
  obtain ⟨b2, hb2, e2⟩ := h12 b hb
  obtain ⟨b3, hb3, e3⟩ := h23 b2 hb2
  exact ⟨b3, hb3, e3.trans e2⟩

theorem Heap.settled_refl (a : Nat) (h : Heap) : Heap.Settled a h h :=
  fun b hb => ⟨b, hb, rfl, id⟩

theorem Heap.settled_trans {a : Nat} {h1 h2 h3 : Heap} (h12 : Heap.Settled a h1 h2)
    (h23 : Heap.Settled a h2 h3) : Heap.Settled a h1 h3 := by
  intro b hb
  obtain ⟨b2, hb2, e2, d2⟩ := h12 b hb
  obtain ⟨b3, hb3, e3, d3⟩ := h23 b2 hb2
  exact ⟨b3, hb3, e3.trans e2, fun hd => d3 (d2 hd)⟩

theorem Heap.settled_of_sameLatch {a : Nat} {h h' : Heap} (hs : Heap.SameLatch a h h') :
    Heap.Settled a h h' := by
  intro b hb
  obtain ⟨b', hb', e⟩ := hs b hb
  exact ⟨b', hb', by rw [e], fun hd => by rw [e]; exact hd⟩

theorem Heap.sameLatch_modify_use_count (a a0 : Nat) (h : Heap) (f : Nat → Nat) :
    Heap.SameLatch a h (h.modify a0 (fun b => { b with use_count := f b.use_count })) := by
  intro b hb
  rw [Heap.getElem?_modify]
  by_cases e : a = a0
  · subst e
    simp [hb]
  · simp [e, hb]

theorem Heap.sameLatch_acquire (a a0 : Nat) (h : Heap) : Heap.SameLatch a h (h.acquire a0) :=
  Heap.sameLatch_modify_use_count a a0 h (fun n => n + 1)

theorem Heap.sameLatch_release (a a0 : Nat) (h : Heap) : Heap.SameLatch a h (h.release a0) :=
  Heap.sameLatch_modify_use_count a a0 h (fun n => n - 1)

theorem Awaitable.unblock_sameLatch (x : Awaitable) (h : Heap) (a : Nat)
    (hne : x.done ≠ some a) : Heap.SameLatch a h (x.unblock h).2 := by
  unfold Awaitable.unblock
  cases hx : x.done with
  | none => exact Heap.sameLatch_refl a h
  | some a0 =>
    have hne' : a ≠ a0 := by
      intro e
      apply hne
      rw [hx, e]
    refine Heap.sameLatch_trans ?_ (Heap.sameLatch_release a a0 _)
    intro b hb
    refine ⟨b, ?_, rfl⟩
    rw [Heap.getElem?_modify]
    simp [hne', hb]

theorem Awaitable.unblock_settled (x : Awaitable) (h : Heap) (a : Nat) :
    Heap.Settled a h (x.unblock h).2 := by
  by_cases hx : x.done = some a
  · unfold Awaitable.unblock
    rw [hx]
    refine Heap.settled_trans ?_ (Heap.settled_of_sameLatch (Heap.sameLatch_release a a _))
    intro b hb
    refine ⟨{ b with latch := b.latch.disable.2 }, ?_, ?_, ?_⟩
    · rw [Heap.getElem?_modify]
      simp [hb]
    · simp [CountCondition.disable_snd]
    · intro _
      simp [CountCondition.disable_snd]
  · exact Heap.settled_of_sameLatch (Awaitable.unblock_sameLatch x h a hx)

theorem Awaitable.unblock_disables (x : Awaitable) (h : Heap) (a : Nat) (b : Shared)
    (hx : x.done = some a) (hb : h[a]? = some b) :
    ∃ b', (x.unblock h).2[a]? = some b' ∧ b'.latch.enabled = false ∧
      b'.latch.expectedCount = b.latch.expectedCount := by
  unfold Awaitable.unblock
  rw [hx]
  have h1 : (h.modify a (fun b => { b with latch := b.latch.disable.2 }))[a]?
      = some { b with latch := b.latch.disable.2 } := by
    rw [Heap.getElem?_modify]
    simp [hb]
  obtain ⟨b', hb', e⟩ := Heap.sameLatch_release a a _ _ h1
  exact ⟨b', hb', by rw [e]; simp [CountCondition.disable_snd],
    by rw [e]; simp [CountCondition.disable_snd]⟩

theorem Awaitable.unblock_done (x : Awaitable) (h : Heap) : (x.unblock h).1.done = none := by
  unfold Awaitable.unblock
  cases hx : x.done <;> simp [hx]

theorem Awaitable.copyAssign_sameLatch (self other : Awaitable) (h : Heap) (a : Nat)
    (hne : self.done ≠ some a) : Heap.SameLatch a h (self.copyAssign other h).2 := by
  unfold Awaitable.copyAssign
  cases other.done with
  | none => exact Awaitable.unblock_sameLatch self h a hne
  | some a1 =>
    exact Heap.sameLatch_trans (Awaitable.unblock_sameLatch self h a hne)
      (Heap.sameLatch_acquire a a1 _)

theorem Awaitable.moveAssign_sameLatch (self other : Awaitable) (h : Heap) (a : Nat)
    (hne : self.done ≠ some a) : Heap.SameLatch a h (self.moveAssign other h).2.2 := by
  unfold Awaitable.moveAssign
  exact Awaitable.unblock_sameLatch self h a hne

theorem Awaitable.copyAssign_settled (self other : Awaitable) (h : Heap) (a : Nat) :
    Heap.Settled a h (self.copyAssign other h).2 := by
  unfold Awaitable.copyAssign
  cases other.done with
  | none => exact Awaitable.unblock_settled self h a
  | some a1 =>
    exact Heap.settled_trans (Awaitable.unblock_settled self h a)
      (Heap.settled_of_sameLatch (Heap.sameLatch_acquire a a1 _))

theorem Awaitable.moveAssign_settled (self other : Awaitable) (h : Heap) (a : Nat) :
    Heap.Settled a h (self.moveAssign other h).2.2 := by
  unfold Awaitable.moveAssign
  exact Awaitable.unblock_settled self h a

section HandlerLemmas

variable {α : Type}

theorem Command.assignCopy_settled (self other : Command α) (h : Heap) (a : Nat) :
    Heap.Settled a h (self.copyAssign other h).2 := by
  unfold Command.copyAssign
  cases self.base with
  | none => exact Heap.settled_refl a h
  | some x =>
    cases other.base with
    | none => exact Heap.settled_refl a h
    | some y => exact Awaitable.copyAssign_settled x y h a

theorem Command.assignMove_settled (afterMove : α → α) (self other : Command α) (h : Heap)
    (a : Nat) : Heap.Settled a h (self.moveAssign afterMove other h).2.2 := by
  unfold Command.moveAssign
  cases self.base with
  | none => exact Heap.settled_refl a h
  | some x =>
    cases other.base with
    | none => exact Heap.settled_refl a h
    | some y => exact Awaitable.moveAssign_settled x y h a

theorem Command.assignCopy_sameLatch (self other : Command α) (h : Heap) (a : Nat)
    (hne : self.base ≠ some { done := some a }) :
    Heap.SameLatch a h (self.copyAssign other h).2 := by
  unfold Command.copyAssign
  cases hs : self.base with
  | none => exact Heap.sameLatch_refl a h
  | some x =>
    cases other.base with
    | none => exact Heap.sameLatch_refl a h
    | some y =>
      refine Awaitable.copyAssign_sameLatch x y h a ?_
      intro hx
      apply hne
      rw [hs]
      cases x
      simp_all

theorem Command.assignMove_sameLatch (afterMove : α → α) (self other : Command α)
    (h : Heap) (a : Nat) (hne : self.base ≠ some { done := some a }) :
    Heap.SameLatch a h (self.moveAssign afterMove other h).2.2 := by
  unfold Command.moveAssign
  cases hs : self.base with
  | none => exact Heap.sameLatch_refl a h
  | some x =>
    cases other.base with
    | none => exact Heap.sameLatch_refl a h
    | some y =>
      refine Awaitable.moveAssign_sameLatch x y h a ?_
      intro hx
      apply hne
      rw [hs]
      cases x
      simp_all

theorem Channel.updateUnblock_settled (value existing : Command α) (h : Heap) (a : Nat) :
    Heap.Settled a h (Channel.updateUnblock value existing h).2 := by
  unfold Channel.updateUnblock
  cases value.base with
  | none => exact Heap.settled_refl a _
  | some y =>
    cases existing.base with
    | none => exact Heap.settled_refl a _
    | some x => exact Awaitable.unblock_settled x _ a

theorem Channel.updateUnblock_sameLatch (value existing : Command α) (h : Heap) (a : Nat)
    (hne : existing.base ≠ some { done := some a }) :
    Heap.SameLatch a h (Channel.updateUnblock value existing h).2 ∧
      (Channel.updateUnblock value existing h).1.base ≠ some { done := some a } := by
  unfold Channel.updateUnblock
  cases value.base with
  | none => exact ⟨Heap.sameLatch_refl a _, hne⟩
  | some y =>
    cases he : existing.base with
    | none => exact ⟨Heap.sameLatch_refl a _, by simp [he]⟩
    | some x =>
      have hx : x.done ≠ some a := by
        intro hx
        apply hne
        rw [he]
        cases x
        simp_all
      refine ⟨Awaitable.unblock_sameLatch x h a hx, ?_⟩
      intro hb
      have hd := Awaitable.unblock_done x h
      simp only [Option.some.injEq] at hb
      rw [hb] at hd
      cases hd

theorem Channel.updateUnblock_disables (value existing : Command α) (h : Heap) (a : Nat)
    (b : Shared) (he : existing.base = some { done := some a })
    (hv : value.base.isSome = true) (hb : h[a]? = some b) :
    ∃ b', (Channel.updateUnblock value existing h).2[a]? = some b' ∧
      b'.latch.enabled = false ∧ b'.latch.expectedCount = b.latch.expectedCount := by
  obtain ⟨y, hy⟩ := Option.isSome_iff_exists.mp hv
  unfold Channel.updateUnblock
  rw [hy, he]
  exact Awaitable.unblock_disables { done := some a } h a b rfl hb

theorem Channel.updateHandler_settled (byMove : Bool) (afterMove : α → α)
    (existing : Command α) (st : Command α × Bool × Heap) (a : Nat) :
    Heap.Settled a st.2.2 (Channel.updateHandler byMove afterMove existing st).2.2.2 := by
  have hu := Channel.updateUnblock_settled st.1 existing st.2.2 a
  unfold Channel.updateHandler
  cases byMove with
  | true => exact Heap.settled_trans hu (Command.assignMove_settled afterMove _ _ _ a)
  | false => exact Heap.settled_trans hu (Command.assignCopy_settled _ _ _ a)

end HandlerLemmas


section UpdateCmdsLemmas

variable {α : Type}

theorem Channel.updateHandler_sameLatch (byMove : Bool) (afterMove : α → α)
    (existing : Command α) (st : Command α × Bool × Heap) (a : Nat)
    (hne : existing.base ≠ some { done := some a }) :
    Heap.SameLatch a st.2.2 (Channel.updateHandler byMove afterMove existing st).2.2.2 := by
  obtain ⟨h1, hnew⟩ := Channel.updateUnblock_sameLatch st.1 existing st.2.2 a hne
  unfold Channel.updateHandler
  cases byMove with
  | true =>
    exact Heap.sameLatch_trans h1 (Command.assignMove_sameLatch afterMove _ _ _ a hnew)
  | false =>
    exact Heap.sameLatch_trans h1 (Command.assignCopy_sameLatch _ _ _ a hnew)

theorem Channel.updateHandler_disables (byMove : Bool) (afterMove : α → α)
    (existing : Command α) (st : Command α × Bool × Heap) (a : Nat) (b : Shared)
    (he : existing.base = some { done := some a }) (hv : st.1.base.isSome = true)
    (hb : st.2.2[a]? = some b) :
    ∃ b', (Channel.updateHandler byMove afterMove existing st).2.2.2[a]? = some b' ∧
      b'.latch.enabled = false ∧ b'.latch.expectedCount = b.latch.expectedCount := by
  obtain ⟨b1, hb1, hd1, he1⟩ := Channel.updateUnblock_disables st.1 existing st.2.2 a b he hv hb
  unfold Channel.updateHandler
  cases byMove with
  | true =>
    obtain ⟨b2, hb2, he2, hd2⟩ := Command.assignMove_settled afterMove
      (Channel.updateUnblock st.1 existing st.2.2).1 st.1 _ a b1 hb1
    exact ⟨b2, hb2, hd2 hd1, he2.trans he1⟩
  | false =>
    obtain ⟨b2, hb2, he2, hd2⟩ := Command.assignCopy_settled
      (Channel.updateUnblock st.1 existing st.2.2).1 st.1 _ a b1 hb1
    exact ⟨b2, hb2, hd2 hd1, he2.trans he1⟩

theorem Command.moveAssign_other_base (afterMove : α → α) (self other : Command α) (h : Heap)
    (hv : other.base.isSome = true) :
    (self.moveAssign afterMove other h).2.1.base.isSome = true := by
  unfold Command.moveAssign
  cases self.base with
  | none => simpa using hv
  | some x =>
    cases ho : other.base with
    | none => rw [ho] at hv; cases hv
    | some y => rfl

theorem Channel.updateHandler_value_base (byMove : Bool) (afterMove : α → α)
    (existing : Command α) (st : Command α × Bool × Heap) (hv : st.1.base.isSome = true) :
    (Channel.updateHandler byMove afterMove existing st).2.1.base.isSome = true := by
  unfold Channel.updateHandler
  cases byMove with
  | false => exact hv
  | true => exact Command.moveAssign_other_base afterMove _ st.1 _ hv

theorem Channel.updateHandler_flag (byMove : Bool) (afterMove : α → α)
    (existing : Command α) (st : Command α × Bool × Heap) :
    (Channel.updateHandler byMove afterMove existing st).2.2.1 = true := by
  unfold Channel.updateHandler
  cases byMove <;> simp

theorem updateCmdsLoop_settled (U : Nat) (byMove : Bool) (afterMove : α → α)
    (q : List (Command α)) (a : Nat) :
    ∀ st : Command α × Bool × Heap,
      Heap.Settled a st.2.2
        (forEachLoop U (Channel.updateHandler byMove afterMove) q st).2.2.2 := by
  induction q with
  | nil => intro st; exact Heap.settled_refl a _
  | cons x rest ih =>
    intro st
    by_cases hx : holds_alternative U x = true
    · simp only [forEachLoop, hx, Bool.not_true, Bool.false_eq_true, if_false]
      exact Heap.settled_trans (Channel.updateHandler_settled byMove afterMove x st a) (ih _)
    · simp only [Bool.not_eq_true] at hx
      simp only [forEachLoop, hx, Bool.not_false, if_true]
      exact ih st

theorem updateCmdsLoop_sameLatch (U : Nat) (byMove : Bool) (afterMove : α → α)
    (q : List (Command α)) (a : Nat) :
    ∀ st : Command α × Bool × Heap,
      (∀ x ∈ q, holds_alternative U x = true → x.base ≠ some { done := some a }) →
      Heap.SameLatch a st.2.2
        (forEachLoop U (Channel.updateHandler byMove afterMove) q st).2.2.2 := by
  induction q with
  | nil => intro st _; exact Heap.sameLatch_refl a _
  | cons x rest ih =>
    intro st hq
    have hrest : ∀ y ∈ rest, holds_alternative U y = true → y.base ≠ some { done := some a } :=
      fun y hy => hq y (List.mem_cons_of_mem _ hy)
    by_cases hx : holds_alternative U x = true
    · simp only [forEachLoop, hx, Bool.not_true, Bool.false_eq_true, if_false]
      exact Heap.sameLatch_trans
        (Channel.updateHandler_sameLatch byMove afterMove x st a
          (hq x (List.mem_cons_self _ _) hx))
        (ih _ hrest)
    · simp only [Bool.not_eq_true] at hx
      simp only [forEachLoop, hx, Bool.not_false, if_true]
      exact ih st hrest

theorem updateCmdsLoop_disables (U : Nat) (byMove : Bool) (afterMove : α → α)
    (q : List (Command α)) (a : Nat) (e : Command α)
    (he : e.base = some { done := some a }) (hU : holds_alternative U e = true) :
    ∀ (st : Command α × Bool × Heap) (b : Shared), e ∈ q → st.1.base.isSome = true →
      st.2.2[a]? = some b →
      ∃ b', (forEachLoop U (Channel.updateHandler byMove afterMove) q st).2.2.2[a]? = some b' ∧
        b'.latch.enabled = false ∧ b'.latch.expectedCount = b.latch.expectedCount := by
  induction q with
  | nil => intro st b hmem; simp at hmem
  | cons x rest ih =>
    intro st b hmem hv hb
    by_cases hx : holds_alternative U x = true
    · simp only [forEachLoop, hx, Bool.not_true, Bool.false_eq_true, if_false]
      rcases List.mem_cons.mp hmem with heq | hrest
      · subst heq
        obtain ⟨b1, hb1, hd1, he1⟩ :=
          Channel.updateHandler_disables byMove afterMove e st a b he hv hb
        obtain ⟨b2, hb2, he2, hd2⟩ :=
          updateCmdsLoop_settled U byMove afterMove rest a _ b1 hb1
        exact ⟨b2, hb2, hd2 hd1, he2.trans he1⟩
      · obtain ⟨b1, hb1, he1, _⟩ := Channel.updateHandler_settled byMove afterMove x st a b hb
        obtain ⟨b2, hb2, hd2, he2⟩ := ih _ b1 hrest
          (Channel.updateHandler_value_base byMove afterMove x st hv) hb1
        exact ⟨b2, hb2, hd2, he2.trans he1⟩
    · simp only [Bool.not_eq_true] at hx
      simp only [forEachLoop, hx, Bool.not_false, if_true]
      rcases List.mem_cons.mp hmem with heq | hrest
      · subst heq
        rw [hU] at hx
        cases hx
      · exact ih st b hrest hv hb

theorem updateCmdsLoop_flag (U : Nat) (byMove : Bool) (afterMove : α → α)
    (q : List (Command α)) :
    ∀ st : Command α × Bool × Heap, (∃ e ∈ q, holds_alternative U e = true) →
      (forEachLoop U (Channel.updateHandler byMove afterMove) q st).2.2.1 = true := by
  induction q with
  | nil => intro st h; obtain ⟨e, he, _⟩ := h; simp at he
  | cons x rest ih =>
    intro st h
    by_cases hx : holds_alternative U x = true
    · simp only [forEachLoop, hx, Bool.not_true, Bool.false_eq_true, if_false]
      by_cases hr : ∃ e ∈ rest, holds_alternative U e = true
      · exact ih _ hr
      · have hno : ∀ e ∈ rest, holds_alternative U e = false := by
          intro e he
          by_contra hc
          exact hr ⟨e, he, by simpa using hc⟩
        rw [forEachLoop_of_no_match U _ rest _ hno]
        exact Channel.updateHandler_flag byMove afterMove x st
    · simp only [Bool.not_eq_true] at hx
      simp only [forEachLoop, hx, Bool.not_false, if_true]
      obtain ⟨e, he, hU⟩ := h
      rcases List.mem_cons.mp he with heq | hrest
      · subst heq
        rw [hU] at hx
        cases hx
      · exact ih st ⟨e, hrest, hU⟩

theorem Channel.updateCmds_heap_of_match (d : Dispatch) (byMove : Bool) (afterMove : α → α)
    (ch : Channel (Command α)) (wakeups : List (SyncQueue (Command α))) (v : Command α)
    (h : Heap) (hsome : ∃ e ∈ ch.q.q, e.index = v.index) :
    (ch.updateCmds d byMove afterMove wakeups v h).2.2
      = (forEachLoop v.index (Channel.updateHandler byMove afterMove) ch.q.q
          (v, false, h)).2.2.2 := by
  have hflag := updateCmdsLoop_flag v.index byMove afterMove ch.q.q (v, false, h) (by
    obtain ⟨e, he, hidx⟩ := hsome
    exact ⟨e, he, by simp [holds_alternative, IsVariant.index, hidx]⟩)
  simp [Channel.updateCmds, Channel.select, SyncQueue.forEach, hflag]

end UpdateCmdsLemmas

/-- C16, the claim fails when the new value shares the latch of the element it overwrites:
the queue holds a command that owns the latch at 0, armed for one notification, and `v` is
a command of the same alternative that owns the same latch (a copy of the queued command).
`update(v)` unblocks the queued element, which disables the latch at 0, the latch carried
by `v`; a `wait()` on the handle of `v` then returns Shutdown. -/
theorem C16_shared_latch_counterexample :
    (((Channel.mk (SyncQueue.holding 10
            [({ index := 0, base := some { done := some 0 }, data := 5 } :
              Command Nat)])).updateCmds Dispatch.Serial false id []
        { index := 0, base := some { done := some 0 }, data := 6 }
        [⟨⟨true, 0, 1⟩, 2⟩]).2.2)
      = [⟨⟨false, 0, 1⟩, 2⟩] ∧
    (((Channel.mk (SyncQueue.holding 10
            [({ index := 0, base := some { done := some 0 }, data := 5 } :
              Command Nat)])).updateCmds Dispatch.Serial false id []
        { index := 0, base := some { done := some 0 }, data := 6 }
        [⟨⟨true, 0, 1⟩, 2⟩]).2.1.base) = some { done := some 0 } ∧
    ({ done := some 0 } : Awaitable).wait
        (((Channel.mk (SyncQueue.holding 10
              [({ index := 0, base := some { done := some 0 }, data := 5 } :
                Command Nat)])).updateCmds Dispatch.Serial false id []
          { index := 0, base := some { done := some 0 }, data := 6 }
          [⟨⟨true, 0, 1⟩, 2⟩]).2.2) none []
      = some Result.Shutdown ∧
    (((Channel.mk (SyncQueue.holding 10
            [({ index := 0, base := some { done := some 0 }, data := 5 } :
              Command Nat)])).updateCmds Dispatch.Serial true id []
        { index := 0, base := some { done := some 0 }, data := 6 }
        [⟨⟨true, 0, 1⟩, 2⟩]).2.2)
      = [⟨⟨false, 0, 1⟩, 1⟩] := by
  decide

/-- C16 as amended.  `update(v)` with `v` of an awaitable alternative overwrites a queued
element `e` of that alternative which owns the latch at `aOld` (expecting `n > 0`).  The
handler unblocks `e` before assigning, so after the update the latch at `aOld` is disabled
and a `wait()` on any handle to it returns Shutdown.  The latch at `aNew` carried by `v`
keeps its flag, count and expected count when no overwritten element owns it; when an
overwritten element owns it, it is disabled by the update and a `wait()` on the handle of
`v` returns Shutdown as well. -/
theorem C16_update_unblocks_old {α : Type} (d : Dispatch) (byMove : Bool) (afterMove : α → α)
    (ch : Channel (Command α)) (wakeups : List (SyncQueue (Command α))) (v e : Command α)
    (h : Heap) (aOld : Nat) (bOld : Shared) (timeout : Option Time)
    (latchWakeups : List CountCondition)
    (hmem : e ∈ ch.q.q) (hidx : e.index = v.index)
    (hebase : e.base = some { done := some aOld }) (hvbase : v.base.isSome = true)
    (hold : h[aOld]? = some bOld) (hexp : 0 < bOld.latch.expectedCount) :
    (∃ b', (ch.updateCmds d byMove afterMove wakeups v h).2.2[aOld]? = some b' ∧
        b'.latch.enabled = false ∧ b'.latch.expectedCount = bOld.latch.expectedCount) ∧
      ({ done := some aOld } : Awaitable).wait
          (ch.updateCmds d byMove afterMove wakeups v h).2.2 timeout latchWakeups
        = some Result.Shutdown ∧
      (∀ (aNew : Nat) (bNew : Shared), v.base = some { done := some aNew } →
        h[aNew]? = some bNew →
        (∀ x ∈ ch.q.q, x.index = v.index → x.base ≠ some { done := some aNew }) →
        ∃ b', (ch.updateCmds d byMove afterMove wakeups v h).2.2[aNew]? = some b' ∧
          b'.latch = bNew.latch) ∧
      (∀ (aNew : Nat) (bNew : Shared), v.base = some { done := some aNew } →
        h[aNew]? = some bNew → 0 < bNew.latch.expectedCount →
        (∃ x ∈ ch.q.q, x.index = v.index ∧ x.base = some { done := some aNew }) →
        (∃ b', (ch.updateCmds d byMove afterMove wakeups v h).2.2[aNew]? = some b' ∧
          b'.latch.enabled = false) ∧
        ({ done := some aNew } : Awaitable).wait
            (ch.updateCmds d byMove afterMove wakeups v h).2.2 timeout latchWakeups
          = some Result.Shutdown) := by
  have hheap := Channel.updateCmds_heap_of_match d byMove afterMove ch wakeups v h
    ⟨e, hmem, hidx⟩
  have hU : holds_alternative v.index e = true := by
    simp [holds_alternative, IsVariant.index, hidx]
  obtain ⟨b1, hb1, hd1, he1⟩ := updateCmdsLoop_disables v.index byMove afterMove ch.q.q aOld e
    hebase hU (v, false, h) bOld hmem hvbase hold
  rw [hheap]
  refine ⟨⟨b1, hb1, hd1, he1⟩,
    Awaitable.wait_shutdown_of_disabled _ aOld b1 hb1 hd1 (by omega) timeout latchWakeups,
    ?_, ?_⟩
  · intro aNew bNew _ hnew hfree
    exact updateCmdsLoop_sameLatch v.index byMove afterMove ch.q.q aNew (v, false, h)
      (fun x hx hUx => hfree x hx (by
        simpa [holds_alternative, IsVariant.index] using hUx)) bNew hnew
  · intro aNew bNew _ hnew hexpNew hshared
    obtain ⟨x, hx, hxidx, hxbase⟩ := hshared
    have hUx : holds_alternative v.index x = true := by
      simp [holds_alternative, IsVariant.index, hxidx]
    obtain ⟨b2, hb2, hd2, he2⟩ := updateCmdsLoop_disables v.index byMove afterMove ch.q.q aNew
      x hxbase hUx (v, false, h) bNew hx hvbase hnew
    exact ⟨⟨b2, hb2, hd2⟩,
      Awaitable.wait_shutdown_of_disabled _ aNew b2 hb2 hd2 (by omega) timeout latchWakeups⟩


/-- Instance of C16: the queued command owns latch 0 (shared with one waiting handle), the
new value carries latch 1; after `update` a wait on latch 0 returns Shutdown and latch 1 is
as it was. -/
theorem C16_update_unblocks_old_witness :
    ({ done := some 0 } : Awaitable).wait
        (((Channel.mk (SyncQueue.holding 10
              [({ index := 0, base := some { done := some 0 }, data := 5 } :
                Command Nat)])).updateCmds Dispatch.Serial false id []
          { index := 0, base := some { done := some 1 }, data := 6 }
          [⟨⟨true, 0, 1⟩, 2⟩, ⟨⟨true, 0, 1⟩, 1⟩]).2.2) none []
      = some Result.Shutdown :=
  (C16_update_unblocks_old Dispatch.Serial false id
    (Channel.mk (SyncQueue.holding 10
      [({ index := 0, base := some { done := some 0 }, data := 5 } : Command Nat)])) []
    { index := 0, base := some { done := some 1 }, data := 6 }
    { index := 0, base := some { done := some 0 }, data := 5 }
    [⟨⟨true, 0, 1⟩, 2⟩, ⟨⟨true, 0, 1⟩, 1⟩] 0 ⟨⟨true, 0, 1⟩, 2⟩ none []
    (by decide) rfl rfl rfl rfl (by decide)).2.1

/-- C21. `disable()` on an enabled latch clears `enabled`, keeps count and expected count
and returns true; on a disabled latch it changes nothing and returns false.  So `disable()`
right after `disable()` returns false and changes nothing. -/
theorem C21_disable_idempotent (c : CountCondition) :
    (c.enabled = true → c.disable = (true, { c with enabled := false })) ∧
      (c.enabled = false → c.disable = (false, c)) ∧
      c.disable.2.enabled = false ∧
      c.disable.2.count = c.count ∧
      c.disable.2.expectedCount = c.expectedCount ∧
      c.disable.2.disable = (false, c.disable.2) := by
  cases hen : c.enabled <;> simp [CountCondition.disable, hen]

/-- Instance of C21: an armed latch with two of three notifications. -/
theorem C21_disable_idempotent_witness :
    ({ enabled := true, count := 2, expectedCount := 3 } : CountCondition).disable
        = (true, { enabled := false, count := 2, expectedCount := 3 }) ∧
      ({ enabled := true, count := 2, expectedCount := 3 } : CountCondition).disable.2.disable
        = (false, { enabled := false, count := 2, expectedCount := 3 }) :=
  ⟨(C21_disable_idempotent { enabled := true, count := 2, expectedCount := 3 }).1 rfl,
   (C21_disable_idempotent { enabled := true, count := 2, expectedCount := 3 }).2.2.2.2.2⟩

/-! ## Lemmas on sequences of latch calls -/

theorem CountCondition.calls_eq (ops : List LatchOp) :
    ∀ c : CountCondition, c.count < SIZE_MOD →
      c.calls ops
        = { enabled := c.enabled && !ops.contains LatchOp.disable
            count := (c.count + ops.count LatchOp.notify) % SIZE_MOD
            expectedCount := c.expectedCount } := by
  induction ops with
  | nil =>
    intro c hc
    simp [CountCondition.calls, Nat.mod_eq_of_lt hc]
  | cons op ops ih =>
    intro c hc
    have hfold : c.calls (op :: ops) = (c.call op).calls ops := rfl
    cases op with
    | notify =>
      have hlt : (c.call LatchOp.notify).count < SIZE_MOD := by
        simp only [CountCondition.call, CountCondition.notify]
        exact Nat.mod_lt _ (by decide)
      rw [hfold, ih _ hlt]
      simp only [CountCondition.call, CountCondition.notify, List.count_cons_self]
      have : ((c.count + 1) % SIZE_MOD + List.count LatchOp.notify ops) % SIZE_MOD
          = (c.count + (List.count LatchOp.notify ops + 1)) % SIZE_MOD := by
        rw [Nat.add_mod, Nat.mod_mod, ← Nat.add_mod]
        congr 1
        omega
      simp [this]
    | disable =>
      have hlt : (c.call LatchOp.disable).count < SIZE_MOD := by
        simp only [CountCondition.call, CountCondition.disable_snd]
        exact hc
      rw [hfold, ih _ hlt]
      simp [CountCondition.call, CountCondition.disable_snd]

/-- C22, the claim fails: after `expect(1)`, `disable()` and `notify()` the count is 1, so it
increased on a disabled latch; after `expect(1)` and two `notify()` the count is 2, above
the expected 1. -/
theorem C22_latch_invariant_counterexample :
    (CountCondition.init.expect 1).calls [LatchOp.disable]
        = { enabled := false, count := 0, expectedCount := 1 } ∧
      (CountCondition.init.expect 1).calls [LatchOp.disable, LatchOp.notify]
        = { enabled := false, count := 1, expectedCount := 1 } ∧
      (CountCondition.init.expect 1).calls [LatchOp.notify, LatchOp.notify]
        = { enabled := true, count := 2, expectedCount := 1 } ∧
      ¬ ((CountCondition.init.expect 1).calls [LatchOp.notify, LatchOp.notify]).count
          ≤ ((CountCondition.init.expect 1).calls [LatchOp.notify, LatchOp.notify]).expectedCount := by
  decide

/-- C22 as amended.  In the state reached from `expect(n)` by a sequence of `notify()` and
`disable()` calls, the expected count is `n`, the latch is enabled exactly when no
`disable()` was made, and the count is the number of `notify()` calls modulo `2 ^ 64`,
whether they came before or after a `disable()`: `notify()` increments on every latch.
The count is at most the expected count as long as at most `n` notifications were made. -/
theorem C22_latch_counts_notifications (c : CountCondition) (n : Nat) (ops : List LatchOp) :
    (c.expect n).calls ops
        = { enabled := !ops.contains LatchOp.disable
            count := ops.count LatchOp.notify % SIZE_MOD
            expectedCount := n } ∧
      (∀ d : CountCondition, d.notify.count = (d.count + 1) % SIZE_MOD ∧
        d.notify.enabled = d.enabled ∧ d.notify.expectedCount = d.expectedCount) ∧
      (ops.count LatchOp.notify ≤ n →
        ((c.expect n).calls ops).count ≤ ((c.expect n).calls ops).expectedCount) := by
  have h := CountCondition.calls_eq ops (c.expect n) (by simp [CountCondition.expect, SIZE_MOD])
  simp only [CountCondition.expect, Bool.true_and, Nat.zero_add] at h
  refine ⟨h, fun d => ⟨rfl, rfl, rfl⟩, ?_⟩
  intro hle
  have h' : (c.expect n).calls ops
      = { enabled := !ops.contains LatchOp.disable
          count := ops.count LatchOp.notify % SIZE_MOD
          expectedCount := n } := h
  rw [h']
  exact le_trans (Nat.mod_le _ _) hle

/-- Instance of the amended C22: `notify`, `disable`, `notify` after `expect(5)`. -/
theorem C22_latch_counts_notifications_witness :
    (CountCondition.init.expect 5).calls [LatchOp.notify, LatchOp.disable, LatchOp.notify]
      = { enabled := false, count := 2, expectedCount := 5 } :=
  (C22_latch_counts_notifications CountCondition.init 5
    [LatchOp.notify, LatchOp.disable, LatchOp.notify]).1

/-- C25. `shouldReceive(false)` leaves the queue closed and empty;
`shouldReceive(false, ClearCache(false))` leaves it closed with the same items in the same
order; neither changes the capacity or the time-outs. -/
theorem C25_close_clears_by_default {T : Type} (s : SyncQueue T) :
    s.setShouldReceive false true = { s with shouldReceive := false, q := [] } ∧
      s.setShouldReceive false false = { s with shouldReceive := false } ∧
      (s.setShouldReceive false true).q = [] ∧
      (s.setShouldReceive false true).shouldReceive = false ∧
      (s.setShouldReceive false false).q = s.q ∧
      (s.setShouldReceive false false).shouldReceive = false ∧
      (∀ b : Bool, (s.setShouldReceive false b).capacity = s.capacity ∧
        (s.setShouldReceive false b).producerTimeout = s.producerTimeout ∧
        (s.setShouldReceive false b).consumerTimeout = s.consumerTimeout) := by
  refine ⟨rfl, rfl, rfl, rfl, rfl, rfl, ?_⟩
  intro b
  cases b <;> exact ⟨rfl, rfl, rfl⟩

/-- Instance of C25: the queue holding 1 and 2. -/
theorem C25_close_clears_by_default_witness :
    ((SyncQueue.holding 10 [1, 2] : SyncQueue Nat).setShouldReceive false true).q = [] ∧
      ((SyncQueue.holding 10 [1, 2] : SyncQueue Nat).setShouldReceive false false).q = [1, 2] :=
  ⟨(C25_close_clears_by_default (SyncQueue.holding 10 [1, 2])).2.2.1,
   (C25_close_clears_by_default (SyncQueue.holding 10 [1, 2])).2.2.2.2.1⟩

/-! ## Lemmas on `Time` -/

theorem wrap64_of_fits (x : Int) (hlo : -2 ^ 63 ≤ x) (hhi : x < 2 ^ 63) : wrap64 x = x := by
  unfold wrap64
  norm_num at hlo hhi ⊢
  omega

/-- C30. For integers `d` and `m` such that `9 * d`, `90000 * m` and their sum fit in 64
bits, `Time::FromDShowUnits(d)` increased by `std::chrono::milliseconds(m)` has the
representation `9 * d + 90000 * m`, and `milliseconds<int64_t>()` is that number divided by
90000 and truncated towards zero; for `d = 330000`, `m = 33` it is 66. -/
theorem C30_dshow_plus_milliseconds (d m : Int)
    (hd : -2 ^ 63 ≤ 9 * d ∧ 9 * d < 2 ^ 63)
    (hm : -2 ^ 63 ≤ 90000 * m ∧ 90000 * m < 2 ^ 63)
    (hs : -2 ^ 63 ≤ 9 * d + 90000 * m ∧ 9 * d + 90000 * m < 2 ^ 63) :
    ((Time.FromDShowUnits d).add (Time.FromMilliseconds m)).value = 9 * d + 90000 * m ∧
      ((Time.FromDShowUnits d).add (Time.FromMilliseconds m)).milliseconds
        = (9 * d + 90000 * m).tdiv 90000 ∧
      ((Time.FromDShowUnits 330000).add (Time.FromMilliseconds 33)).milliseconds = 66 := by
  have h1 : wrap64 (d * 9) = 9 * d := by
    rw [wrap64_of_fits _ (by linarith [hd.1]) (by linarith [hd.2])]
    ring
  have h2 : wrap64 (m * 90000) = 90000 * m := by
    rw [wrap64_of_fits _ (by linarith [hm.1]) (by linarith [hm.2])]
    ring
  have h3 : ((Time.FromDShowUnits d).add (Time.FromMilliseconds m)).value
      = 9 * d + 90000 * m := by
    simp only [Time.add, Time.FromDShowUnits, Time.FromMilliseconds, h1, h2]
    exact wrap64_of_fits _ hs.1 hs.2
  refine ⟨h3, ?_, by decide⟩
  simp only [Time.milliseconds, Time.chronoMilliseconds, h3]

/-- Instance of C30: the example of the header, `d = 330000` and `m = 33`. -/
theorem C30_dshow_plus_milliseconds_witness :
    ((Time.FromDShowUnits 330000).add (Time.FromMilliseconds 33)).value
      = 9 * 330000 + 90000 * 33 :=
  (C30_dshow_plus_milliseconds 330000 33 (by decide) (by decide) (by decide)).1

/-! ## Lemmas on `notify` and assignment of handles -/

theorem Awaitable.notify_of_owner (x : Awaitable) (h : Heap) (a : Nat) (b : Shared)
    (hx : x.done = some a) (hb : h[a]? = some b) :
    (x.notify h).1 = { done := none } ∧
      (x.notify h).2[a]? = some { latch := b.latch.notify, use_count := b.use_count - 1 } ∧
      (∀ a', a' ≠ a → (x.notify h).2[a']? = h[a']?) := by
  unfold Awaitable.notify
  rw [hx]
  refine ⟨rfl, ?_, ?_⟩
  · simp [Heap.release, Heap.getElem?_modify, hb]
  · intro a' hne
    simp [Heap.release, Heap.getElem?_modify, hne]

theorem Awaitable.notify_of_null (h : Heap) :
    ({ done := none } : Awaitable).notify h = ({ done := none }, h) := rfl

theorem Awaitable.iterate_notify_of_null (k : Nat) (h : Heap) :
    (fun p : Awaitable × Heap => p.1.notify p.2)^[k] ({ done := none }, h)
      = ({ done := none }, h) := by
  induction k with
  | zero => rfl
  | succ k ih => rw [Function.iterate_succ_apply', ih]; rfl

/-- C23. For a handle `x` that owns the latch at `a`, `k ≥ 1` calls of `x.notify()` leave
the latch notified once (its count one higher, as long as that fits a `size_t`) and
released by one owner, leave `x` without latch (`awaitable()` false) and touch no other
latch; `notify()` on a handle without latch changes nothing. -/
theorem C23_notify_once (x : Awaitable) (h : Heap) (a : Nat) (b : Shared) (k : Nat)
    (hx : x.done = some a) (hb : h[a]? = some b) (hk : 1 ≤ k) :
    ((fun p : Awaitable × Heap => p.1.notify p.2)^[k] (x, h)).1 = { done := none } ∧
      ((fun p : Awaitable × Heap => p.1.notify p.2)^[k] (x, h)).1.awaitable = false ∧
      ((fun p : Awaitable × Heap => p.1.notify p.2)^[k] (x, h)).2[a]?
        = some { latch := b.latch.notify, use_count := b.use_count - 1 } ∧
      (b.latch.count + 1 < SIZE_MOD → b.latch.notify.count = b.latch.count + 1) ∧
      (∀ a', a' ≠ a →
        ((fun p : Awaitable × Heap => p.1.notify p.2)^[k] (x, h)).2[a']? = h[a']?) ∧
      (∀ h' : Heap, Awaitable.Empty.notify h' = (Awaitable.Empty, h')) := by
  obtain ⟨k', rfl⟩ : ∃ k', k = k' + 1 := ⟨k - 1, by omega⟩
  obtain ⟨h1, h2, h3⟩ := Awaitable.notify_of_owner x h a b hx hb
  have hstep : (fun p : Awaitable × Heap => p.1.notify p.2)^[k' + 1] (x, h)
      = ({ done := none }, (x.notify h).2) := by
    rw [Function.iterate_succ_apply]
    have : (x.notify h) = ({ done := none }, (x.notify h).2) := by
      rw [← h1]
    show (fun p : Awaitable × Heap => p.1.notify p.2)^[k'] (x.notify h) = _
    rw [this]
    exact Awaitable.iterate_notify_of_null k' _
  rw [hstep]
  refine ⟨rfl, rfl, h2, ?_, h3, fun h' => rfl⟩
  intro hfit
  simp [CountCondition.notify, Nat.mod_eq_of_lt hfit]

/-- Instance of C23: three calls of `notify()` on a handle to a latch with two owners. -/
theorem C23_notify_once_witness :
    ((fun p : Awaitable × Heap => p.1.notify p.2)^[3]
        (({ done := some 0 } : Awaitable), [⟨⟨true, 0, 1⟩, 2⟩])).2[0]?
      = some { latch := CountCondition.notify ⟨true, 0, 1⟩, use_count := 2 - 1 } :=
  (C23_notify_once { done := some 0 } [⟨⟨true, 0, 1⟩, 2⟩] 0 ⟨⟨true, 0, 1⟩, 2⟩ 3 rfl rfl
    (by decide)).2.2.1

/-- C24. Handles `x` and `y` own distinct latches at `la` and `lb`.  After the copy
assignment `x = y`, and after the move assignment `x = std::move(y)`, the latch at `la` is
disabled (count and expected count kept, one owner released), `x` owns the latch at `lb`,
and that latch has the same flag, count and expected count as before; the copy adds an
owner to it, the move leaves its owners as they are and leaves `y` without latch. -/
theorem C24_assignment_unblocks (x y : Awaitable) (h : Heap) (la lb : Nat) (ba bb : Shared)
    (hx : x.done = some la) (hy : y.done = some lb) (hne : la ≠ lb)
    (ha : h[la]? = some ba) (hb : h[lb]? = some bb) :
    (x.copyAssign y h).1 = { done := some lb } ∧
      (x.copyAssign y h).2[la]?
        = some { latch := { ba.latch with enabled := false }, use_count := ba.use_count - 1 } ∧
      (x.copyAssign y h).2[lb]?
        = some { latch := bb.latch, use_count := bb.use_count + 1 } ∧
      (x.moveAssign y h).1 = { done := some lb } ∧
      (x.moveAssign y h).2.1 = { done := none } ∧
      (x.moveAssign y h).2.2[la]?
        = some { latch := { ba.latch with enabled := false }, use_count := ba.use_count - 1 } ∧
      (x.moveAssign y h).2.2[lb]? = some bb := by
  have hne' : lb ≠ la := fun e => hne e.symm
  have hu_la : (x.unblock h).2[la]?
      = some { latch := { ba.latch with enabled := false }, use_count := ba.use_count - 1 } := by
    simp [Awaitable.unblock, hx, Heap.release, Heap.getElem?_modify, ha,
      CountCondition.disable_snd]
  have hu_lb : (x.unblock h).2[lb]? = some bb := by
    simp [Awaitable.unblock, hx, Heap.release, Heap.getElem?_modify, hne', hb]
  refine ⟨?_, ?_, ?_, ?_, ?_, ?_, ?_⟩
  · simp [Awaitable.copyAssign, hy]
  · simp only [Awaitable.copyAssign, hy, Heap.acquire]
    rw [Heap.getElem?_modify]
    simp [hne, hu_la]
  · simp only [Awaitable.copyAssign, hy, Heap.acquire]
    rw [Heap.getElem?_modify]
    simp [hu_lb]
  · simp [Awaitable.moveAssign, hy]
  · simp [Awaitable.moveAssign]
  · simp only [Awaitable.moveAssign]
    exact hu_la
  · simp only [Awaitable.moveAssign]
    exact hu_lb

/-- Instance of C24: two latches armed for one notification, with two owners each. -/
theorem C24_assignment_unblocks_witness :
    (({ done := some 0 } : Awaitable).copyAssign { done := some 1 }
        [⟨⟨true, 0, 1⟩, 2⟩, ⟨⟨true, 0, 1⟩, 2⟩]).2[0]?
      = some { latch := { (⟨true, 0, 1⟩ : CountCondition) with enabled := false },
               use_count := 2 - 1 } :=
  (C24_assignment_unblocks { done := some 0 } { done := some 1 }
    [⟨⟨true, 0, 1⟩, 2⟩, ⟨⟨true, 0, 1⟩, 2⟩] 0 1 ⟨⟨true, 0, 1⟩, 2⟩ ⟨⟨true, 0, 1⟩, 2⟩
    rfl rfl (by decide) rfl rfl).2.1

/-! ## Lemmas on calls that nothing interrupts -/

section QuietLemmas

variable {T : Type}

theorem SyncQueue.producerWait_nil (s : SyncQueue T) : s.producerWait [] = s := by
  unfold SyncQueue.producerWait
  split <;> simp [wait_for]

theorem SyncQueue.add_nil_of_open (s : SyncQueue T) (x : T) (hopen : s.shouldReceive = true) :
    (s.add [] x).2 = { s with q := s.q ++ [x] } := by
  rw [SyncQueue.add_eq, SyncQueue.producerWait_nil, if_pos hopen]

theorem SyncQueue.getWithStatus_nil_of_open_empty [Inhabited T] (s : SyncQueue T)
    (hopen : s.shouldReceive = true) (hq : s.q = []) :
    s.getWithStatus [] = ((SyncQStatus.Timeout, default), s) := by
  have hw : s.consumerWait s.consumerTimeout [] = (true, s) := by
    simp [SyncQueue.consumerWait, SyncQueue.consumerShouldWait, SyncQueue.isEmpty_impl, hopen,
      hq, wait_for]
  have hq' : (s.consumerWait s.consumerTimeout []).2.q = [] := by rw [hw]; exact hq
  rw [SyncQueue.getWithStatus_of_ended_empty s [] hq', hw]
  simp [hopen]

end QuietLemmas

end mdsp

namespace cisim

open mdsp

section AdderLemmas

theorem Thread.asyncCmd_serial_of_open {α : Type} (t : Thread α) (cmd : Command α) (h : Heap)
    (hopen : t.channel.q.shouldReceive = true) :
    t.asyncCmd Dispatch.Serial cmd [] h
      = ({ t with channel := { q := { t.channel.q with q := t.channel.q.q ++ [cmd] } } }, h) := by
  simp [Thread.asyncCmd, Channel.sendCmd, Channel.send, Dispatch.call,
    SyncQueue.add_nil_of_open _ cmd hopen, SyncQueue.producerWait_nil, hopen]

theorem Thread.iteration_adder_of_front (t : Thread Int) (st n : Int) (rest : List (Command Int))
    (h : Heap) (hq : t.channel.q.q = Add n :: rest) :
    t.iteration adder st [] h
      = (Worker.looping (st + n),
         { t with channel := { q := { t.channel.q with q := rest } } }, h,
         [Call.execute, Call.tick]) := by
  simp [Thread.iteration, Channel.recv, SyncQueue.getWithStatus_of_nonempty _ [] (Add n) rest hq,
    Thread.visit, Add, adder, Command.dtor]

theorem Thread.iteration_adder_of_empty (t : Thread Int) (st : Int) (h : Heap)
    (hopen : t.channel.q.shouldReceive = true) (hq : t.channel.q.q = []) :
    t.iteration adder st [] h = (Worker.looping st, t, h, [Call.execute, Call.tick]) := by
  simp [Thread.iteration, Channel.recv,
    SyncQueue.getWithStatus_nil_of_open_empty _ hopen hq, Thread.visit, adder, Command.dtor,
    default]

end AdderLemmas

section AdderRun

theorem adderInv_of_start (s0 : Int) (config : ChannelConfig) :
    AdderInv s0 [] 0 0 ((Actor.new : Actor Int Int).start adder s0 config) := by
  simp [AdderInv, Actor.start, Actor.new, Channel.openCmds, Channel.«open»,
    SyncQueue.setShouldReceive, adder]

theorem adderInv_submit {s0 : Int} {sent : List Int} {j works : Nat} {a : Actor Int Int}
    (n : Int) (inv : AdderInv s0 sent j works a) :
    AdderInv s0 (sent ++ [n]) j works (a.step adder (Event.submit Dispatch.Serial (Add n))) := by
  obtain ⟨hrun, hopen, hjoin, hq, hj, hw, hworker⟩ := inv
  have hstep : a.step adder (Event.submit Dispatch.Serial (Add n))
      = { a with self := { a.self with
            channel := { q := { a.self.channel.q with q := a.self.channel.q.q ++ [Add n] } } } } := by
    simp [Actor.step, Thread.asyncCmd_serial_of_open a.self (Add n) a.heap hopen]
  rw [hstep]
  refine ⟨hrun, hopen, hjoin, ?_, ?_, hw, ?_⟩
  · simp only [hq]
    rw [List.drop_append_of_le_length hj]
    simp
  · simp; omega
  · rcases hworker with ⟨h1, h2⟩ | h1 | ⟨h1, h2⟩
    · exact Or.inl ⟨h1, h2⟩
    · right; left
      simp only [h1]
      rw [List.take_append_of_le_length hj]
    · right; right
      refine ⟨?_, h2⟩
      simp only [h1]
      rw [List.take_append_of_le_length hj]

/-- The pass of the adding worker whose state is `s0` plus the first `j` numbers sent, on
the open queue that holds the commands not yet taken: it takes the next command, if there
is one, and adds its number. -/
theorem adderInv_pass (s0 : Int) {sent : List Int} {j : Nat} (t : Thread Int) (h : Heap)
    (hopen : t.channel.q.shouldReceive = true)
    (hq : t.channel.q.q = (sent.drop j).map Add) (hj : j ≤ sent.length) :
    ∃ j', j ≤ j' ∧ j' ≤ j + 1 ∧ j' ≤ sent.length ∧
      (t.iteration adder (s0 + (sent.take j).sum) [] h).1
        = Worker.looping (s0 + (sent.take j').sum) ∧
      (t.iteration adder (s0 + (sent.take j).sum) [] h).2.1
        = { t with channel := { q := { t.channel.q with q := (sent.drop j').map Add } } } ∧
      (t.iteration adder (s0 + (sent.take j).sum) [] h).2.2.1 = h := by
  by_cases hlt : j < sent.length
  · refine ⟨j + 1, by omega, by omega, by omega, ?_⟩
    have hdrop : sent.drop j = sent[j] :: sent.drop (j + 1) := List.drop_eq_getElem_cons hlt
    have hq' : t.channel.q.q = Add sent[j] :: (sent.drop (j + 1)).map Add := by
      rw [hq, hdrop, List.map_cons]
    rw [Thread.iteration_adder_of_front t _ sent[j] _ h hq']
    refine ⟨?_, rfl, rfl⟩
    simp only
    congr 1
    rw [List.take_succ, List.sum_append]
    simp [List.getElem?_eq_getElem hlt, add_assoc]
  · refine ⟨j, le_refl j, by omega, hj, ?_⟩
    have hjl : j = sent.length := by omega
    have hq' : t.channel.q.q = [] := by
      rw [hq, hjl]
      simp
    rw [Thread.iteration_adder_of_empty t _ h hopen hq']
    refine ⟨rfl, ?_, rfl⟩
    simp only
    rw [← hq]

theorem adderInv_work {s0 : Int} {sent : List Int} {j works : Nat} {a : Actor Int Int}
    (inv : AdderInv s0 sent j works a) :
    ∃ j', AdderInv s0 sent j' (works + 1) (a.step adder Event.work) := by
  obtain ⟨hrun, hopen, hjoin, hq, hj, hw, hworker⟩ := inv
  rcases hworker with ⟨h1, h2⟩ | h1 | ⟨h1, h2⟩
  · refine ⟨j, ?_⟩
    have hstep : a.step adder Event.work
        = { a with worker := Worker.looping s0, calls := a.calls ++ [Call.onEnter] } := by
      simp [Actor.step, Actor.workerStep, h1, adder]
    rw [hstep]
    refine ⟨hrun, hopen, hjoin, hq, hj, by omega, Or.inr (Or.inl ?_)⟩
    subst h2
    simp
  · obtain ⟨j', hj1, hj2, hj3, hp1, hp2, hp3⟩ := adderInv_pass s0 a.self a.heap hopen hq hj
    refine ⟨j', ?_⟩
    have hstep : (a.step adder Event.work).worker = Worker.looping (s0 + (sent.take j').sum) ∧
        (a.step adder Event.work).self
          = { a.self with channel :=
              { q := { a.self.channel.q with q := (sent.drop j').map Add } } } ∧
        (a.step adder Event.work).joinable = a.joinable := by
      simp [Actor.step, Actor.workerStep, h1, hrun, hp1, hp2]
    refine ⟨?_, ?_, ?_, ?_, hj3, by omega, Or.inr (Or.inl hstep.1)⟩
    · rw [hstep.2.1]; exact hrun
    · rw [hstep.2.1]; exact hopen
    · rw [hstep.2.2]; exact hjoin
    · rw [hstep.2.1]
  · obtain ⟨j', hj1, hj2, hj3, hp1, hp2, hp3⟩ := adderInv_pass s0 a.self a.heap hopen hq hj
    refine ⟨j', ?_⟩
    have hstep : (a.step adder Event.work).worker = Worker.looping (s0 + (sent.take j').sum) ∧
        (a.step adder Event.work).self
          = { a.self with channel :=
              { q := { a.self.channel.q with q := (sent.drop j').map Add } } } ∧
        (a.step adder Event.work).joinable = a.joinable := by
      simp [Actor.step, Actor.workerStep, h1, hp1, hp2]
    refine ⟨?_, ?_, ?_, ?_, hj3, by omega, Or.inr (Or.inl hstep.1)⟩
    · rw [hstep.2.1]; exact hrun
    · rw [hstep.2.1]; exact hopen
    · rw [hstep.2.2]; exact hjoin
    · rw [hstep.2.1]

theorem adderInv_test {s0 : Int} {sent : List Int} {j works : Nat} {a : Actor Int Int}
    (inv : AdderInv s0 sent j works a) :
    AdderInv s0 sent j (works + 1) (a.step adder Event.test) := by
  obtain ⟨hrun, hopen, hjoin, hq, hj, hw, hworker⟩ := inv
  rcases hworker with ⟨h1, h2⟩ | h1 | ⟨h1, h2⟩
  · have hstep : a.step adder Event.test = a := by
      simp [Actor.step, Actor.testStep, h1]
    rw [hstep]
    exact ⟨hrun, hopen, hjoin, hq, hj, by omega, Or.inl ⟨h1, h2⟩⟩
  · have hstep : a.step adder Event.test
        = { a with worker := Worker.receiving (s0 + (sent.take j).sum) } := by
      simp [Actor.step, Actor.testStep, h1, hrun]
    rw [hstep]
    exact ⟨hrun, hopen, hjoin, hq, hj, by omega, Or.inr (Or.inr ⟨rfl, by omega⟩)⟩
  · have hstep : a.step adder Event.test = a := by
      simp [Actor.step, Actor.testStep, h1]
    rw [hstep]
    exact ⟨hrun, hopen, hjoin, hq, hj, by omega, Or.inr (Or.inr ⟨h1, by omega⟩)⟩

theorem adderInv_run (schedule : List AdderStep) :
    ∀ (s0 : Int) (sent : List Int) (j works : Nat) (a : Actor Int Int),
      AdderInv s0 sent j works a →
      ∃ j', AdderInv s0 (sent ++ adderSent schedule) j' (works + adderWorkerSteps schedule)
        (a.run adder (schedule.map AdderStep.event)) := by
  induction schedule with
  | nil =>
    intro s0 sent j works a inv
    exact ⟨j, by simpa [Actor.run, adderSent, adderWorkerSteps] using inv⟩
  | cons e schedule ih =>
    intro s0 sent j works a inv
    have hrun : a.run adder ((e :: schedule).map AdderStep.event)
        = (a.step adder e.event).run adder (schedule.map AdderStep.event) := by
      simp [Actor.run]
    rw [hrun]
    cases e with
    | send n =>
      obtain ⟨j', inv'⟩ := ih s0 (sent ++ [n]) j works _ (adderInv_submit n inv)
      refine ⟨j', ?_⟩
      simpa [List.append_assoc, adderSent, adderWorkerSteps, AdderStep.sent] using inv'
    | test =>
      obtain ⟨j', inv'⟩ := ih s0 sent j (works + 1) _ (adderInv_test inv)
      refine ⟨j', ?_⟩
      have : works + 1 + adderWorkerSteps schedule
          = works + adderWorkerSteps (AdderStep.test :: schedule) := by
        simp [adderWorkerSteps, AdderStep.sent]; omega
      rw [← this]
      simpa [adderSent, AdderStep.sent] using inv'
    | work =>
      obtain ⟨j1, inv1⟩ := adderInv_work inv
      obtain ⟨j', inv'⟩ := ih s0 sent j1 (works + 1) _ inv1
      refine ⟨j', ?_⟩
      have : works + 1 + adderWorkerSteps schedule
          = works + adderWorkerSteps (AdderStep.work :: schedule) := by
        simp [adderWorkerSteps, AdderStep.sent]; omega
      rw [← this]
      simpa [adderSent, AdderStep.sent] using inv'

theorem adderInv_stop {s0 : Int} {sent : List Int} {j works : Nat} {a : Actor Int Int}
    (inv : AdderInv s0 sent j works a) :
    ∃ j', j ≤ j' ∧ j' ≤ sent.length ∧ j' ≤ works ∧
      (a.worker = Worker.looping (s0 + (sent.take j).sum) → j' = j) ∧
      (a.stop adder).worker = Worker.exited (s0 + (sent.take j').sum) ∧
      (a.stop adder).self.channel.q.q = (sent.drop j').map Add ∧
      (a.stop adder).self.running = false := by
  obtain ⟨hrun, hopen, hjoin, hq, hj, hw, hworker⟩ := inv
  rcases hworker with ⟨h1, h2⟩ | h1 | ⟨h1, h2⟩
  · subst h2
    refine ⟨0, le_refl 0, hj, hw, fun _ => rfl, ?_⟩
    simp [Actor.stop, Actor.workerStep, hjoin, h1, adder, hq]
  · refine ⟨j, le_refl j, hj, hw, fun _ => rfl, ?_⟩
    simp [Actor.stop, Actor.workerStep, hjoin, h1, adder, hq]
  · obtain ⟨j', hj1, hj2, hj3, hp1, hp2, hp3⟩ := adderInv_pass s0
      (Thread.mk a.self.channel false) a.heap hopen hq hj
    refine ⟨j', hj1, hj3, by omega, ?_, ?_⟩
    · intro hl
      rw [h1] at hl
      cases hl
    · simp only [Actor.stop, hjoin, if_true, Actor.workerStep, h1, hp1, hp2, hp3]
      simp [adder]

end AdderRun

/-- C27, the claim fails: the actor is started with state 0, `async(Add(5))` and
`async(Add(3))` are submitted and `stop()` is called before the worker thread has made a
step.  The worker finds `running` cleared at its first test, so it ends with state 0, not
8, and both commands are still queued when `stop()` returns. -/
theorem C27_stop_before_work_counterexample :
    ((((Actor.new : Actor Int Int).start adder 0 defaultConfig).run adder
        (adderEvents [some 5, some 3])).stop adder).worker = Worker.exited 0 ∧
      ((((Actor.new : Actor Int Int).start adder 0 defaultConfig).run adder
        (adderEvents [some 5, some 3])).stop adder).worker ≠ Worker.exited 8 ∧
      ((((Actor.new : Actor Int Int).start adder 0 defaultConfig).run adder
        (adderEvents [some 5, some 3])).stop adder).self.channel.q.q = [Add 5, Add 3] ∧
      ((((Actor.new : Actor Int Int).start adder 0 defaultConfig).run adder
        (adderEvents [some 5, some 3])).stop adder).calls
        = [Call.onStart, Call.onEnter, Call.onExit, Call.onStop] := by
  decide

/-- C27 as amended.  For the adding actor started with `s0`, whatever the interleaving of
the submissions `async(Add(a1))`, ..., `async(Add(ak))` (Serial dispatch) with the steps of
the worker before `stop()`, a step being also the test of the loop alone, after which
`stop()` finds the worker in the body: when `stop()` returns, the worker has ended with the
state `s0 + a1 + ... + aj` for some `j ≤ k` not above the number of steps it made, and the
commands `Add(a(j+1))`, ..., `Add(ak)` are still queued, never executed.  The state is the
full sum when the queue was drained.  With `Add(5)`, `Add(3)`: three worker steps before
`stop()` give 8; a worker that has passed the test when `stop()` clears `running` takes and
executes `Add(5)` after that, which gives 5 and leaves `Add(3)` queued; no worker step
gives 0. -/
theorem C27_stop_does_not_drain (s0 : Int) (config : ChannelConfig)
    (schedule : List AdderStep) :
    (∃ j, j ≤ (adderSent schedule).length ∧ j ≤ adderWorkerSteps schedule ∧
        ((((Actor.new : Actor Int Int).start adder s0 config).run adder
          (schedule.map AdderStep.event)).stop adder).worker
          = Worker.exited (s0 + ((adderSent schedule).take j).sum) ∧
        ((((Actor.new : Actor Int Int).start adder s0 config).run adder
          (schedule.map AdderStep.event)).stop adder).self.channel.q.q
          = ((adderSent schedule).drop j).map Add) ∧
      (((((Actor.new : Actor Int Int).start adder s0 config).run adder
          (schedule.map AdderStep.event)).stop adder).self.channel.q.q = [] →
        ((((Actor.new : Actor Int Int).start adder s0 config).run adder
          (schedule.map AdderStep.event)).stop adder).worker
          = Worker.exited (s0 + (adderSent schedule).sum)) ∧
      ((((Actor.new : Actor Int Int).start adder 0 defaultConfig).run adder
        ([AdderStep.send 5, AdderStep.send 3, AdderStep.work, AdderStep.work,
          AdderStep.work].map AdderStep.event)).stop adder).worker = Worker.exited 8 ∧
      ((((Actor.new : Actor Int Int).start adder 0 defaultConfig).run adder
        ([AdderStep.work, AdderStep.test, AdderStep.send 5,
          AdderStep.send 3].map AdderStep.event)).stop adder).worker = Worker.exited 5 ∧
      ((((Actor.new : Actor Int Int).start adder 0 defaultConfig).run adder
        ([AdderStep.work, AdderStep.test, AdderStep.send 5,
          AdderStep.send 3].map AdderStep.event)).stop adder).self.channel.q.q = [Add 3] ∧
      ((((Actor.new : Actor Int Int).start adder 0 defaultConfig).run adder
        ([AdderStep.send 5, AdderStep.send 3].map AdderStep.event)).stop adder).worker
        = Worker.exited 0 := by
  obtain ⟨j, inv⟩ := adderInv_run schedule s0 [] 0 0 _ (adderInv_of_start s0 config)
  simp only [List.nil_append, Nat.zero_add] at inv
  obtain ⟨j', _, hj, hworks, _, hw, hq, _⟩ := adderInv_stop inv
  refine ⟨⟨j', hj, hworks, hw, hq⟩, ?_, by decide, by decide, by decide, by decide⟩
  intro hempty
  rw [hq] at hempty
  have hlen : (adderSent schedule).length ≤ j' := by
    have := congrArg List.length hempty
    simp at this
    omega
  rw [hw, List.take_of_length_le hlen]

section StepLemmas

variable {State α : Type}

theorem Thread.iteration_running [Inhabited (Command α)] (H : Handlers State α) (t : Thread α)
    (state : State) (cw : List (SyncQueue (Command α))) (h : Heap) :
    (t.iteration H state cw h).2.1.running = t.running := by
  simp only [Thread.iteration]
  by_cases hs : (t.channel.recv cw).1.1 = SyncQStatus.Shutdown
  · rw [if_pos hs]
  · rw [if_neg hs]

/-- A step of the worker does not write `running`. -/
theorem Actor.workerStep_running [Inhabited (Command α)] (H : Handlers State α)
    (a : Actor State α) : (a.workerStep H).self.running = a.self.running := by
  unfold Actor.workerStep
  cases hw : a.worker with
  | none => rfl
  | launched st => rfl
  | looping st =>
    by_cases hr : a.self.running = true
    · simp only [hr, Bool.not_true, Bool.false_eq_true, if_false]
      simpa [hr] using Thread.iteration_running H a.self st [] a.heap
    · simp [hr]
  | receiving st => exact Thread.iteration_running H a.self st [] a.heap
  | exited st => rfl
  | returned st => rfl

end StepLemmas

/-- C28, the claim fails: an actor is started, its worker enters the loop, `stop()` is
called, and `start` is called again with state 7.  After `stop()` the flag `running` is
false; after the second `start` it is true again and a new worker is launched on 7. -/
theorem C28_restart_counterexample :
    ((((Actor.new : Actor Int Int).start adder 0 defaultConfig).run adder
        [Event.work]).stop adder).self.running = false ∧
      ((((Actor.new : Actor Int Int).start adder 0 defaultConfig).run adder
        [Event.work]).stop adder).worker = Worker.exited 0 ∧
      (((((Actor.new : Actor Int Int).start adder 0 defaultConfig).run adder
        [Event.work]).stop adder).start adder 7 defaultConfig).self.running = true ∧
      (((((Actor.new : Actor Int Int).start adder 0 defaultConfig).run adder
        [Event.work]).stop adder).start adder 7 defaultConfig).worker = Worker.launched 7 ∧
      ((((((Actor.new : Actor Int Int).start adder 0 defaultConfig).run adder
        [Event.work]).stop adder).start adder 7 defaultConfig).run adder
        (adderEvents [some 4, none, none])).worker = Worker.looping 11 := by
  decide

/-- C28 as amended.  `stop()` leaves `running` false and the thread joined, and `start`
tests nothing but `running`: a later `start(state, config)` on a stopped actor opens the
channel again (open, empty, with the new configuration), sets `running` to true and
launches a new worker on `onStart(state)`, so the actor runs again. -/
theorem C28_stopped_actor_restarts {State α : Type} [Inhabited (Command α)]
    (H : Handlers State α) (a : Actor State α) (state : State) (config : ChannelConfig) :
    (a.stop H).self.running = false ∧
      ((a.stop H).start H state config).self.running = true ∧
      ((a.stop H).start H state config).worker = Worker.launched (H.onStart state) ∧
      ((a.stop H).start H state config).joinable = true ∧
      ((a.stop H).start H state config).self.channel.q.shouldReceive = true ∧
      ((a.stop H).start H state config).self.channel.q.q = [] ∧
      ((a.stop H).start H state config).self.channel.q.capacity = config.capacity ∧
      (a.self.running = true → a.start H state config = a) := by
  have hstop : (a.stop H).self.running = false := by
    unfold Actor.stop
    by_cases hj : a.joinable = true
    · simp only [hj, if_true]
      rw [Actor.workerStep_running, Actor.workerStep_running]
    · simp [hj]
  refine ⟨hstop, ?_, ?_, ?_, ?_, ?_, ?_, ?_⟩
  · simp [Actor.start, hstop]
  · simp [Actor.start, hstop]
  · simp [Actor.start, hstop]
  · simp [Actor.start, hstop, Channel.openCmds, Channel.«open», SyncQueue.setShouldReceive]
  · simp [Actor.start, hstop, Channel.openCmds, Channel.«open», SyncQueue.setShouldReceive]
  · simp [Actor.start, hstop, Channel.openCmds, Channel.«open», SyncQueue.setShouldReceive]
  · intro hr
    simp [Actor.start, hr]

/-- C29 on the code: with handlers whose `onEnter` adds 1000 and whose `onExit` adds 100 to
the state, an actor is started with state 0 and its worker enters the loop.  When the
channel is closed and the worker's next `recv()` returns Shutdown, the lambda returns with
state 1000 and `onExit` is never called, also not by the following `stop()`; when instead
`stop()` clears `running`, the loop ends, `onExit` is called and the state is 1100. -/
theorem C29_shutdown_skips_onExit :
    (((Actor.new : Actor Int Int).start marking 0 defaultConfig).run marking
        [Event.work, Event.close, Event.work]).worker = Worker.returned 1000 ∧
      (((Actor.new : Actor Int Int).start marking 0 defaultConfig).run marking
        [Event.work, Event.close, Event.work]).calls = [Call.onStart, Call.onEnter] ∧
      ((((Actor.new : Actor Int Int).start marking 0 defaultConfig).run marking
        [Event.work, Event.close, Event.work]).stop marking).worker = Worker.returned 1000 ∧
      ((((Actor.new : Actor Int Int).start marking 0 defaultConfig).run marking
        [Event.work, Event.close, Event.work]).stop marking).calls
        = [Call.onStart, Call.onEnter, Call.onStop] ∧
      ((((Actor.new : Actor Int Int).start marking 0 defaultConfig).run marking
        [Event.work]).stop marking).worker = Worker.exited 1100 ∧
      ((((Actor.new : Actor Int Int).start marking 0 defaultConfig).run marking
        [Event.work]).stop marking).calls
        = [Call.onStart, Call.onEnter, Call.onExit, Call.onStop] := by
  decide

section HandleLemmas

variable {State α : Type}

/-- A pass of the command loop that receives a command holding the handle of a latch: the
command is executed, the latch is notified and loses the command as an owner, `tick` runs. -/
theorem Thread.iteration_of_front_awaitable [Inhabited (Command α)] (H : Handlers State α)
    (t : Thread α) (state : State) (cw : List (SyncQueue (Command α))) (h : Heap)
    (cmd : Command α) (rest : List (Command α)) (a : Nat) (b : Shared)
    (hq : t.channel.q.q = cmd :: rest) (hbase : cmd.base = some { done := some a })
    (hb : h[a]? = some b) :
    (t.channel.recv cw).1 = (SyncQStatus.OK, cmd) ∧
      (t.iteration H state cw h).1 = Worker.looping (H.tick (H.execute state cmd)) ∧
      (t.iteration H state cw h).2.1.channel.q.q = rest ∧
      (t.iteration H state cw h).2.2.2 = [Call.execute, Call.notify, Call.tick] ∧
      (t.iteration H state cw h).2.2.1[a]?
        = some { latch := b.latch.notify, use_count := b.use_count - 1 } := by
  have hn := Awaitable.notify_of_owner { done := some a } h a b rfl hb
  have hrecv : t.channel.recv cw
      = ((SyncQStatus.OK, cmd), { q := { t.channel.q with q := rest } }) := by
    simp [Channel.recv, SyncQueue.getWithStatus_of_nonempty _ cw cmd rest hq]
  have hv : Thread.visit H state cmd h
      = (H.execute state cmd,
         { cmd with base := some (({ done := some a } : Awaitable).notify h).1 },
         (({ done := some a } : Awaitable).notify h).2, [Call.execute, Call.notify]) := by
    simp [Thread.visit, hbase]
  refine ⟨by rw [hrecv], ?_, ?_, ?_, ?_⟩
  · simp [Thread.iteration, hrecv, hv]
  · simp [Thread.iteration, hrecv, hv]
  · simp [Thread.iteration, hrecv, hv]
  · simp only [Thread.iteration, hrecv, hv]
    simp only [hn.1, Command.dtor, Awaitable.dtor, Awaitable.use_count, Awaitable.unblock]
    simpa using hn.2.1

end HandleLemmas

/-! ## Lemmas on the passes of the command loop -/

section LoopLemmas

variable {State α : Type}

/-- A pass of the command loop whose `recv()` finds `cmd` at the front of the queue. -/
theorem Thread.iteration_of_front [Inhabited (Command α)] (H : Handlers State α)
    (t : Thread α) (state : State) (cw : List (SyncQueue (Command α))) (h : Heap)
    (cmd : Command α) (rest : List (Command α)) (hq : t.channel.q.q = cmd :: rest) :
    (t.channel.recv cw).1 = (SyncQStatus.OK, cmd) ∧
      (t.iteration H state cw h).1 = Worker.looping (H.tick (H.execute state cmd)) ∧
      (t.iteration H state cw h).2.1
        = { t with channel := { q := { t.channel.q with q := rest } } } ∧
      (t.iteration H state cw h).2.2.2
        = (if cmd.base.isSome then [Call.execute, Call.notify, Call.tick]
           else [Call.execute, Call.tick]) ∧
      (cmd.base = none → (t.iteration H state cw h).2.2.1 = h) := by
  have hrecv : t.channel.recv cw
      = ((SyncQStatus.OK, cmd), { q := { t.channel.q with q := rest } }) := by
    simp [Channel.recv, SyncQueue.getWithStatus_of_nonempty _ cw cmd rest hq]
  refine ⟨by rw [hrecv], ?_, ?_, ?_, ?_⟩
  · cases hb : cmd.base <;> simp [Thread.iteration, hrecv, Thread.visit, hb]
  · cases hb : cmd.base <;> simp [Thread.iteration, hrecv, Thread.visit, hb]
  · cases hb : cmd.base <;> simp [Thread.iteration, hrecv, Thread.visit, hb]
  · intro hb
    simp [Thread.iteration, hrecv, Thread.visit, hb, Command.dtor]

/-- The worker, at the test of the loop of a running actor whose queue holds `cmds` in
front, makes one pass per command. -/
theorem Actor.run_work_of_queue [Inhabited (Command α)] (H : Handlers State α)
    (cmds : List (Command α)) :
    ∀ (a : Actor State α) (state : State) (rest : List (Command α)),
      a.worker = Worker.looping state → a.self.running = true →
      a.self.channel.q.q = cmds ++ rest →
      (a.run H (List.replicate cmds.length Event.work)).worker
          = Worker.looping (cmds.foldl (fun s c => H.tick (H.execute s c)) state) ∧
        (a.run H (List.replicate cmds.length Event.work)).self.channel.q.q = rest ∧
        (a.run H (List.replicate cmds.length Event.work)).self.running = true := by
  induction cmds with
  | nil =>
    intro a state rest hw hrun hq
    simpa [Actor.run] using ⟨hw, hq, hrun⟩
  | cons cmd tail ih =>
    intro a state rest hw hrun hq
    have hit := Thread.iteration_of_front H a.self state [] a.heap cmd (tail ++ rest) hq
    have hstep : ∀ a' : Actor State α, a' = a.workerStep H →
        a'.worker = Worker.looping (H.tick (H.execute state cmd)) ∧
        a'.self.running = true ∧ a'.self.channel.q.q = tail ++ rest := by
      intro a' ha'
      subst ha'
      simp only [Actor.workerStep, hw, hrun]
      refine ⟨hit.2.1, ?_, ?_⟩
      · simp [hit.2.2.1, hrun]
      · simp [hit.2.2.1]
    obtain ⟨h1, h2, h3⟩ := hstep _ rfl
    have := ih (a.workerStep H) (H.tick (H.execute state cmd)) rest h1 h2 h3
    simpa [Actor.run, Actor.step, List.replicate_succ] using this

end LoopLemmas

/-- C31. The worker of a running actor is at the test of the loop with state `state`, and
the queue holds `cmd :: tail` in front.  The pass of the loop receives `(OK, cmd)`, calls
`execute`, then `notify` when `cmd`'s alternative is awaitable, then `tick`, and leaves the
state `tick(execute(state, cmd))`; a latch owned by `cmd` has its count incremented by one
(a `size_t` increment) and keeps its flag and expected count; without `Awaitable` base no
latch changes.  After one pass per command of `cmd :: tail` the state is the left fold of
`tick(execute(s, c))` over the commands in queue order, and the queue holds what followed
them. -/
theorem C31_loop_iteration {State α : Type} [Inhabited (Command α)] (H : Handlers State α)
    (a : Actor State α) (state : State) (cmd : Command α) (tail rest : List (Command α))
    (cw : List (SyncQueue (Command α)))
    (hw : a.worker = Worker.looping state) (hrun : a.self.running = true)
    (hq : a.self.channel.q.q = (cmd :: tail) ++ rest) :
    (a.self.channel.recv cw).1 = (SyncQStatus.OK, cmd) ∧
      (a.self.iteration H state cw a.heap).1
        = Worker.looping (H.tick (H.execute state cmd)) ∧
      (a.self.iteration H state cw a.heap).2.2.2
        = (if cmd.base.isSome then [Call.execute, Call.notify, Call.tick]
           else [Call.execute, Call.tick]) ∧
      (∀ (x : Nat) (b : Shared), cmd.base = some { done := some x } → a.heap[x]? = some b →
        (a.self.iteration H state cw a.heap).2.2.1[x]?
          = some { latch := { enabled := b.latch.enabled
                              count := (b.latch.count + 1) % SIZE_MOD
                              expectedCount := b.latch.expectedCount }
                   use_count := b.use_count - 1 }) ∧
      (cmd.base = none → (a.self.iteration H state cw a.heap).2.2.1 = a.heap) ∧
      (a.workerStep H).worker = Worker.looping (H.tick (H.execute state cmd)) ∧
      (a.run H (List.replicate (cmd :: tail).length Event.work)).worker
        = Worker.looping ((cmd :: tail).foldl (fun s c => H.tick (H.execute s c)) state) ∧
      (a.run H (List.replicate (cmd :: tail).length Event.work)).self.channel.q.q = rest := by
  have hit := Thread.iteration_of_front H a.self state cw a.heap cmd (tail ++ rest) hq
  have hit0 := Thread.iteration_of_front H a.self state [] a.heap cmd (tail ++ rest) hq
  have hrunq := Actor.run_work_of_queue H (cmd :: tail) a state rest hw hrun hq
  refine ⟨hit.1, hit.2.1, hit.2.2.2.1, ?_, hit.2.2.2.2, ?_, hrunq.1, hrunq.2.1⟩
  · intro x b hbase hb
    have haw := Thread.iteration_of_front_awaitable H a.self state cw a.heap cmd (tail ++ rest)
      x b hq hbase hb
    rw [haw.2.2.2.2]
    rfl
  · simp only [Actor.workerStep, hw, hrun]
    exact hit0.2.1

/-- Instance of C31: the adding actor started with 0 whose worker is in the loop when
`Add(5)` and `Add(3)` are submitted; the first pass leaves 5, the two passes leave 8 and an
empty queue. -/
theorem C31_loop_iteration_witness :
    ((((Actor.new : Actor Int Int).start adder 0 defaultConfig).run adder
        (adderEvents [none, some 5, some 3])).workerStep adder).worker = Worker.looping 5 ∧
      ((((Actor.new : Actor Int Int).start adder 0 defaultConfig).run adder
        (adderEvents [none, some 5, some 3])).run adder
          (List.replicate [Add 5, Add 3].length Event.work)).worker
        = Worker.looping ([Add 5, Add 3].foldl (fun s c => adder.tick (adder.execute s c)) 0) ∧
      ((((Actor.new : Actor Int Int).start adder 0 defaultConfig).run adder
        (adderEvents [none, some 5, some 3])).run adder
          (List.replicate [Add 5, Add 3].length Event.work)).self.channel.q.q = [] :=
  have w := C31_loop_iteration adder
    (((Actor.new : Actor Int Int).start adder 0 defaultConfig).run adder
      (adderEvents [none, some 5, some 3])) 0 (Add 5) [Add 3] [] []
    (by decide) (by decide) (by decide)
  ⟨w.2.2.2.2.2.1, w.2.2.2.2.2.2.1, w.2.2.2.2.2.2.2⟩

end cisim

namespace mdsp

section OpenLemmas

variable {T : Type}

end OpenLemmas

end mdsp

namespace cisim

open mdsp

end cisim

namespace mdsp

section TimeoutLemmas

variable {T : Type}

/-- A consumer that finds the queue open and empty, also at every wake-up, waits until the
deadline: `getWithStatus()` returns Timeout with `T{}`. -/
theorem SyncQueue.getWithStatus_timeout_of_never [Inhabited T] (s : SyncQueue T)
    (wakeups : List (SyncQueue T)) (hopen : s.shouldReceive = true) (hq : s.q = [])
    (hw : ∀ w ∈ wakeups, w.shouldReceive = true ∧ w.q = []) :
    (s.getWithStatus wakeups).1 = (SyncQStatus.Timeout, default) := by
  have hs : s.consumerShouldWait = true := by
    simp [SyncQueue.consumerShouldWait, SyncQueue.isEmpty_impl, hopen, hq]
  have hws : ∀ w ∈ wakeups, w.consumerShouldWait = true := by
    intro w hmem
    simp [SyncQueue.consumerShouldWait, SyncQueue.isEmpty_impl, (hw w hmem).1, (hw w hmem).2]
  have hwf := wait_for_of_never s.consumerTimeout.chronoMilliseconds
    (fun s' : SyncQueue T => !s'.consumerShouldWait) wakeups s (by simp [hs])
    (fun w hmem => by simp [hws w hmem])
  have hlast : ((s :: wakeups).getLast (List.cons_ne_nil s wakeups)).shouldReceive = true ∧
      ((s :: wakeups).getLast (List.cons_ne_nil s wakeups)).q = [] := by
    rcases List.mem_cons.mp (List.getLast_mem (List.cons_ne_nil s wakeups)) with h | h
    · rw [h]; exact ⟨hopen, hq⟩
    · exact hw _ h
  have hcw : s.consumerWait s.consumerTimeout wakeups
      = (true, (s :: wakeups).getLast (List.cons_ne_nil s wakeups)) := by
    unfold SyncQueue.consumerWait
    simp only [hs, if_true, hwf]
    rfl
  have hq' : (s.consumerWait s.consumerTimeout wakeups).2.q = [] := by
    rw [hcw]; exact hlast.2
  rw [SyncQueue.getWithStatus_of_ended_empty s wakeups hq', hcw]
  simp [hlast.1]

/-- With status Timeout or Shutdown `getWithStatus()` returns `T{}`. -/
theorem SyncQueue.getWithStatus_item_of_not_ok [Inhabited T] (s : SyncQueue T)
    (wakeups : List (SyncQueue T)) (hne : (s.getWithStatus wakeups).1.1 ≠ SyncQStatus.OK) :
    (s.getWithStatus wakeups).1.2 = default := by
  cases hq1 : (s.consumerWait s.consumerTimeout wakeups).2.q with
  | nil => rw [SyncQueue.getWithStatus_of_ended_empty s wakeups hq1]
  | cons y rest =>
    rw [SyncQueue.getWithStatus_of_ended_nonempty s wakeups y rest hq1] at hne
    exact absurd rfl hne

end TimeoutLemmas

end mdsp

namespace cisim

open mdsp

/-- C33. One pass of the command loop, for a command variant whose `T{}` is the first
alternative value-initialised (no `Awaitable` base).  When `recv()` returns Timeout, the
command it returns is `T{}`, and the pass calls `execute(state, T{})` and then `tick`: the
state becomes `tick(execute(state, T{}))` and no latch changes.  `recv()` returns Timeout
when the queue is open and empty at the call and at every wake-up until the deadline.  The
pass makes no call exactly when the status is Shutdown (the lambda then returns with the
state unchanged); with any other status it executes the command returned by `recv()`. -/
theorem C33_timeout_is_dispatched {State α : Type} [Inhabited α] (H : Handlers State α)
    (t : Thread α) (state : State) (cw : List (SyncQueue (Command α))) (h : Heap) :
    ((t.channel.recv cw).1.1 = SyncQStatus.Timeout →
        (t.channel.recv cw).1.2 = { index := 0, base := none, data := default } ∧
        (t.iteration H state cw h).1
          = Worker.looping (H.tick (H.execute state
              { index := 0, base := none, data := default })) ∧
        (t.iteration H state cw h).2.2.2 = [Call.execute, Call.tick] ∧
        (t.iteration H state cw h).2.2.1 = h) ∧
      (t.channel.q.shouldReceive = true → t.channel.q.q = [] →
        (∀ w ∈ cw, w.shouldReceive = true ∧ w.q = []) →
        (t.channel.recv cw).1.1 = SyncQStatus.Timeout) ∧
      ((t.channel.recv cw).1.1 = SyncQStatus.Shutdown ↔ (t.iteration H state cw h).2.2.2 = []) ∧
      ((t.channel.recv cw).1.1 = SyncQStatus.Shutdown →
        (t.iteration H state cw h).1 = Worker.returned state) ∧
      ((t.channel.recv cw).1.1 ≠ SyncQStatus.Shutdown →
        (t.iteration H state cw h).1
          = Worker.looping (H.tick (H.execute state (t.channel.recv cw).1.2)) ∧
        (t.iteration H state cw h).2.2.2.head? = some Call.execute) := by
  refine ⟨?_, ?_, ?_, ?_, ?_⟩
  · intro hto
    have hitem : (t.channel.recv cw).1.2 = { index := 0, base := none, data := default } :=
      SyncQueue.getWithStatus_item_of_not_ok t.channel.q cw (by
        have : (t.channel.q.getWithStatus cw).1.1 = SyncQStatus.Timeout := hto
        rw [this]; decide)
    refine ⟨hitem, ?_, ?_, ?_⟩ <;>
      simp [Thread.iteration, hto, hitem, Thread.visit, Command.dtor]
  · intro hopen hq hw
    have := SyncQueue.getWithStatus_timeout_of_never t.channel.q cw hopen hq hw
    simp [Channel.recv, this]
  · constructor
    · intro hsd
      simp [Thread.iteration, hsd]
    · intro hcalls
      by_contra hne
      cases hb : (t.channel.recv cw).1.2.base <;>
        simp [Thread.iteration, hne, Thread.visit, hb] at hcalls
  · intro hsd
    simp [Thread.iteration, hsd]
  · intro hne
    cases hb : (t.channel.recv cw).1.2.base <;>
      simp [Thread.iteration, hne, Thread.visit, hb]

/-- Instance of C33: the adding actor with state 10 whose `recv()` finds the queue of a
fresh channel open and empty until the deadline; the pass executes `Add(0)`, the
value-initialised command, and the state stays 10. -/
theorem C33_timeout_is_dispatched_witness :
    ((Thread.mk (Channel.mk (SyncQueue.new 10)) true : Thread Int).channel.recv []).1.1
        = SyncQStatus.Timeout ∧
      ((Thread.mk (Channel.mk (SyncQueue.new 10)) true : Thread Int).iteration adder 10 []
        []).1 = Worker.looping 10 ∧
      ((Thread.mk (Channel.mk (SyncQueue.new 10)) true : Thread Int).iteration adder 10 []
        []).2.2.2 = [Call.execute, Call.tick] :=
  have w := C33_timeout_is_dispatched adder
    (Thread.mk (Channel.mk (SyncQueue.new 10)) true : Thread Int) 10 [] []
  have hto := w.2.1 rfl rfl (by simp)
  ⟨hto, (w.1 hto).2.1, (w.1 hto).2.2.1⟩

end cisim

namespace mdsp

/-- C34. For `0 < n < 2 ^ 64`: after `expect(n)` and `n` calls of `notify()` the latch is
complete and `wait()` returns OK; after a following `disable()` it returns Shutdown,
whatever the time-out.  For two handles `x` and `y` that own such a complete latch with at
most two owners: before `x` is destroyed `y.wait()` returns OK; the destruction of `x`
disables the latch (count and expected count stay `n`), and `y.wait()` then returns
Shutdown. -/
theorem C34_disable_after_completion (c : CountCondition) (n : Nat) (hn : 0 < n)
    (hlt : n < SIZE_MOD) (timeout : Option Time) (wakeups : List CountCondition) :
    (CountCondition.notify^[n] (c.expect n)).wait timeout wakeups = Result.OK ∧
      (CountCondition.notify^[n] (c.expect n)).disable
        = (true, { enabled := false, count := n, expectedCount := n }) ∧
      (CountCondition.notify^[n] (c.expect n)).disable.2.wait timeout wakeups
        = Result.Shutdown ∧
      (∀ (x y : Awaitable) (h : Heap) (a : Nat) (b : Shared),
        x.done = some a → y.done = some a → h[a]? = some b →
        b.latch = CountCondition.notify^[n] (c.expect n) → b.use_count ≤ 2 →
        y.wait h timeout wakeups = some Result.OK ∧
        (x.dtor h)[a]?
          = some { latch := { enabled := false, count := n, expectedCount := n }
                   use_count := b.use_count - 1 } ∧
        y.wait (x.dtor h) timeout wakeups = some Result.Shutdown) := by
  have hlatch : CountCondition.notify^[n] (c.expect n)
      = { enabled := true, count := n, expectedCount := n } := by
    rw [CountCondition.iterate_notify_expect, Nat.mod_eq_of_lt hlt]
  have hne : n ≠ 0 := Nat.pos_iff_ne_zero.mp hn
  have hok : (CountCondition.notify^[n] (c.expect n)).wait timeout wakeups = Result.OK := by
    rw [hlatch]
    simp [CountCondition.wait, CountCondition.shouldWait]
  have hdis : (CountCondition.notify^[n] (c.expect n)).disable
      = (true, { enabled := false, count := n, expectedCount := n }) := by
    rw [hlatch]
    simp [CountCondition.disable]
  refine ⟨hok, hdis, ?_, ?_⟩
  · rw [hdis]
    exact CountCondition.wait_of_disabled _ timeout wakeups rfl hne
  · intro x y h a b hx hy hb hbl hu
    have hd := Awaitable.dtor_getElem?_self x h a b hx hb
    rw [if_pos hu, hbl, hdis] at hd
    have hy' : y = { done := some a } := by
      cases y
      simp only at hy
      rw [hy]
    refine ⟨?_, hd, ?_⟩
    · simp only [Awaitable.wait, hy, hb, hbl, hok]
    · rw [hy']
      exact Awaitable.wait_shutdown_of_disabled (x.dtor h) a _ hd rfl hne timeout wakeups

/-- Instance of C34: a latch armed for two notifications and notified twice; the handle of
a completed command and the caller's handle are its two owners. -/
theorem C34_disable_after_completion_witness :
    (CountCondition.notify^[2] (CountCondition.init.expect 2)).disable.2.wait
        (some (Time.FromSeconds 1)) [] = Result.Shutdown ∧
      ({ done := some 0 } : Awaitable).wait
        (({ done := some 0 } : Awaitable).dtor [⟨⟨true, 2, 2⟩, 2⟩])
        (some (Time.FromSeconds 1)) [] = some Result.Shutdown :=
  have w := C34_disable_after_completion CountCondition.init 2 (by decide) (by decide)
    (some (Time.FromSeconds 1)) []
  ⟨w.2.2.1, (w.2.2.2 { done := some 0 } { done := some 0 } [⟨⟨true, 2, 2⟩, 2⟩] 0
    ⟨⟨true, 2, 2⟩, 2⟩ rfl rfl rfl (by decide) (by decide)).2.2⟩

/-- C35. Handles `x` and `y` (two objects) own the same latch, at `a`.  After the copy
assignment `x = y` the latch is disabled, keeps its count and expected count, and `x` owns
it again (the owner released by `unblock()` is added back).  After the self-assignment
`x = x` the latch is disabled in the same way, `x` owns no latch and the latch has one
owner less. -/
theorem C35_shared_assignment_cancels (x y : Awaitable) (h : Heap) (a : Nat) (b : Shared)
    (hx : x.done = some a) (hy : y.done = some a) (hb : h[a]? = some b) :
    (x.copyAssign y h).1.done = some a ∧
      (x.copyAssign y h).2[a]?
        = some { latch := { enabled := false, count := b.latch.count
                            expectedCount := b.latch.expectedCount }
                 use_count := b.use_count - 1 + 1 } ∧
      (x.selfAssign h).1.done = none ∧
      (x.selfAssign h).1.awaitable = false ∧
      (x.selfAssign h).2[a]?
        = some { latch := { enabled := false, count := b.latch.count
                            expectedCount := b.latch.expectedCount }
                 use_count := b.use_count - 1 } ∧
      (∀ a', a' ≠ a → (x.copyAssign y h).2[a']? = h[a']? ∧ (x.selfAssign h).2[a']? = h[a']?) := by
  have hu : (x.unblock h).2[a]?
      = some { latch := { enabled := false, count := b.latch.count
                          expectedCount := b.latch.expectedCount }
               use_count := b.use_count - 1 } := by
    simp [Awaitable.unblock, hx, Heap.release, Heap.getElem?_modify, hb,
      CountCondition.disable_snd]
  have hune : ∀ a', a' ≠ a → (x.unblock h).2[a']? = h[a']? := by
    intro a' hne
    simp [Awaitable.unblock, hx, Heap.release, Heap.getElem?_modify, hne]
  have hdone : (x.unblock h).1.done = none := Awaitable.unblock_done x h
  refine ⟨?_, ?_, ?_, ?_, ?_, ?_⟩
  · simp [Awaitable.copyAssign, hy]
  · simp [Awaitable.copyAssign, hy, Heap.acquire, Heap.getElem?_modify, hu]
  · simp [Awaitable.selfAssign, hdone]
  · simp [Awaitable.selfAssign, Awaitable.awaitable, hdone]
  · simpa [Awaitable.selfAssign] using hu
  · intro a' hne
    refine ⟨?_, ?_⟩
    · simp [Awaitable.copyAssign, hy, Heap.acquire, Heap.getElem?_modify, hne, hune a' hne]
    · simpa [Awaitable.selfAssign] using hune a' hne

/-- Instance of C35: two handles own the latch at 0, armed for one notification. -/
theorem C35_shared_assignment_cancels_witness :
    (({ done := some 0 } : Awaitable).copyAssign { done := some 0 } [⟨⟨true, 0, 1⟩, 2⟩])
        = ({ done := some 0 }, [⟨⟨false, 0, 1⟩, 2⟩]) ∧
      (({ done := some 0 } : Awaitable).selfAssign [⟨⟨true, 0, 1⟩, 2⟩]).1.done = none ∧
      (({ done := some 0 } : Awaitable).selfAssign [⟨⟨true, 0, 1⟩, 2⟩]).2[0]?
        = some ⟨⟨false, 0, 1⟩, 1⟩ :=
  have w := C35_shared_assignment_cancels { done := some 0 } { done := some 0 }
    [⟨⟨true, 0, 1⟩, 2⟩] 0 ⟨⟨true, 0, 1⟩, 2⟩ rfl rfl rfl
  ⟨by decide, w.2.2.1, w.2.2.2.2.1⟩

/-- C36. `update<Dispatch>(v)` with `v` passed as a const reference (the assignment
`existing = value` is a copy and leaves `v` as it is), on a queue in which at least one
element holds the alternative of `v`: every element holding that alternative becomes `v`,
every other element stays as it is at its position, the length of the queue is unchanged
(nothing is appended), and as many elements equal `v` afterwards as held its alternative
before. -/
theorem C36_update_overwrites_all {T : Type} [IsVariant T] [DecidableEq T] (d : Dispatch)
    (ch : Channel T) (wakeups : List (SyncQueue T)) (v : T)
    (hsome : ∃ e ∈ ch.q.q, IsVariant.index e = IsVariant.index v) :
    (ch.update d id wakeups v).q.q
        = ch.q.q.map (fun e => if IsVariant.index e = IsVariant.index v then v else e) ∧
      (ch.update d id wakeups v).q.q.length = ch.q.q.length ∧
      (∀ (i : Nat) (e : T), ch.q.q[i]? = some e → IsVariant.index e = IsVariant.index v →
        (ch.update d id wakeups v).q.q[i]? = some v) ∧
      (∀ (i : Nat) (e : T), ch.q.q[i]? = some e → IsVariant.index e ≠ IsVariant.index v →
        (ch.update d id wakeups v).q.q[i]? = some e) ∧
      (ch.update d id wakeups v).q.q.count v
        = ch.q.q.countP (fun e => decide (IsVariant.index e = IsVariant.index v)) := by
  have hq : (ch.update d id wakeups v).q.q
      = ch.q.q.map (fun e => if IsVariant.index e = IsVariant.index v then v else e) := by
    rw [Channel.update_q d id ch wakeups v hsome]
    simp only [updateLoop_of_copy (IsVariant.index v) id v rfl]
    simp [holds_alternative]
  refine ⟨hq, by rw [hq, List.length_map], ?_, ?_, ?_⟩
  · intro i e hi he
    rw [hq, List.getElem?_map, hi]
    simp [he]
  · intro i e hi hne
    rw [hq, List.getElem?_map, hi]
    simp [hne]
  · rw [hq, List.count, List.countP_map]
    apply List.countP_congr
    intro e _
    by_cases he : IsVariant.index e = IsVariant.index v
    · simp [he]
    · have hev : e ≠ v := fun h => he (by rw [h])
      simp [he, hev]

/-- Instance of C36: the queue holds `Set(1), Ping, Set(2)`; `update(Set(7))` leaves
`Set(7), Ping, Set(7)`. -/
theorem C36_update_overwrites_all_witness :
    ((Channel.mk (SyncQueue.holding 10 [SetCmd 1, PingCmd, SetCmd 2])).update Dispatch.Serial
        id [] (SetCmd 7)).q.q = [SetCmd 7, PingCmd, SetCmd 7] :=
  (C36_update_overwrites_all Dispatch.Serial
    (Channel.mk (SyncQueue.holding 10 [SetCmd 1, PingCmd, SetCmd 2])) [] (SetCmd 7)
    ⟨SetCmd 1, by decide, rfl⟩).1

/-- C37 on the code: `operator^` returns the bitwise AND of the underlying values, so
`bits::toggle(v, f)` is `v & f` for every `v` and `f`.  For `v = 0b01` and `f = 0b10` the
result is 0, whereas the exclusive-or is `0b11`; toggling twice gives 0 and not `v`; and
toggling a flag that is set (`v = 0b11`, `f = 0b01`) leaves it set. -/
theorem C37_toggle_is_and (v f : Nat) :
    operator_xor v f = v &&& f ∧
      bits.toggle v f = operator_and v f ∧
      bits.toggle (bits.toggle v f) f = v &&& f ∧
      bits.toggle 1 2 = 0 ∧ 1 ^^^ 2 = 3 ∧
      bits.toggle (bits.toggle 1 2) 2 = 0 ∧
      bits.toggle (bits.toggle 1 2) 2 ≠ 1 ∧
      bits.toggle 3 1 = 1 ∧ 3 ^^^ 1 = 2 ∧
      bits.isSet (bits.toggle 3 1) 1 = true := by
  refine ⟨rfl, rfl, ?_, by decide, by decide, by decide, by decide, by decide, by decide,
    by decide⟩
  simp [bits.toggle, operator_xor, Nat.land_assoc]

/-- C38 on the code: `getBounds()` starts from `xMin = yMin = INT_MIN` and
`xMax = yMax = INT_MAX`, so no `int` coordinate is below the minimum or above the maximum
held and the variables never change: for every polygon whose coordinates are `int` values
the result is `Rect(INT_MIN, INT_MIN, INT_MAX, INT_MAX)`. -/
theorem C38_getBounds_whole_range (poly : Polygon)
    (hrange : ∀ p ∈ poly.points,
      INT_MIN ≤ p.x ∧ p.x ≤ INT_MAX ∧ INT_MIN ≤ p.y ∧ p.y ≤ INT_MAX) :
    poly.getBounds = { top := INT_MIN, left := INT_MIN, bottom := INT_MAX, right := INT_MAX } := by
  have hfold : ∀ pts : List int2,
      (∀ p ∈ pts, INT_MIN ≤ p.x ∧ p.x ≤ INT_MAX ∧ INT_MIN ≤ p.y ∧ p.y ≤ INT_MAX) →
      pts.foldl Polygon.getBoundsStep (INT_MIN, INT_MAX, INT_MIN, INT_MAX)
        = (INT_MIN, INT_MAX, INT_MIN, INT_MAX) := by
    intro pts
    induction pts with
    | nil => intro _; rfl
    | cons p rest ih =>
      intro hr
      obtain ⟨h1, h2, h3, h4⟩ := hr p (List.mem_cons_self _ _)
      have hstep : Polygon.getBoundsStep (INT_MIN, INT_MAX, INT_MIN, INT_MAX) p
          = (INT_MIN, INT_MAX, INT_MIN, INT_MAX) := by
        simp only [Polygon.getBoundsStep]
        rw [if_neg (not_lt.mpr h1), if_neg (not_lt.mpr h2), if_neg (not_lt.mpr h3),
          if_neg (not_lt.mpr h4)]
      rw [List.foldl_cons, hstep]
      exact ih (fun q hq => hr q (List.mem_cons_of_mem _ hq))
  simp only [Polygon.getBounds, hfold poly.points hrange]

/-- Instance of C38: the triangle (0, 0), (4, 0), (0, 4), whose tight bounds are
`Rect(0, 0, 4, 4)`. -/
theorem C38_getBounds_whole_range_witness :
    triangle.getBounds
        = { top := -2147483648, left := -2147483648, bottom := 2147483647, right := 2147483647 } ∧
      triangle.getBounds ≠ { top := 0, left := 0, bottom := 4, right := 4 } :=
  ⟨C38_getBounds_whole_range triangle (by decide), by decide⟩

/-- C39, the claim fails: the rectangle `Rect(0, 0, 0, 0)` holds the point (0, 0), and so
does `Rect(0, 0, 5, 5)`; their overlap `Rect(0, 0, 0, 0)` counts as null, `intersect`
returns the default rectangle `Rect(1, 1, 0, 0)`, which holds no point. -/
theorem C39_origin_pixel_counterexample :
    (Rect.mk 0 0 0 0).ptInRect ⟨0, 0⟩ = true ∧
      (Rect.mk 0 0 5 5).ptInRect ⟨0, 0⟩ = true ∧
      (Rect.mk 0 0 0 0).mul (Rect.mk 0 0 5 5) = Rect.mk 0 0 0 0 ∧
      ((Rect.mk 0 0 0 0).mul (Rect.mk 0 0 5 5)).isNull = true ∧
      (Rect.mk 0 0 0 0).intersect (Rect.mk 0 0 5 5) = Rect.mk 1 1 0 0 ∧
      ((Rect.mk 0 0 0 0).intersect (Rect.mk 0 0 5 5)).ptInRect ⟨0, 0⟩ = false := by
  decide

/-- C39 as amended.  For inclusive integer rectangles `a`, `b` and a point `p`: the
rectangle `a * b` holds `p` exactly when `a` and `b` both do; `a.intersect(b)` holds `p`
exactly when `a` and `b` both do and `a * b` is not `Rect(0, 0, 0, 0)`, which `isNull()`
treats as null.  So a point of `a.intersect(b)` is always in both, the equivalence holds
for every point other than (0, 0), and it holds for every point when `a * b` is not
`Rect(0, 0, 0, 0)`. -/
theorem C39_intersect_ptInRect (a b : Rect) (p : int2) :
    ((a.mul b).ptInRect p = true ↔ a.ptInRect p = true ∧ b.ptInRect p = true) ∧
      ((a.intersect b).ptInRect p = true ↔
        a.ptInRect p = true ∧ b.ptInRect p = true ∧ a.mul b ≠ Rect.mk 0 0 0 0) ∧
      ((a.intersect b).ptInRect p = true → a.ptInRect p = true ∧ b.ptInRect p = true) ∧
      (p ≠ ⟨0, 0⟩ →
        ((a.intersect b).ptInRect p = true ↔ a.ptInRect p = true ∧ b.ptInRect p = true)) ∧
      (a.mul b ≠ Rect.mk 0 0 0 0 →
        ((a.intersect b).ptInRect p = true ↔ a.ptInRect p = true ∧ b.ptInRect p = true)) := by
  obtain ⟨at_, al, ab, ar⟩ := a
  obtain ⟨bt, bl, bb, br⟩ := b
  obtain ⟨px, py⟩ := p
  have hmul : ((Rect.mk at_ al ab ar).mul (Rect.mk bt bl bb br)).ptInRect ⟨px, py⟩ = true ↔
      (Rect.mk at_ al ab ar).ptInRect ⟨px, py⟩ = true ∧
        (Rect.mk bt bl bb br).ptInRect ⟨px, py⟩ = true := by
    simp only [Rect.mul, Rect.ptInRect, Bool.and_eq_true, decide_eq_true_eq]
    split_ifs <;> constructor <;> intro h <;> omega
  have hint : ((Rect.mk at_ al ab ar).intersect (Rect.mk bt bl bb br)).ptInRect ⟨px, py⟩ = true ↔
      (Rect.mk at_ al ab ar).ptInRect ⟨px, py⟩ = true ∧
        (Rect.mk bt bl bb br).ptInRect ⟨px, py⟩ = true ∧
        (Rect.mk at_ al ab ar).mul (Rect.mk bt bl bb br) ≠ Rect.mk 0 0 0 0 := by
    rw [← and_assoc, ← hmul]
    simp only [Rect.intersect]
    generalize (Rect.mk at_ al ab ar).mul (Rect.mk bt bl bb br) = r
    obtain ⟨rt, rl, rb, rr⟩ := r
    by_cases hnull : (Rect.mk rt rl rb rr).isNull = true
    · simp only [hnull, if_true]
      simp only [Rect.isNull, Bool.or_eq_true, Bool.and_eq_true, beq_iff_eq,
        decide_eq_true_eq] at hnull
      simp only [Rect.new, Rect.ptInRect, Bool.and_eq_true, decide_eq_true_eq, ne_eq,
        Rect.mk.injEq]
      constructor
      · intro h; omega
      · intro h
        exfalso
        rcases hnull with (hz | hz) | hz
        · exact h.2 ⟨hz.1.1.1, hz.1.2, hz.1.1.2, hz.2⟩
        · omega
        · omega
    · have hnull' : (Rect.mk rt rl rb rr).isNull = false := by
        simpa using hnull
      simp only [hnull', Bool.false_eq_true, if_false]
      constructor
      · intro h
        refine ⟨h, ?_⟩
        intro hz
        rw [hz] at hnull'
        exact absurd hnull' (by decide)
      · intro h; exact h.1
  refine ⟨hmul, hint, fun h => ⟨(hint.mp h).1, (hint.mp h).2.1⟩, ?_, ?_⟩
  · intro hp
    constructor
    · intro h; exact ⟨(hint.mp h).1, (hint.mp h).2.1⟩
    · intro h
      refine hint.mpr ⟨h.1, h.2, ?_⟩
      intro hz
      have hm := hmul.mpr h
      rw [hz] at hm
      apply hp
      simp only [Rect.ptInRect, Bool.and_eq_true, decide_eq_true_eq] at hm
      have hx : px = 0 := by omega
      have hy : py = 0 := by omega
      rw [hx, hy]
  · intro hne
    constructor
    · intro h; exact ⟨(hint.mp h).1, (hint.mp h).2.1⟩
    · intro h; exact hint.mpr ⟨h.1, h.2, hne⟩

end mdsp

namespace mdsp

section PolygonLemmas

/-- The divisor of the quotient in `containsPoint` is not zero when the edge test that
guards it holds: the test gives `points[i].y != points[j].y`, and two different `int`
values have a difference that is not a multiple of `2 ^ 32`. -/
theorem Polygon.divisor_ne_zero (p_i p_j pt : int2)
    (hi : INT_MIN ≤ p_i.y ∧ p_i.y ≤ INT_MAX) (hj : INT_MIN ≤ p_j.y ∧ p_j.y ≤ INT_MAX)
    (hs : ((decide (p_i.y ≤ pt.y) && decide (pt.y < p_j.y)) ||
      (decide (p_j.y ≤ pt.y) && decide (pt.y < p_i.y))) = true) :
    p_i.y ≠ p_j.y ∧ wrap32 (p_j.y - p_i.y) ≠ 0 := by
  simp only [Bool.or_eq_true, Bool.and_eq_true, decide_eq_true_eq] at hs
  simp only [INT_MIN, INT_MAX] at hi hj
  have hne : p_i.y ≠ p_j.y := by omega
  refine ⟨hne, ?_⟩
  unfold wrap32
  norm_num
  omega

theorem Polygon.quotient_ne_divisionByZero (a b : Int) (hb : b ≠ 0) :
    Polygon.quotient a b ≠ Except.error DivFault.divisionByZero := by
  unfold Polygon.quotient
  rw [if_neg hb]
  by_cases ho : a = INT_MIN ∧ b = -1
  · rw [if_pos ho]
    intro h
    cases h
  · rw [if_neg ho]
    intro h
    cases h

theorem Polygon.edgeTest_ne_divisionByZero (p_i p_j pt : int2)
    (hi : INT_MIN ≤ p_i.y ∧ p_i.y ≤ INT_MAX) (hj : INT_MIN ≤ p_j.y ∧ p_j.y ≤ INT_MAX) :
    Polygon.edgeTest p_i p_j pt ≠ Except.error DivFault.divisionByZero := by
  unfold Polygon.edgeTest
  by_cases hs : ((decide (p_i.y ≤ pt.y) && decide (pt.y < p_j.y)) ||
      (decide (p_j.y ≤ pt.y) && decide (pt.y < p_i.y))) = true
  · rw [if_pos hs]
    have hq := Polygon.quotient_ne_divisionByZero
      (wrap32 (wrap32 (p_j.x - p_i.x) * wrap32 (pt.y - p_i.y))) (wrap32 (p_j.y - p_i.y))
      (Polygon.divisor_ne_zero p_i p_j pt hi hj hs).2
    cases hv : Polygon.quotient (wrap32 (wrap32 (p_j.x - p_i.x) * wrap32 (pt.y - p_i.y)))
        (wrap32 (p_j.y - p_i.y)) with
    | error e =>
      intro h
      apply hq
      rw [hv]
      simpa using h
    | ok v =>
      intro h
      cases h
  · rw [if_neg hs]
    intro h
    cases h

theorem Polygon.getD_range (points : List int2)
    (hrange : ∀ p ∈ points, INT_MIN ≤ p.y ∧ p.y ≤ INT_MAX) (i : Nat) :
    INT_MIN ≤ (points.getD i ⟨0, 0⟩).y ∧ (points.getD i ⟨0, 0⟩).y ≤ INT_MAX := by
  rw [List.getD_eq_getElem?_getD]
  cases hp : points[i]? with
  | none => simp [INT_MIN, INT_MAX]
  | some p => exact hrange p (List.getElem?_mem hp)

theorem Polygon.containsStep_ne_divisionByZero (points : List int2) (pt : int2)
    (hrange : ∀ p ∈ points, INT_MIN ≤ p.y ∧ p.y ≤ INT_MAX) (st : Nat × Bool) (i : Nat) :
    Polygon.containsStep points pt st i ≠ Except.error DivFault.divisionByZero := by
  have h := Polygon.edgeTest_ne_divisionByZero (points.getD i ⟨0, 0⟩) (points.getD st.1 ⟨0, 0⟩)
    pt (Polygon.getD_range points hrange i) (Polygon.getD_range points hrange st.1)
  unfold Polygon.containsStep
  cases he : Polygon.edgeTest (points.getD i ⟨0, 0⟩) (points.getD st.1 ⟨0, 0⟩) pt with
  | error e =>
    intro hh
    apply h
    rw [he]
    simpa using hh
  | ok c =>
    intro hh
    cases hh

theorem Polygon.containsLoop_ne_divisionByZero (points : List int2) (pt : int2)
    (hrange : ∀ p ∈ points, INT_MIN ≤ p.y ∧ p.y ≤ INT_MAX) (is : List Nat) :
    ∀ st : Nat × Bool,
      is.foldlM (Polygon.containsStep points pt) st
        ≠ Except.error DivFault.divisionByZero := by
  induction is with
  | nil =>
    intro st h
    cases h
  | cons i rest ih =>
    intro st
    have h := Polygon.containsStep_ne_divisionByZero points pt hrange st i
    rw [List.foldlM_cons]
    cases hs : Polygon.containsStep points pt st i with
    | error e =>
      intro hh
      apply h
      rw [hs]
      exact hh
    | ok st' => exact ih st'

end PolygonLemmas

/-- C40. For a polygon whose points have `int` coordinates `y` and every point `pt`:
`containsPoint(pt)` does not end with a division by zero; in each pass of the loop the edge
test that guards the quotient gives `points[i].y != points[j].y` and a divisor
`points[j].y - points[i].y` different from zero, also as a wrapped `int`; and for an empty
polygon the result is false.  (The other fault of an `int` division, the quotient
`INT_MIN / -1`, is not excluded: the polygon (-1, 0), (INT_MAX, 1) with the point (5, 0)
reaches it.) -/
theorem C40_containsPoint_no_division_by_zero (poly : Polygon) (pt : int2)
    (hrange : ∀ p ∈ poly.points, INT_MIN ≤ p.y ∧ p.y ≤ INT_MAX) :
    poly.containsPoint pt ≠ Except.error DivFault.divisionByZero ∧
      (∀ (i j : Nat), i < poly.points.length → j < poly.points.length →
        Polygon.edgeTest (poly.points.getD i ⟨0, 0⟩) (poly.points.getD j ⟨0, 0⟩) pt
          ≠ Except.error DivFault.divisionByZero ∧
        ((((decide ((poly.points.getD i ⟨0, 0⟩).y ≤ pt.y) &&
              decide (pt.y < (poly.points.getD j ⟨0, 0⟩).y)) ||
            (decide ((poly.points.getD j ⟨0, 0⟩).y ≤ pt.y) &&
              decide (pt.y < (poly.points.getD i ⟨0, 0⟩).y))) = true) →
          (poly.points.getD i ⟨0, 0⟩).y ≠ (poly.points.getD j ⟨0, 0⟩).y ∧
          wrap32 ((poly.points.getD j ⟨0, 0⟩).y - (poly.points.getD i ⟨0, 0⟩).y) ≠ 0)) ∧
      (poly.points = [] → poly.containsPoint pt = Except.ok false) ∧
      (Polygon.mk []).containsPoint pt = Except.ok false ∧
      (Polygon.mk [⟨-1, 0⟩, ⟨2147483647, 1⟩]).containsPoint ⟨5, 0⟩
        = Except.error DivFault.overflow := by
  refine ⟨?_, ?_, ?_, rfl, rfl⟩
  · unfold Polygon.containsPoint
    by_cases he : poly.points.isEmpty = true
    · rw [if_pos he]
      intro h
      cases h
    · rw [if_neg he]
      by_cases hb : poly.getBounds.ptInRect pt = true
      · simp only [hb, if_true]
        have hl := Polygon.containsLoop_ne_divisionByZero poly.points pt hrange
          (List.range poly.points.length) (poly.points.length - 1, false)
        cases hf : (List.range poly.points.length).foldlM
            (Polygon.containsStep poly.points pt) (poly.points.length - 1, false) with
        | error e =>
          intro hh
          apply hl
          rw [hf]
          simpa using hh
        | ok st =>
          intro hh
          cases hh
      · simp only [hb]
        intro h
        cases h
  · intro i j _ _
    exact ⟨Polygon.edgeTest_ne_divisionByZero _ _ pt (Polygon.getD_range poly.points hrange i)
        (Polygon.getD_range poly.points hrange j),
      fun hs => Polygon.divisor_ne_zero _ _ pt (Polygon.getD_range poly.points hrange i)
        (Polygon.getD_range poly.points hrange j) hs⟩
  · intro hnil
    simp [Polygon.containsPoint, hnil]

/-- Instance of C40: the triangle (0, 0), (4, 0), (0, 4), which has a horizontal edge, and
the point (1, 1). -/
theorem C40_containsPoint_no_division_by_zero_witness :
    triangle.containsPoint ⟨1, 1⟩ ≠ Except.error DivFault.divisionByZero ∧
      triangle.containsPoint ⟨1, 1⟩ = Except.ok true ∧
      (Polygon.mk []).containsPoint ⟨1, 1⟩ = Except.ok false :=
  have w := C40_containsPoint_no_division_by_zero triangle ⟨1, 1⟩ (by decide)
  ⟨w.1, rfl, w.2.2.2.1⟩

end mdsp

namespace cisim

open mdsp

section AsyncLoopLemmas

variable {State α : Type}

/-- A pass of the command loop that receives a command which does not own the latch at `x`
leaves that latch, and its number of owners, as they are. -/
theorem Thread.iteration_keeps_latch [Inhabited (Command α)] (H : Handlers State α)
    (t : Thread α) (state : State) (cw : List (SyncQueue (Command α))) (h : Heap)
    (cmd : Command α) (rest : List (Command α)) (x : Nat)
    (hq : t.channel.q.q = cmd :: rest)
    (hne : ∀ y, cmd.base = some { done := some y } → y ≠ x) :
    (t.iteration H state cw h).2.2.1[x]? = h[x]? := by
  have hrecv : t.channel.recv cw
      = ((SyncQStatus.OK, cmd), { q := { t.channel.q with q := rest } }) := by
    simp [Channel.recv, SyncQueue.getWithStatus_of_nonempty _ cw cmd rest hq]
  cases hb : cmd.base with
  | none => simp [Thread.iteration, hrecv, Thread.visit, hb, Command.dtor]
  | some y =>
    cases hy : y.done with
    | none =>
      have hn : y.notify h = (y, h) := by simp [Awaitable.notify, hy]
      simp [Thread.iteration, hrecv, Thread.visit, hb, Command.dtor, hn,
        Awaitable.dtor_null y h hy]
    | some a =>
      have hya : y = { done := some a } := by
        cases y
        simp only at hy
        rw [hy]
      have hax : x ≠ a := fun e => hne a (by rw [hb, hya]) e.symm
      have hn1 : (y.notify h).1 = { done := none } := by simp [Awaitable.notify, hy]
      have hn2 : (y.notify h).2[x]? = h[x]? := by
        simp [Awaitable.notify, hy, Heap.release, Heap.getElem?_modify, hax]
      simp [Thread.iteration, hrecv, Thread.visit, hb, Command.dtor, hn1,
        Awaitable.dtor_null { done := none } _ rfl, hn2]

/-- The worker of a running actor, at the test of the loop or in its body, makes one pass
per command of `cmds`, which the queue holds in front and none of which owns the latch at
`x`: that latch is left as it is. -/
theorem Actor.run_work_keeps_latch [Inhabited (Command α)] (H : Handlers State α) (x : Nat)
    (cmds : List (Command α)) :
    ∀ (a : Actor State α) (state : State) (rest : List (Command α)),
      (a.worker = Worker.looping state ∨ a.worker = Worker.receiving state) →
      a.self.running = true →
      a.self.channel.q.q = cmds ++ rest →
      (∀ c ∈ cmds, ∀ y, c.base = some { done := some y } → y ≠ x) →
      (a.run H (List.replicate cmds.length Event.work)).heap[x]? = a.heap[x]? ∧
        (a.run H (List.replicate cmds.length Event.work)).self.channel.q.q = rest ∧
        (a.run H (List.replicate cmds.length Event.work)).self.running = true ∧
        ((a.run H (List.replicate cmds.length Event.work)).worker
            = Worker.looping (cmds.foldl (fun s c => H.tick (H.execute s c)) state) ∨
          (a.run H (List.replicate cmds.length Event.work)).worker
            = Worker.receiving (cmds.foldl (fun s c => H.tick (H.execute s c)) state)) := by
  induction cmds with
  | nil =>
    intro a state rest hw hrun hq _
    simpa [Actor.run] using ⟨hq, hrun, hw⟩
  | cons cmd tail ih =>
    intro a state rest hw hrun hq hne
    have hit := Thread.iteration_of_front H a.self state [] a.heap cmd (tail ++ rest) hq
    have hkeep := Thread.iteration_keeps_latch H a.self state [] a.heap cmd (tail ++ rest) x hq
      (hne cmd (List.mem_cons_self _ _))
    have hstep : (a.workerStep H).worker = Worker.looping (H.tick (H.execute state cmd)) ∧
        (a.workerStep H).self.running = true ∧
        (a.workerStep H).self.channel.q.q = tail ++ rest ∧
        (a.workerStep H).heap[x]? = a.heap[x]? := by
      rcases hw with hw | hw
      · simp only [Actor.workerStep, hw, hrun]
        refine ⟨hit.2.1, ?_, ?_, hkeep⟩
        · simp [hit.2.2.1, hrun]
        · simp [hit.2.2.1]
      · simp only [Actor.workerStep, hw]
        refine ⟨hit.2.1, ?_, ?_, hkeep⟩
        · simp [hit.2.2.1, hrun]
        · simp [hit.2.2.1]
    obtain ⟨h1, h2, h3, h4⟩ := hstep
    have := ih (a.workerStep H) (H.tick (H.execute state cmd)) rest (Or.inl h1) h2 h3
      (fun c hc => hne c (List.mem_cons_of_mem _ hc))
    rw [h4] at this
    simpa [Actor.run, Actor.step, List.replicate_succ] using this

/-- The queue after `async<Alt, Dispatch>(args...)` that finds the queue open: the command
with the fresh handle is behind the commands already queued (Serial) or in front of them
(Priority). -/
theorem Thread.async_queue (d : Dispatch) (alt : Nat) (args : α) (t : Thread α)
    (wakeups : List (SyncQueue (Command α))) (h : Heap)
    (hopen : (t.channel.q.producerWait wakeups).shouldReceive = true) :
    (Thread.async d alt args t wakeups h).2.1.channel.q.q
      = (if d = Dispatch.Serial then (t.channel.q.producerWait wakeups).q else []) ++
          { index := alt, base := some { done := some h.length }, data := args } ::
          (if d = Dispatch.Serial then [] else (t.channel.q.producerWait wakeups).q) := by
  rw [Thread.async_eq]
  cases d <;>
    simp [Channel.send, Dispatch.call, SyncQueue.add_eq, SyncQueue.addFront_eq, hopen]

end AsyncLoopLemmas

/-- C26. A running actor whose worker is in its loop, and whose queued commands own latches
allocated earlier, is sent `h = async<Alt, Dispatch>(args...)`, the queue being open when
the producer wait ends; `n` commands are ahead of the new one (those already queued for
Serial dispatch, none for Priority).  The handle's latch is new, enabled, with count 0 and
expected 1.  After each of the first `k ≤ n` passes of the loop the latch is still so, and
a `wait` on `h` whose wake-ups all find the latch enabled and incomplete returns Timeout.
The next `recv()` after `n` passes returns the command with status OK, and after that pass
the latch has count 1 and `h.wait()` returns OK, whatever the time-out. -/
theorem C26_async_handle {State α : Type} [Inhabited (Command α)] (H : Handlers State α)
    (a : Actor State α) (state : State) (d : Dispatch) (alt : Nat) (args : α)
    (wakeups : List (SyncQueue (Command α))) (timeout : Option Time)
    (lw : List CountCondition)
    (hw : a.worker = Worker.looping state ∨ a.worker = Worker.receiving state)
    (hrun : a.self.running = true)
    (hopen : (a.self.channel.q.producerWait wakeups).shouldReceive = true)
    (halloc : ∀ c ∈ (a.self.channel.q.producerWait wakeups).q,
      ∀ y, c.base = some { done := some y } → y < a.heap.length) :
    (Thread.async d alt args a.self wakeups a.heap).1 = { done := some a.heap.length } ∧
      a.heap[a.heap.length]? = none ∧
      (Thread.async d alt args a.self wakeups a.heap).2.2[a.heap.length]?
        = some ⟨⟨true, 0, 1⟩, 2⟩ ∧
      (∀ k, k ≤ (if d = Dispatch.Serial
            then (a.self.channel.q.producerWait wakeups).q.length else 0) →
        (({ a with self := (Thread.async d alt args a.self wakeups a.heap).2.1
                   heap := (Thread.async d alt args a.self wakeups a.heap).2.2 } :
            Actor State α).run H (List.replicate k Event.work)).heap[a.heap.length]?
          = some ⟨⟨true, 0, 1⟩, 2⟩ ∧
        ((∀ w ∈ lw, w.shouldWait = true) →
          (Thread.async d alt args a.self wakeups a.heap).1.wait
            (({ a with self := (Thread.async d alt args a.self wakeups a.heap).2.1
                       heap := (Thread.async d alt args a.self wakeups a.heap).2.2 } :
              Actor State α).run H (List.replicate k Event.work)).heap timeout lw
            = some Result.Timeout)) ∧
      ((({ a with self := (Thread.async d alt args a.self wakeups a.heap).2.1
                  heap := (Thread.async d alt args a.self wakeups a.heap).2.2 } :
            Actor State α).run H (List.replicate (if d = Dispatch.Serial
              then (a.self.channel.q.producerWait wakeups).q.length else 0)
              Event.work)).self.channel.recv []).1
        = (SyncQStatus.OK,
           { index := alt, base := some { done := some a.heap.length }, data := args }) ∧
      (({ a with self := (Thread.async d alt args a.self wakeups a.heap).2.1
                 heap := (Thread.async d alt args a.self wakeups a.heap).2.2 } :
            Actor State α).run H (List.replicate ((if d = Dispatch.Serial
              then (a.self.channel.q.producerWait wakeups).q.length else 0) + 1)
              Event.work)).heap[a.heap.length]?
        = some ⟨⟨true, 1, 1⟩, 1⟩ ∧
      (Thread.async d alt args a.self wakeups a.heap).1.wait
          (({ a with self := (Thread.async d alt args a.self wakeups a.heap).2.1
                     heap := (Thread.async d alt args a.self wakeups a.heap).2.2 } :
            Actor State α).run H (List.replicate ((if d = Dispatch.Serial
              then (a.self.channel.q.producerWait wakeups).q.length else 0) + 1)
              Event.work)).heap timeout lw
        = some Result.OK := by
  have h1 : (Thread.async d alt args a.self wakeups a.heap).1 = { done := some a.heap.length } := by
    rw [Thread.async_eq]
  have h2 : (Thread.async d alt args a.self wakeups a.heap).2.2
      = a.heap ++ [⟨⟨true, 0, 1⟩, 2⟩] := by
    rw [Thread.async_eq]
    simp [hopen]
  have hb : (Thread.async d alt args a.self wakeups a.heap).2.2[a.heap.length]?
      = some ⟨⟨true, 0, 1⟩, 2⟩ := by
    rw [h2]
    simp
  have hrunning : (Thread.async d alt args a.self wakeups a.heap).2.1.running = true := by
    rw [Thread.async_eq]
    exact hrun
  have hqueue := Thread.async_queue d alt args a.self wakeups a.heap hopen
  generalize hpre : (if d = Dispatch.Serial
    then (a.self.channel.q.producerWait wakeups).q else []) = pre at hqueue
  generalize hpost : (if d = Dispatch.Serial
    then [] else (a.self.channel.q.producerWait wakeups).q) = post at hqueue
  have hn : (if d = Dispatch.Serial
      then (a.self.channel.q.producerWait wakeups).q.length else 0) = pre.length := by
    rw [← hpre]
    by_cases hd : d = Dispatch.Serial <;> simp [hd]
  have hprealloc : ∀ c ∈ pre, ∀ y, c.base = some { done := some y } → y ≠ a.heap.length := by
    intro c hc y hy
    have hmem : c ∈ (a.self.channel.q.producerWait wakeups).q := by
      rw [← hpre] at hc
      by_cases hd : d = Dispatch.Serial
      · simpa [hd] using hc
      · simp [hd] at hc
    have := halloc c hmem y hy
    omega
  rw [hn]
  generalize ha' : ({ a with self := (Thread.async d alt args a.self wakeups a.heap).2.1
                             heap := (Thread.async d alt args a.self wakeups a.heap).2.2 } :
            Actor State α) = a'
  have hw' : a'.worker = Worker.looping state ∨ a'.worker = Worker.receiving state := by
    rw [← ha']; exact hw
  have hrun' : a'.self.running = true := by rw [← ha']; exact hrunning
  have hq' : a'.self.channel.q.q
      = pre ++ { index := alt, base := some { done := some a.heap.length }, data := args } ::
          post := by
    rw [← ha']; exact hqueue
  have hb' : a'.heap[a.heap.length]? = some ⟨⟨true, 0, 1⟩, 2⟩ := by rw [← ha']; exact hb
  have hbefore : ∀ k, k ≤ pre.length →
      (a'.run H (List.replicate k Event.work)).heap[a.heap.length]?
        = some ⟨⟨true, 0, 1⟩, 2⟩ := by
    intro k hk
    have hsplit : a'.self.channel.q.q = pre.take k ++ (pre.drop k ++
        { index := alt, base := some { done := some a.heap.length }, data := args } ::
          post) := by
      rw [hq', ← List.append_assoc, List.take_append_drop]
    have hlen : (pre.take k).length = k := by simp [hk]
    have := Actor.run_work_keeps_latch H a.heap.length (pre.take k) a' state _ hw' hrun' hsplit
      (fun c hc => hprealloc c (List.mem_of_mem_take hc))
    rw [hlen] at this
    rw [this.1, hb']
  have hlast : (a'.run H (List.replicate (pre.length + 1) Event.work))
      = (a'.run H (List.replicate pre.length Event.work)).workerStep H := by
    simp [Actor.run, List.replicate_succ', List.foldl_append, Actor.step]
  have hafter : ∀ a2 : Actor State α,
      a2.heap[a.heap.length]? = some ⟨⟨true, 0, 1⟩, 2⟩ →
      a2.self.channel.q.q
        = { index := alt, base := some { done := some a.heap.length }, data := args } ::
            post →
      a2.self.running = true →
      (∀ st, a2.worker = Worker.looping st ∨ a2.worker = Worker.receiving st →
        (a2.workerStep H).heap[a.heap.length]? = some ⟨⟨true, 1, 1⟩, 1⟩) := by
    intro a2 hheap hq hrun st hw
    have hit := Thread.iteration_of_front_awaitable H a2.self st [] a2.heap
      { index := alt, base := some { done := some a.heap.length }, data := args } post
      a.heap.length ⟨⟨true, 0, 1⟩, 2⟩ hq rfl hheap
    have hlatch : (a2.self.iteration H st [] a2.heap).2.2.1[a.heap.length]?
        = some ⟨⟨true, 1, 1⟩, 1⟩ := by
      rw [hit.2.2.2.2]
      simp [CountCondition.notify, SIZE_MOD]
    rcases hw with hw | hw
    · simp only [Actor.workerStep, hw, hrun]
      exact hlatch
    · simp only [Actor.workerStep, hw]
      exact hlatch
  have hfin : (a'.run H (List.replicate (pre.length + 1) Event.work)).heap[a.heap.length]?
      = some ⟨⟨true, 1, 1⟩, 1⟩ := by
    rw [hlast]
    have hall' := Actor.run_work_keeps_latch H a.heap.length pre a' state _ hw' hrun' hq'
      hprealloc
    rcases hall'.2.2.2 with hwk | hwk
    · exact hafter _ (by rw [hall'.1, hb']) hall'.2.1 hall'.2.2.1 _ (Or.inl hwk)
    · exact hafter _ (by rw [hall'.1, hb']) hall'.2.1 hall'.2.2.1 _ (Or.inr hwk)
  refine ⟨h1, by simp, hb, ?_, ?_, hfin, ?_⟩
  · intro k hk
    refine ⟨hbefore k hk, ?_⟩
    intro hlw
    rw [h1]
    simp only [Awaitable.wait, hbefore k hk]
    rw [CountCondition.wait_timeout_of_never _ timeout lw (by decide) (by decide) hlw]
  · have hall' := Actor.run_work_keeps_latch H a.heap.length pre a' state _ hw' hrun' hq'
      hprealloc
    simp [Channel.recv, SyncQueue.getWithStatus_of_nonempty _ [] _ post hall'.2.1]
  · rw [h1]
    simp only [Awaitable.wait, hfin]
    simp [CountCondition.wait, CountCondition.shouldWait]

/-- Instance of C26: the adding actor started with 10 whose worker is in the loop and whose
queue holds `Add(1)`; `async` of alternative 0 with argument 4 and Serial dispatch puts the
command behind `Add(1)`.  After the pass that executes `Add(1)` the latch is unchanged and
a wait times out; after the next pass the latch is complete and the wait returns OK. -/
theorem C26_async_handle_witness :
    (Thread.async Dispatch.Serial 0 (4 : Int)
        (((Actor.new : Actor Int Int).start adder 10 defaultConfig).run adder
          (adderEvents [none, some 1])).self []
        (((Actor.new : Actor Int Int).start adder 10 defaultConfig).run adder
          (adderEvents [none, some 1])).heap).2.1.channel.q.q
        = [Add 1, { index := 0, base := some { done := some 0 }, data := 4 }] ∧
      (Thread.async Dispatch.Serial 0 (4 : Int)
        (((Actor.new : Actor Int Int).start adder 10 defaultConfig).run adder
          (adderEvents [none, some 1])).self []
        (((Actor.new : Actor Int Int).start adder 10 defaultConfig).run adder
          (adderEvents [none, some 1])).heap).1.wait
          (({ ((Actor.new : Actor Int Int).start adder 10 defaultConfig).run adder
                (adderEvents [none, some 1]) with
              self := (Thread.async Dispatch.Serial 0 (4 : Int)
                (((Actor.new : Actor Int Int).start adder 10 defaultConfig).run adder
                  (adderEvents [none, some 1])).self []
                (((Actor.new : Actor Int Int).start adder 10 defaultConfig).run adder
                  (adderEvents [none, some 1])).heap).2.1
              heap := (Thread.async Dispatch.Serial 0 (4 : Int)
                (((Actor.new : Actor Int Int).start adder 10 defaultConfig).run adder
                  (adderEvents [none, some 1])).self []
                (((Actor.new : Actor Int Int).start adder 10 defaultConfig).run adder
                  (adderEvents [none, some 1])).heap).2.2 } :
            Actor Int Int).run adder (List.replicate 1 Event.work)).heap
          (some (Time.FromSeconds 1)) [⟨true, 0, 1⟩] = some Result.Timeout ∧
      (Thread.async Dispatch.Serial 0 (4 : Int)
        (((Actor.new : Actor Int Int).start adder 10 defaultConfig).run adder
          (adderEvents [none, some 1])).self []
        (((Actor.new : Actor Int Int).start adder 10 defaultConfig).run adder
          (adderEvents [none, some 1])).heap).1.wait
          (({ ((Actor.new : Actor Int Int).start adder 10 defaultConfig).run adder
                (adderEvents [none, some 1]) with
              self := (Thread.async Dispatch.Serial 0 (4 : Int)
                (((Actor.new : Actor Int Int).start adder 10 defaultConfig).run adder
                  (adderEvents [none, some 1])).self []
                (((Actor.new : Actor Int Int).start adder 10 defaultConfig).run adder
                  (adderEvents [none, some 1])).heap).2.1
              heap := (Thread.async Dispatch.Serial 0 (4 : Int)
                (((Actor.new : Actor Int Int).start adder 10 defaultConfig).run adder
                  (adderEvents [none, some 1])).self []
                (((Actor.new : Actor Int Int).start adder 10 defaultConfig).run adder
                  (adderEvents [none, some 1])).heap).2.2 } :
            Actor Int Int).run adder (List.replicate 2 Event.work)).heap
          (some (Time.FromSeconds 1)) [⟨true, 0, 1⟩] = some Result.OK :=
  have w := C26_async_handle adder
    (((Actor.new : Actor Int Int).start adder 10 defaultConfig).run adder
      (adderEvents [none, some 1])) 10 Dispatch.Serial 0 (4 : Int) []
    (some (Time.FromSeconds 1)) [⟨true, 0, 1⟩] (Or.inl (by decide)) (by decide) (by decide)
    (by
      intro c hc y hy
      have hq : ((((Actor.new : Actor Int Int).start adder 10 defaultConfig).run adder
          (adderEvents [none, some 1])).self.channel.q.producerWait []).q = [Add 1] := by
        decide
      rw [hq] at hc
      simp only [List.mem_singleton] at hc
      subst hc
      simp [Add] at hy)
  ⟨by decide, (w.2.2.2.1 1 (by decide)).2 (by decide), w.2.2.2.2.2.2⟩

end cisim
